import Mathlib

/-!
Motion detection on STM32: signal conditioning, classification, repetition counting.

A shallow embedding of `src/main.cpp`.

Modelling conventions.

* `float`/`double` values are rationals (`ℚ`). In `sampling` and everything built on it
  the arithmetic is exact; `samplingFloat` is the same function with the result of every
  floating-point operation rounded by a `Rounding`, and it is `sampling` when nothing is
  rounded.
* The C library `acos` is kept abstract: it is the field `acos` of the environment `Env`.
* The accelerometer and the push button are input streams of the environment; the state
  counts how many readings of each were consumed (`reads`, `polls`), so the `k`-th reading
  of a run is `env.ReadData k`, resp. `env.MyButton k`.
* C arrays are total functions on `Nat`; only the indices below the declared extent are
  ever read by the code.
* Writes to the four LEDs and to the serial port are appended to an output `trace`;
  the delays (`wait_ms`, `thread_sleep_for`) change no variable and are not recorded.
* `while` loops take a `fuel` argument; a run is cut off (`Run.unfinished`) when it runs out.
-/

namespace MotionDetection

/-! ## Constants -/

/-- The constant `PI` of the source (`const float PI = 3.1415926`). -/
def PI : ℚ := 31415926 / 10000000

/-- Presample length: `const int PRESAMPLE_LENGTH = 20`. -/
def PRESAMPLE_LENGTH : Nat := 20

/-- Filter length: `const uint8_t N = 20`. -/
def N : Nat := 20

/-! ## Data model -/

/-- One raw reading of the accelerometer (`int16_t` per axis). -/
structure Raw where
  x : Int
  y : Int
  z : Int
deriving DecidableEq, Repr

/-- The external collaborators of the program. -/
structure Env where
  /-- The `k`-th triple delivered by `acc.ReadData`. -/
  ReadData : Nat → Raw
  /-- The level of `MyButton` at the `k`-th time it is read (`true` is `ON`). -/
  MyButton : Nat → Bool
  /-- The inverse cosine of the C library. -/
  acos : ℚ → ℚ

/-- The four LEDs. -/
inductive Led where
  | LED3
  | LED4
  | LED5
  | LED6
deriving DecidableEq, Repr

/-- The lines written to the serial terminal by the functions modelled here. -/
inductive Msg where
  | SitUps
  | JumpJacks
  | PushUps
  | Squarts
  | RountinedModel
deriving DecidableEq, Repr

/-- The four counting functions. -/
inductive Counter where
  | countSU
  | countPU
  | countJJ
  | countS
deriving DecidableEq, Repr

/-- Observable events, in program order. `call` is a ghost event recording that a counting
function was entered with the given argument. -/
inductive Event where
  | led (l : Led) (v : Bool)
  | print (m : Msg)
  | call (f : Counter) (initVal : Int)
deriving DecidableEq, Repr

/-- The global variables written by `sampling` and `sampleTwoSeconds`, together with the
ghost counter `reads` of accelerometer readings consumed so far. -/
structure Signal where
  xAccel : Int
  yAccel : Int
  zAccel : Int
  g_x : ℚ
  g_y : ℚ
  g_z : ℚ
  angleX : ℚ
  angleY : ℚ
  angleZ : ℚ
  presamplesBuffer : Nat → Nat → ℚ
  tempBuffer : Nat → ℚ
  ringbufX : Nat → ℚ
  ringbufY : Nat → ℚ
  ringbufZ : Nat → ℚ
  ringbuf_index_x : Nat
  ringbuf_index_y : Nat
  ringbuf_index_z : Nat
  reads : Nat

/-- The whole program state: the signal globals, the flag `isButtonPressed`, the local
variables of the function being executed, the ghost counter `polls` of button readings
consumed so far, and the output trace.

`count` is the local `countSU`/`countJJ`/`countPU`/`countS` of the counting function that
is running (no two of them are ever live together); the four `...Finished` flags are the
locals of `routinedExercise`. -/
structure State where
  sig : Signal
  isButtonPressed : Bool
  count : Int
  sitUpsFinished : Bool
  pushUpsFinished : Bool
  jumpJacksFinished : Bool
  squartsFinished : Bool
  polls : Nat
  trace : List Event

/-- The globals as initialised at power-on (all zero). -/
def Signal.init : Signal where
  xAccel := 0
  yAccel := 0
  zAccel := 0
  g_x := 0
  g_y := 0
  g_z := 0
  angleX := 0
  angleY := 0
  angleZ := 0
  presamplesBuffer := fun _ _ => 0
  tempBuffer := fun _ => 0
  ringbufX := fun _ => 0
  ringbufY := fun _ => 0
  ringbufZ := fun _ => 0
  ringbuf_index_x := 0
  ringbuf_index_y := 0
  ringbuf_index_z := 0
  reads := 0

/-- The program state at power-on. -/
def State.init : State where
  sig := Signal.init
  isButtonPressed := false
  count := 0
  sitUpsFinished := false
  pushUpsFinished := false
  jumpJacksFinished := false
  squartsFinished := false
  polls := 0
  trace := []

/-! ## Signal conditioner: `sampling` and `sampleTwoSeconds` -/

/-- The loop `for (uint8_t i = 0; i < N; i++) g_filt += ringbuf[i]`, started from `0`, in
exact arithmetic (`addAllSamplesFloat` is the loop with every addition rounded). -/
def addAllSamples (ringbuf : Nat → ℚ) : ℚ :=
  (List.range N).foldl (fun g_filt i => g_filt + ringbuf i) 0

/-- The filtered value before the clamp: all samples added, then `g_filt /= (float)N`. -/
def movingAverage (ringbuf : Nat → ℚ) : ℚ :=
  addAllSamples ringbuf / (N : ℚ)

/-- Clamp `if (g_filt > 1) g_filt = 1`. -/
def restrictTo1g (g_filt : ℚ) : ℚ :=
  if g_filt > 1 then 1 else g_filt

/-- Angle in degrees: `180*acos(g_filt)/PI`. -/
def angleDeg (env : Env) (g_filt : ℚ) : ℚ :=
  180 * env.acos g_filt / PI

/-- The post-increment of a `uint8_t` index followed by the wrap
`if (ringbuf_index >= N) ringbuf_index = 0`. -/
def nextIndex (ringbuf_index : Nat) : Nat :=
  if (ringbuf_index + 1) % 256 ≥ N then 0 else (ringbuf_index + 1) % 256

/-- Function `sampling` of the source: one reading per axis, inserted in the ring buffers,
filtered, clamped, converted to an angle and stored in `tempBuffer`. -/
def sampling (env : Env) (g : Signal) : Signal :=
  let r := env.ReadData g.reads
  let g_x : ℚ := (r.x : ℚ) / 17694
  let g_y : ℚ := (r.y : ℚ) / 17694
  let g_z : ℚ := (r.z : ℚ) / 17694
  let ringbufX := Function.update g.ringbufX g.ringbuf_index_x g_x
  let ringbufY := Function.update g.ringbufY g.ringbuf_index_y g_y
  let ringbufZ := Function.update g.ringbufZ g.ringbuf_index_z g_z
  let g_x_filt := restrictTo1g (movingAverage ringbufX)
  let g_y_filt := restrictTo1g (movingAverage ringbufY)
  let g_z_filt := restrictTo1g (movingAverage ringbufZ)
  let angleX := angleDeg env g_x_filt
  let angleY := angleDeg env g_y_filt
  let angleZ := angleDeg env g_z_filt
  { g with
    xAccel := r.x
    yAccel := r.y
    zAccel := r.z
    g_x := g_x
    g_y := g_y
    g_z := g_z
    ringbufX := ringbufX
    ringbufY := ringbufY
    ringbufZ := ringbufZ
    ringbuf_index_x := nextIndex g.ringbuf_index_x
    ringbuf_index_y := nextIndex g.ringbuf_index_y
    ringbuf_index_z := nextIndex g.ringbuf_index_z
    angleX := angleX
    angleY := angleY
    angleZ := angleZ
    tempBuffer := Function.update (Function.update (Function.update g.tempBuffer
      0 angleX) 1 angleY) 2 angleZ
    reads := g.reads + 1 }

/-- Body of the loop of `sampleTwoSeconds` at index `i`: one call of `sampling`, whose
result is copied from `tempBuffer` into row `i` of `presamplesBuffer`. -/
def sampleAt (env : Env) (g : Signal) (i : Nat) : Signal :=
  let g1 := sampling env g
  { g1 with
    presamplesBuffer := Function.update g1.presamplesBuffer i
      (Function.update (Function.update (Function.update (g1.presamplesBuffer i)
        0 (g1.tempBuffer 0)) 1 (g1.tempBuffer 1)) 2 (g1.tempBuffer 2)) }

/-- Function `sampleTwoSeconds` of the source: `for (i = 0; i < PRESAMPLE_LENGTH; i++)`. -/
def sampleTwoSeconds (env : Env) (g : Signal) : Signal :=
  (List.range PRESAMPLE_LENGTH).foldl (sampleAt env) g

/-! ## Repetition counter: the peak scan -/

/-- The scan that occurs, textually identical, in `countSU`, `countJJ`, `countPU`, `countS`
and four times in `freeToExercise`:
`for (i = 1; i < PRESAMPLE_LENGTH-1; i++) if (buf[i][1] > buf[i-1][1] && buf[i][1] > buf[i+1][1]) count++`,
started with the counter at `count`. -/
def peakScan (presamplesBuffer : Nat → Nat → ℚ) (count : Int) : Int :=
  (List.range' 1 (PRESAMPLE_LENGTH - 1 - 1)).foldl
    (fun count i =>
      if presamplesBuffer i 1 > presamplesBuffer (i - 1) 1
          ∧ presamplesBuffer i 1 > presamplesBuffer (i + 1) 1 then count + 1 else count)
    count

/-- Specification of the peak count, in the words of the claim: the number of indices `i`
with `1 ≤ i ≤ 18` at which the Y column is strictly above both neighbours. -/
def strictLocalMaxCount (window : Nat → Nat → ℚ) : Nat :=
  ((Finset.Icc 1 18).filter
    (fun i => window i 1 > window (i - 1) 1 ∧ window i 1 > window (i + 1) 1)).card

/-- A window whose Y column starts 1, 3, 1, 5, 1 and is constant afterwards. -/
def windowTwoPeaks : Nat → Nat → ℚ := fun i _ =>
  match i with
  | 1 => 3
  | 3 => 5
  | _ => 1

/-- A window whose only strict maxima of the Y column are at its two ends, 0 and 19. -/
def windowEndPeaks : Nat → Nat → ℚ := fun i _ =>
  match i with
  | 0 => 7
  | 19 => 7
  | _ => 1

/-! ## Outputs, button, result of a run -/

/-- Result of running a piece of code with a bounded number of loop iterations: it has
returned in state `s`, or the fuel ran out while it was still running, in state `s`. -/
inductive Run where
  | returned (s : State)
  | unfinished (s : State)

/-- The state in which a run ended or was cut off. -/
def Run.state : Run → State
  | .returned s => s
  | .unfinished s => s

/-- Whether the run has returned. -/
def Run.isReturned : Run → Bool
  | .returned _ => true
  | .unfinished _ => false

/-- Append outputs to the trace. -/
def State.emit (s : State) (es : List Event) : State :=
  { s with trace := s.trace ++ es }

/-- The statement `isButtonPressed = MyButton;`. -/
def pollButton (env : Env) (s : State) : State :=
  { s with isButtonPressed := env.MyButton s.polls, polls := s.polls + 1 }

/-- The LED that each counting function drives. -/
def Counter.led : Counter → Led
  | .countSU => .LED3
  | .countPU => .LED5
  | .countJJ => .LED6
  | .countS => .LED4

/-- One short blink `LED = ON; sleep; LED = OFF; sleep`. -/
def blinkOnce (l : Led) : List Event :=
  [.led l true, .led l false]

/-- The progress display `for (int i = 0; i < count; i++) { LED = ON; ...; LED = OFF; ... }`
on LED `l`, with `count` the local counter. -/
def display (l : Led) (s : State) : State :=
  (List.range s.count.toNat).foldl (fun s _ => s.emit (blinkOnce l)) s

/-- All four LEDs on, then all four off (one pass of the all-LED blink). -/
def blinkAll : List Event :=
  [.led .LED3 true, .led .LED5 true, .led .LED6 true, .led .LED4 true,
   .led .LED3 false, .led .LED5 false, .led .LED6 false, .led .LED4 false]

/-- The loop `for (int i = 0; i < 3; i++)` around the all-LED blink. -/
def blinkAllThrice (s : State) : State :=
  (List.range 3).foldl (fun s _ => s.emit blinkAll) s

/-- One pass of a chase over four LEDs, each switched on and off in turn. -/
def chase (a b c d : Led) : List Event :=
  [.led a true, .led a false, .led b true, .led b false,
   .led c true, .led c false, .led d true, .led d false]

/-! ## Exercise classifier: `isSU`, `isJJ`, `isPU`, `isS` -/

/-- The summing loop at the head of each of `isSU`, `isJJ`, `isPU`, `isS`: the triple
`(sumX, sumY, sumZ)` over the `PRESAMPLE_LENGTH` rows of `presamplesBuffer`. -/
def axisSums (presamplesBuffer : Nat → Nat → ℚ) : ℚ × ℚ × ℚ :=
  (List.range PRESAMPLE_LENGTH).foldl
    (fun sum i =>
      (sum.1 + presamplesBuffer i 0, sum.2.1 + presamplesBuffer i 1,
        sum.2.2 + presamplesBuffer i 2))
    (0, 0, 0)

/-- Function `isSU` of the source. -/
def isSU (s : State) : Bool × State :=
  let sumX := (axisSums s.sig.presamplesBuffer).1
  let sumY := (axisSums s.sig.presamplesBuffer).2.1
  let sumZ := (axisSums s.sig.presamplesBuffer).2.2
  if sumZ / (PRESAMPLE_LENGTH : ℚ) ≤ 180 ∧ sumZ / (PRESAMPLE_LENGTH : ℚ) ≥ 120
      ∧ sumY / (PRESAMPLE_LENGTH : ℚ) ≤ 140 ∧ sumY / (PRESAMPLE_LENGTH : ℚ) ≥ 80
      ∧ sumX / (PRESAMPLE_LENGTH : ℚ) ≤ 100 ∧ sumX / (PRESAMPLE_LENGTH : ℚ) ≥ 60 then
    (true, s.emit [.led .LED3 true, .print .SitUps])
  else (false, s)

/-- Function `isJJ` of the source. -/
def isJJ (s : State) : Bool × State :=
  let sumX := (axisSums s.sig.presamplesBuffer).1
  let sumY := (axisSums s.sig.presamplesBuffer).2.1
  let sumZ := (axisSums s.sig.presamplesBuffer).2.2
  if sumZ / (PRESAMPLE_LENGTH : ℚ) ≤ 80 ∧ sumZ / (PRESAMPLE_LENGTH : ℚ) ≥ 30
      ∧ sumY / (PRESAMPLE_LENGTH : ℚ) ≤ 120 ∧ sumY / (PRESAMPLE_LENGTH : ℚ) ≥ 80
      ∧ sumX / (PRESAMPLE_LENGTH : ℚ) ≤ 160 ∧ sumX / (PRESAMPLE_LENGTH : ℚ) ≥ 60 then
    (true, s.emit [.led .LED6 true, .print .JumpJacks])
  else (false, s)

/-- Function `isPU` of the source. -/
def isPU (s : State) : Bool × State :=
  let sumX := (axisSums s.sig.presamplesBuffer).1
  let sumY := (axisSums s.sig.presamplesBuffer).2.1
  let sumZ := (axisSums s.sig.presamplesBuffer).2.2
  if sumZ / (PRESAMPLE_LENGTH : ℚ) ≤ 40 ∧ sumZ / (PRESAMPLE_LENGTH : ℚ) ≥ 20
      ∧ sumY / (PRESAMPLE_LENGTH : ℚ) ≤ 90 ∧ sumY / (PRESAMPLE_LENGTH : ℚ) ≥ 60
      ∧ sumX / (PRESAMPLE_LENGTH : ℚ) ≤ 100 ∧ sumX / (PRESAMPLE_LENGTH : ℚ) ≥ 80 then
    (true, s.emit [.led .LED5 true, .print .PushUps])
  else (false, s)

/-- Function `isS` of the source. -/
def isS (s : State) : Bool × State :=
  let sumX := (axisSums s.sig.presamplesBuffer).1
  let sumY := (axisSums s.sig.presamplesBuffer).2.1
  let sumZ := (axisSums s.sig.presamplesBuffer).2.2
  if sumZ / (PRESAMPLE_LENGTH : ℚ) ≤ 180 ∧ sumZ / (PRESAMPLE_LENGTH : ℚ) ≥ 120
      ∧ sumY / (PRESAMPLE_LENGTH : ℚ) ≤ 140 ∧ sumY / (PRESAMPLE_LENGTH : ℚ) ≥ 80
      ∧ sumX / (PRESAMPLE_LENGTH : ℚ) ≤ 100 ∧ sumX / (PRESAMPLE_LENGTH : ℚ) ≥ 60 then
    (true, s.emit [.led .LED4 true, .print .Squarts])
  else (false, s)

/-! ## Per-exercise counting loops -/

/-- The inner loop of `countSU`:
`while (MyButton != ON && countSU < 5) { sampleTwoSeconds(); <peak scan> }`.
The button is read at every evaluation of the condition, before the counter is tested. -/
def countSU_inner (env : Env) : Nat → State → Run
  | 0, s => .unfinished s
  | fuel + 1, s =>
    let s1 := { s with polls := s.polls + 1 }
    if env.MyButton s.polls ≠ true ∧ s.count < 5 then
      let s2 := { s1 with sig := sampleTwoSeconds env s1.sig }
      countSU_inner env fuel { s2 with count := peakScan s2.sig.presamplesBuffer s2.count }
    else .returned s1

/-- The outer loop of `countSU`: `while (countSU < 5) { <inner loop>; <display on LED3> }`. -/
def countSU_outer (env : Env) : Nat → State → Run
  | 0, s => .unfinished s
  | fuel + 1, s =>
    if s.count < 5 then
      match countSU_inner env fuel s with
      | .unfinished s1 => .unfinished s1
      | .returned s1 => countSU_outer env fuel (display .LED3 s1)
    else .returned s

/-- Function `countSU` of the source. -/
def countSU (env : Env) (fuel : Nat) (s : State) (initVal : Int) : Run :=
  countSU_outer env fuel { s.emit [.call .countSU initVal] with count := initVal }

/-- The inner loop of `countJJ`. -/
def countJJ_inner (env : Env) : Nat → State → Run
  | 0, s => .unfinished s
  | fuel + 1, s =>
    let s1 := { s with polls := s.polls + 1 }
    if env.MyButton s.polls ≠ true ∧ s.count < 5 then
      let s2 := { s1 with sig := sampleTwoSeconds env s1.sig }
      countJJ_inner env fuel { s2 with count := peakScan s2.sig.presamplesBuffer s2.count }
    else .returned s1

/-- The outer loop of `countJJ`, with the display on LED6. -/
def countJJ_outer (env : Env) : Nat → State → Run
  | 0, s => .unfinished s
  | fuel + 1, s =>
    if s.count < 5 then
      match countJJ_inner env fuel s with
      | .unfinished s1 => .unfinished s1
      | .returned s1 => countJJ_outer env fuel (display .LED6 s1)
    else .returned s

/-- Function `countJJ` of the source. -/
def countJJ (env : Env) (fuel : Nat) (s : State) (initVal : Int) : Run :=
  countJJ_outer env fuel { s.emit [.call .countJJ initVal] with count := initVal }

/-- The inner loop of `countPU`. -/
def countPU_inner (env : Env) : Nat → State → Run
  | 0, s => .unfinished s
  | fuel + 1, s =>
    let s1 := { s with polls := s.polls + 1 }
    if env.MyButton s.polls ≠ true ∧ s.count < 5 then
      let s2 := { s1 with sig := sampleTwoSeconds env s1.sig }
      countPU_inner env fuel { s2 with count := peakScan s2.sig.presamplesBuffer s2.count }
    else .returned s1

/-- The outer loop of `countPU`, with the display on LED5. -/
def countPU_outer (env : Env) : Nat → State → Run
  | 0, s => .unfinished s
  | fuel + 1, s =>
    if s.count < 5 then
      match countPU_inner env fuel s with
      | .unfinished s1 => .unfinished s1
      | .returned s1 => countPU_outer env fuel (display .LED5 s1)
    else .returned s

/-- Function `countPU` of the source. -/
def countPU (env : Env) (fuel : Nat) (s : State) (initVal : Int) : Run :=
  countPU_outer env fuel { s.emit [.call .countPU initVal] with count := initVal }

/-- The inner loop of `countS`. -/
def countS_inner (env : Env) : Nat → State → Run
  | 0, s => .unfinished s
  | fuel + 1, s =>
    let s1 := { s with polls := s.polls + 1 }
    if env.MyButton s.polls ≠ true ∧ s.count < 5 then
      let s2 := { s1 with sig := sampleTwoSeconds env s1.sig }
      countS_inner env fuel { s2 with count := peakScan s2.sig.presamplesBuffer s2.count }
    else .returned s1

/-- The outer loop of `countS`, with the display on LED4. -/
def countS_outer (env : Env) : Nat → State → Run
  | 0, s => .unfinished s
  | fuel + 1, s =>
    if s.count < 5 then
      match countS_inner env fuel s with
      | .unfinished s1 => .unfinished s1
      | .returned s1 => countS_outer env fuel (display .LED4 s1)
    else .returned s

/-- Function `countS` of the source. -/
def countS (env : Env) (fuel : Nat) (s : State) (initVal : Int) : Run :=
  countS_outer env fuel { s.emit [.call .countS initVal] with count := initVal }

/-- The counting function named by `f`. -/
def Counter.run : Counter → Env → Nat → State → Int → Run
  | .countSU => MotionDetection.countSU
  | .countPU => MotionDetection.countPU
  | .countJJ => MotionDetection.countJJ
  | .countS => MotionDetection.countS

/-- Sequencing: continue with `k` from the state in which `r` returned; a run that was
cut off stays cut off. -/
def Run.andThen (r : Run) (k : State → Run) : Run :=
  match r with
  | .returned s => k s
  | .unfinished s => .unfinished s

/-! ## Free exercise mode -/

/-- The loop `while(!isButtonPressed) { ... }` of `freeToExercise`. Each of the four
branches computes `initVal` by the peak scan started at 0, calls the counting function,
blinks all LEDs three times and returns. -/
def freeToExercise_loop (env : Env) : Nat → State → Run
  | 0, s => .unfinished s
  | fuel + 1, s =>
    if !s.isButtonPressed then
      let s1 := pollButton env s
      if s1.isButtonPressed then .returned s1
      else
        let s2 := { s1 with sig := sampleTwoSeconds env s1.sig }
        let su := isSU s2
        if su.1 then
          (countSU env fuel su.2 (peakScan su.2.sig.presamplesBuffer 0)).andThen
            fun s3 => .returned (blinkAllThrice s3)
        else
          let pu := isPU su.2
          if pu.1 then
            (countPU env fuel pu.2 (peakScan pu.2.sig.presamplesBuffer 0)).andThen
              fun s3 => .returned (blinkAllThrice s3)
          else
            let jj := isJJ pu.2
            if jj.1 then
              (countJJ env fuel jj.2 (peakScan jj.2.sig.presamplesBuffer 0)).andThen
                fun s3 => .returned (blinkAllThrice s3)
            else
              let sq := isS jj.2
              if sq.1 then
                (countS env fuel sq.2 (peakScan sq.2.sig.presamplesBuffer 0)).andThen
                  fun s3 => .returned (blinkAllThrice s3)
              else freeToExercise_loop env fuel sq.2
    else .returned s

/-- Function `freeToExercise` of the source: the entry chase (three passes over
LED3, LED5, LED6, LED4), then the loop. -/
def freeToExercise (env : Env) (fuel : Nat) (s : State) : Run :=
  freeToExercise_loop env fuel
    ((List.range 3).foldl (fun s _ => s.emit (chase .LED3 .LED5 .LED6 .LED4)) s)

/-! ## Routine exercise mode -/

/-- The final loop `while (MyButton != ON) { <all-LED blink> }` of `routinedExercise`. -/
def waitForRestart (env : Env) : Nat → State → Run
  | 0, s => .unfinished s
  | fuel + 1, s =>
    let s1 := { s with polls := s.polls + 1 }
    if env.MyButton s.polls ≠ true then waitForRestart env fuel (s1.emit blinkAll)
    else .returned s1

/-- First `if` of the loop body of `routinedExercise` (detection for Situps). -/
def stageSitUps (env : Env) (fuel : Nat) (s : State) : Run :=
  if s.isButtonPressed && !s.sitUpsFinished && !s.pushUpsFinished
      && !s.jumpJacksFinished && !s.squartsFinished then
    (countSU env fuel (s.emit [.led .LED3 true]) 0).andThen
      fun s1 => .returned { s1 with sitUpsFinished := true }
  else .returned s

/-- Second `if` of the loop body of `routinedExercise` (detection for Pushups). -/
def stagePushUps (env : Env) (fuel : Nat) (s : State) : Run :=
  if s.isButtonPressed && s.sitUpsFinished && !s.pushUpsFinished
      && !s.jumpJacksFinished && !s.squartsFinished then
    (countPU env fuel (s.emit [.led .LED5 true]) 0).andThen
      fun s1 => .returned { s1 with pushUpsFinished := true }
  else .returned s

/-- Third `if` of the loop body of `routinedExercise` (detection for Jumping Jacks). -/
def stageJumpJacks (env : Env) (fuel : Nat) (s : State) : Run :=
  if s.isButtonPressed && s.sitUpsFinished && s.pushUpsFinished
      && !s.jumpJacksFinished && !s.squartsFinished then
    (countJJ env fuel (s.emit [.led .LED6 true]) 0).andThen
      fun s1 => .returned { s1 with jumpJacksFinished := true }
  else .returned s

/-- Body of the fourth `if` of the loop of `routinedExercise` (detection for Squats), which
ends with the final wait loop and `return`. -/
def stageSquats (env : Env) (fuel : Nat) (s : State) : Run :=
  (countS env fuel (s.emit [.led .LED4 true]) 0).andThen fun s1 =>
  waitForRestart env fuel { s1 with squartsFinished := true }

/-- The loop `while(true) { ... }` of `routinedExercise`: the button is read before each of
the four stage tests; the body of the fourth one returns from the function. -/
def routinedExercise_loop (env : Env) : Nat → State → Run
  | 0, s => .unfinished s
  | fuel + 1, s =>
    (stageSitUps env fuel (pollButton env s)).andThen fun s1 =>
    (stagePushUps env fuel (pollButton env s1)).andThen fun s2 =>
    (stageJumpJacks env fuel (pollButton env s2)).andThen fun s3 =>
    let s4 := pollButton env s3
    if s4.isButtonPressed && s4.sitUpsFinished && s4.pushUpsFinished
        && s4.jumpJacksFinished && !s4.squartsFinished then
      stageSquats env fuel s4
    else routinedExercise_loop env fuel s4

/-- Function `routinedExercise` of the source: the entry chase (three passes over
LED4, LED6, LED5, LED3), the diagnostic line, the four flags cleared, then the loop. -/
def routinedExercise (env : Env) (fuel : Nat) (s : State) : Run :=
  let s1 := (List.range 3).foldl (fun s _ => s.emit (chase .LED4 .LED6 .LED5 .LED3)) s
  let s2 := s1.emit [.print .RountinedModel]
  routinedExercise_loop env fuel
    { s2 with
      sitUpsFinished := false
      pushUpsFinished := false
      jumpJacksFinished := false
      squartsFinished := false }

/-! ## The counting loops as one loop -/

/-- One pass of the body of the inner loop of a counting function, after its condition
was found true: the button has been read, a window is acquired and scanned for peaks. -/
def acquire (env : Env) (s : State) : State :=
  let s1 := { s with polls := s.polls + 1 }
  let s2 := { s1 with sig := sampleTwoSeconds env s1.sig }
  { s2 with count := peakScan s2.sig.presamplesBuffer s2.count }

/-- Leaving the inner loop: its condition was evaluated, so the button has been read. -/
def leaveInner (s : State) : State :=
  { s with polls := s.polls + 1 }

/-- The inner loop shared by the four counting functions. -/
def count_inner (env : Env) : Nat → State → Run
  | 0, s => .unfinished s
  | fuel + 1, s =>
    if env.MyButton s.polls ≠ true ∧ s.count < 5 then count_inner env fuel (acquire env s)
    else .returned (leaveInner s)

/-- The outer loop of a counting function, with the LED of the display as a parameter. -/
def count_outer (l : Led) (env : Env) : Nat → State → Run
  | 0, s => .unfinished s
  | fuel + 1, s =>
    if s.count < 5 then
      (count_inner env fuel s).andThen fun s1 => count_outer l env fuel (display l s1)
    else .returned s

/-- One counter for the four exercises, parameterised by the function it stands for
(which fixes the LED). -/
def countGeneric (f : Counter) (env : Env) (fuel : Nat) (s : State) (initVal : Int) : Run :=
  count_outer f.led env fuel { s.emit [.call f initVal] with count := initVal }

/-- The inner loop of the counting function named by `f`. -/
def Counter.inner : Counter → Env → Nat → State → Run
  | .countSU => countSU_inner
  | .countPU => countPU_inner
  | .countJJ => countJJ_inner
  | .countS => countS_inner

/-- The outer loop of the counting function named by `f`. -/
def Counter.outer : Counter → Env → Nat → State → Run
  | .countSU => countSU_outer
  | .countPU => countPU_outer
  | .countJJ => countJJ_outer
  | .countS => countS_outer

/-- Peak count of the `(j+1)`-th window acquired when sampling starts in signal state `g`. -/
def windowPeaks (env : Env) (g : Signal) (j : Nat) : Nat :=
  strictLocalMaxCount ((sampleTwoSeconds env)^[j + 1] g).presamplesBuffer

/-- The tally `c` plus the peak counts of the first `k` windows acquired from `g`. -/
def tallyAfter (env : Env) (g : Signal) (c : Int) (k : Nat) : Int :=
  c + ∑ j ∈ Finset.range k, (windowPeaks env g j : Int)

/-- The counting-function calls recorded in a trace, in order. -/
def calls : List Event → List (Counter × Int)
  | [] => []
  | .call f initVal :: t => (f, initVal) :: calls t
  | .led _ _ :: t => calls t
  | .print _ :: t => calls t

/-- How many times LED `l` is switched on in a trace. -/
def onCount (l : Led) (t : List Event) : Nat :=
  t.count (.led l true)

/-- The four `...Finished` flags, in the order SitUps, PushUps, JumpingJacks, Squats. -/
def State.finished (s : State) : List Bool :=
  [s.sitUpsFinished, s.pushUpsFinished, s.jumpJacksFinished, s.squartsFinished]

/-- State `s2` is reached from `s1` by acquiring some number `k` of windows, each of which
added its peak count to the counter. -/
def Acquired (env : Env) (s1 s2 : State) : Prop :=
  ∃ k, s2.sig = (sampleTwoSeconds env)^[k] s1.sig ∧ s2.count = tallyAfter env s1.sig s1.count k

/-! ## Specification of the classification -/

/-- The labels of the specification. -/
inductive ExerciseLabel where
  | SitUps
  | PushUps
  | JumpingJacks
  | Squats
  | Unknown
deriving DecidableEq, Repr

/-- Per-axis mean of a window, in the words of the claim: the sum of the 20 entries of the
axis divided by 20. -/
def axisMean (window : Nat → Nat → ℚ) (axis : Nat) : ℚ :=
  (∑ i ∈ Finset.range 20, window i axis) / 20

/-- A rectangular region: one closed interval per axis. -/
structure Region where
  xlo : ℚ
  xhi : ℚ
  ylo : ℚ
  yhi : ℚ
  zlo : ℚ
  zhi : ℚ

/-- The three-axis closed-interval predicate of a region, on the per-axis means. -/
def Region.holds (r : Region) (window : Nat → Nat → ℚ) : Prop :=
  (r.xlo ≤ axisMean window 0 ∧ axisMean window 0 ≤ r.xhi)
    ∧ (r.ylo ≤ axisMean window 1 ∧ axisMean window 1 ≤ r.yhi)
    ∧ (r.zlo ≤ axisMean window 2 ∧ axisMean window 2 ≤ r.zhi)

instance (r : Region) (window : Nat → Nat → ℚ) : Decidable (r.holds window) :=
  inferInstanceAs (Decidable
    ((r.xlo ≤ axisMean window 0 ∧ axisMean window 0 ≤ r.xhi)
      ∧ (r.ylo ≤ axisMean window 1 ∧ axisMean window 1 ≤ r.yhi)
      ∧ (r.zlo ≤ axisMean window 2 ∧ axisMean window 2 ≤ r.zhi)))

/-- The four labelled regions in the fixed priority order SitUps, PushUps, JumpingJacks,
Squats, with the thresholds of `isSU`, `isPU`, `isJJ`, `isS`. -/
def priorityOrder : List (ExerciseLabel × Region) :=
  [(.SitUps, ⟨60, 100, 80, 140, 120, 180⟩),
   (.PushUps, ⟨80, 100, 60, 90, 20, 40⟩),
   (.JumpingJacks, ⟨60, 160, 80, 120, 30, 80⟩),
   (.Squats, ⟨60, 100, 80, 140, 120, 180⟩)]

/-- Specification of the label: the first label in the priority order whose predicate
holds on the window, `Unknown` when there is none. -/
def classify (window : Nat → Nat → ℚ) : ExerciseLabel :=
  match priorityOrder.find? (fun p => decide (p.2.holds window)) with
  | some p => p.1
  | none => .Unknown

/-- Start of an iteration of the loop of `freeToExercise` in which the button is not
pressed: the button is read into `isButtonPressed`, then a window is acquired. -/
def freeAcquire (env : Env) (s : State) : State :=
  let s1 := pollButton env s
  { s1 with sig := sampleTwoSeconds env s1.sig }

/-- End of a branch of `freeToExercise`: all LEDs blink three times, then `return`. -/
def finishFree (s : State) : Run :=
  .returned (blinkAllThrice s)

/-- The chain of the four tests in the body of the loop of `freeToExercise`, run on the
state `s2` that holds the freshly acquired window (the text of the loop body from
`if (isSU())` to its end). -/
def freeDispatch (env : Env) (fuel : Nat) (s2 : State) : Run :=
  let su := isSU s2
  if su.1 then
    (countSU env fuel su.2 (peakScan su.2.sig.presamplesBuffer 0)).andThen
      fun s3 => .returned (blinkAllThrice s3)
  else
    let pu := isPU su.2
    if pu.1 then
      (countPU env fuel pu.2 (peakScan pu.2.sig.presamplesBuffer 0)).andThen
        fun s3 => .returned (blinkAllThrice s3)
    else
      let jj := isJJ pu.2
      if jj.1 then
        (countJJ env fuel jj.2 (peakScan jj.2.sig.presamplesBuffer 0)).andThen
          fun s3 => .returned (blinkAllThrice s3)
      else
        let sq := isS jj.2
        if sq.1 then
          (countS env fuel sq.2 (peakScan sq.2.sig.presamplesBuffer 0)).andThen
            fun s3 => .returned (blinkAllThrice s3)
        else freeToExercise_loop env fuel sq.2

/-- What the specification lets an iteration of the free-exercise loop do with a freshly
acquired window, given its label: signal the exercise, start its counting function seeded
with the peak count of this window, and finish; or, for `Unknown`, iterate again. -/
def startCounting (env : Env) (fuel : Nat) (s : State) : ExerciseLabel → Run
  | .SitUps =>
    (countSU env fuel (s.emit [.led .LED3 true, .print .SitUps])
      (peakScan s.sig.presamplesBuffer 0)).andThen finishFree
  | .PushUps =>
    (countPU env fuel (s.emit [.led .LED5 true, .print .PushUps])
      (peakScan s.sig.presamplesBuffer 0)).andThen finishFree
  | .JumpingJacks =>
    (countJJ env fuel (s.emit [.led .LED6 true, .print .JumpJacks])
      (peakScan s.sig.presamplesBuffer 0)).andThen finishFree
  | .Squats =>
    (countS env fuel (s.emit [.led .LED4 true, .print .Squarts])
      (peakScan s.sig.presamplesBuffer 0)).andThen finishFree
  | .Unknown => freeToExercise_loop env fuel s

/-! ## Example inputs -/

/-- Raw Y readings of the example session: three dips in the first 20 readings, one in
each of the next two groups of 20. -/
def demoY : Nat → Int
  | 1 => -1
  | 2 => 1
  | 3 => -1
  | 4 => 1
  | 5 => -1
  | 6 => 1
  | 21 => -2
  | 22 => 2
  | 23 => -1
  | 24 => 1
  | 25 => -1
  | 26 => 1
  | 41 => -3
  | 42 => 3
  | 43 => -1
  | 44 => 1
  | 45 => -1
  | 46 => 1
  | _ => 0

/-- An example environment: X reads 0, Z reads 5898 (a third of 17694), the button is
never pressed, and the inverse cosine is replaced by the line through (1, 0) and
(-1, PI), so that an angle is `90 * (1 - g)` degrees. -/
def demoEnv : Env where
  ReadData k := ⟨0, demoY k, 5898⟩
  MyButton _ := false
  acos g := PI * (1 - g) / 2

/-- An environment in which every angle comes out as 0 and the button is never pressed. -/
def zeroEnv : Env where
  ReadData _ := ⟨0, 0, 0⟩
  MyButton _ := false
  acos _ := 0

/-- The example environment with the button pressed at its first reading only. -/
def pressedOnceEnv : Env where
  ReadData := demoEnv.ReadData
  MyButton k := k == 0
  acos := demoEnv.acos

/-- An environment in which the button is pressed at every reading. -/
def pressedEnv : Env where
  ReadData := demoEnv.ReadData
  MyButton _ := true
  acos := demoEnv.acos

/-- The power-on state with the local counter of a counting function at 4. -/
def tallyFour : State :=
  { State.init with count := 4 }

/-! ## Specification of the routine -/

/-- The calls of the routine, in its fixed order, each with seed 0. -/
def routineOrder : List (Counter × Int) :=
  [(.countSU, 0), (.countPU, 0), (.countJJ, 0), (.countS, 0)]

/-- The flags when exactly the first `j` stages are marked finished. -/
def firstFinished (j : Nat) : List Bool :=
  List.replicate j true ++ List.replicate (4 - j) false

/-- Entry condition of stage `i` (0 for SitUps, ..., 3 for Squats): `isButtonPressed` holds
a pressed reading and exactly the `i` preceding stages are marked finished. -/
def Gate (i : Nat) (s : State) : Prop :=
  s.isButtonPressed = true ∧ s.finished = firstFinished i

/-- Progress of the routine: the first `j` stages are marked finished and the calls recorded
after the calls `t0` are the first `k` of the fixed order. -/
def Progress (t0 : List (Counter × Int)) (j k : Nat) (s : State) : Prop :=
  s.finished = firstFinished j ∧ calls s.trace = t0 ++ routineOrder.take k

/-- The fourth test of the loop body of `routinedExercise`, on the state in which the
button has just been read: the Squats stage, or else the next iteration of the loop. -/
def fourthTest (env : Env) (fuel : Nat) (s : State) : Run :=
  if s.isButtonPressed && s.sitUpsFinished && s.pushUpsFinished
      && s.jumpJacksFinished && !s.squartsFinished then
    stageSquats env fuel s
  else routinedExercise_loop env fuel s

/-- What a stage test of the routine may lead to: it returns with some number `j < 4` of
stages finished and called, or it is cut off inside the counting function of stage `j`. -/
def StageOutcome (t0 : List (Counter × Int)) (r : Run) : Prop :=
  match r with
  | .returned s' => ∃ j, j < 4 ∧ Progress t0 j j s'
  | .unfinished s' => ∃ j, j < 4 ∧ Progress t0 j (j + 1) s'

/-- What a run of the routine may lead to: `k ≤ 4` stages were entered, in the fixed order,
all but possibly the last of them are marked finished, and if the run has returned then
all four stages are finished. -/
def RoutineOutcome (t0 : List (Counter × Int)) (r : Run) : Prop :=
  ∃ j k, k ≤ 4 ∧ (j = k ∨ j + 1 = k) ∧ Progress t0 j k r.state
    ∧ (r.isReturned = true → j = 4 ∧ k = 4)

/-- Raw Y readings of period 3 (2, -3, 1), for which every window has six peaks. -/
def routineY (k : Nat) : Int :=
  match k % 3 with
  | 0 => 2
  | 1 => -3
  | _ => 1

/-- An environment for a complete routine: the button is pressed at every third reading,
which is where the four stage tests and the final wait loop read it. -/
def routineEnv : Env where
  ReadData k := ⟨0, routineY k, 5898⟩
  MyButton k := k % 3 == 0
  acos g := PI * (1 - g) / 2

/-! ## Specification of the filter -/

/-- The ring buffer and the write index of one axis after `n` insertions of the values
`v 0, v 1, ...`, starting from buffer `buf` and index `i0`. -/
def ringAfter (buf : Nat → ℚ) (i0 : Nat) (v : Nat → ℚ) : Nat → (Nat → ℚ) × Nat
  | 0 => (buf, i0)
  | n + 1 =>
    (Function.update (ringAfter buf i0 v n).1 (ringAfter buf i0 v n).2 (v n),
      nextIndex (ringAfter buf i0 v n).2)

/-- The arithmetic mean of the last 20 normalised readings (raw/17694) among the first `n`
readings `raw 0, ..., raw (n - 1)`. -/
def meanOfLast20 (raw : Nat → Int) (n : Nat) : ℚ :=
  (∑ m ∈ Finset.Ico (n - 20) n, (raw m : ℚ) / 17694) / 20

/-- An environment whose accelerometer always reads (17694, 8847, -17694). -/
def constEnv : Env where
  ReadData _ := ⟨17694, 8847, -17694⟩
  MyButton _ := false
  acos g := PI * (1 - g) / 2

/-! ## Further example inputs and specification helpers -/

/-- A window all of whose entries are the angle triple `(x, y, z)`. -/
def constWindow (x y z : ℚ) : Nat → Nat → ℚ := fun _ axis =>
  match axis with
  | 0 => x
  | 1 => y
  | _ => z

/-- The power-on state with `presamplesBuffer` holding the window `w`. -/
def stateWithWindow (w : Nat → Nat → ℚ) : State :=
  { State.init with sig := { Signal.init with presamplesBuffer := w } }

/-- The counting function that the specification attaches to a label. -/
def ExerciseLabel.counter : ExerciseLabel → Option Counter
  | .SitUps => some .countSU
  | .PushUps => some .countPU
  | .JumpingJacks => some .countJJ
  | .Squats => some .countS
  | .Unknown => none

/-- The example environment with the Z axis reading -17694, which puts the first window in
the region shared by `isSU` and `isS`. -/
def sitUpEnv : Env where
  ReadData k := ⟨0, demoY k, -17694⟩
  MyButton _ := false
  acos g := PI * (1 - g) / 2

/-- A raw reading whose three components are in the range of `int16_t`. -/
def Raw.valid (r : Raw) : Prop :=
  (-32768 ≤ r.x ∧ r.x ≤ 32767) ∧ (-32768 ≤ r.y ∧ r.y ≤ 32767) ∧ (-32768 ≤ r.z ∧ r.z ≤ 32767)

/-- An environment whose accelerometer always reads the least `int16_t` value on each axis. -/
def minEnv : Env where
  ReadData _ := ⟨-32768, -32768, -32768⟩
  MyButton _ := false
  acos g := PI * (1 - g) / 2

/-- A window whose Y column alternates strictly: 0 at even indices, 1 at odd ones. -/
def alternatingWindow : Nat → Nat → ℚ := fun i _ => if i % 2 = 1 then 1 else 0

/-- The readings of `routineEnv` (six peaks in every window) with the button never pressed. -/
def sixPeaksEnv : Env where
  ReadData := routineEnv.ReadData
  MyButton _ := false
  acos := routineEnv.acos

/-- One pass of the outer loop of a counting function in which the button is read as
pressed at the first evaluation of the inner condition: the inner loop is left at once and
the display is played. -/
def pressedPass (l : Led) (s : State) : State :=
  display l (leaveInner s)

/-! ## Definitions for the window and for the comparison of the counters -/

/-- The mean behind entry `i` of a window, for one axis: the `i + 1` normalised readings
`v 0, ..., v i` taken so far in this window, together with the `19 - i` ring-buffer slots
of the state before the window that are not yet overwritten, divided by 20. -/
def entryMean (v : Nat → ℚ) (buf : Nat → ℚ) (i0 i : Nat) : ℚ :=
  (∑ m ∈ Finset.range (i + 1), v m + ∑ m ∈ Finset.Ico (i + 1) 20, buf ((i0 + m) % 20)) / 20

/-- An environment at rest: every reading is 0, the button is never pressed, and the
inverse cosine is replaced by the line through (1, 0) and (-1, PI). -/
def stillEnv : Env where
  ReadData _ := ⟨0, 0, 0⟩
  MyButton _ := false
  acos g := PI * (1 - g) / 2

/-- The power-on signal state, except that every slot of the Y ring buffer holds -1. -/
def primedSignal : Signal :=
  { Signal.init with ringbufY := fun _ => -1 }

/-- The signal state `g` with `presamplesBuffer` replaced by `p`. -/
def Signal.setWindow (g : Signal) (p : Nat → Nat → ℚ) : Signal :=
  { g with presamplesBuffer := p }

/-- The state `s` with its output trace replaced by `t`. -/
def State.withTrace (s : State) (t : List Event) : State :=
  { s with trace := t }

/-- The events of `n` short blinks of LED `l`. -/
def blinks (l : Led) (n : Nat) : List Event :=
  (List.replicate n (blinkOnce l)).flatten

/-- An environment whose first window from power-on lies in the region shared by `isPU`
and `isJJ`: the readings are constantly (0, 1872, 22000), the button is never pressed, and
the inverse cosine is the linear stand-in. -/
def overlapEnv : Env where
  ReadData _ := ⟨0, 1872, 22000⟩
  MyButton _ := false
  acos g := PI * (1 - g) / 2

/-! ## The signal conditioner with rounded floating-point operations -/

/-- How the results of floating-point operations are rounded: `single` for an operation or
an assignment of type `float`, `double` for an operation of type `double`, and `angle` for
the two operations of `180*acos(g_filt)/PI`, whose type is that of the result of `acos`:
`double` for the function of the C library, `float` for the C++ overload on `float`. -/
structure Rounding where
  single : ℚ → ℚ
  double : ℚ → ℚ
  angle : ℚ → ℚ

/-- No rounding: exact arithmetic. -/
def Rounding.exact : Rounding where
  single q := q
  double q := q
  angle q := q

/-- The fraction `n / d` rounded to the nearest natural number, a tie going to the even
neighbour. -/
def roundHalfEven (n d : Nat) : Nat :=
  if 2 * (n % d) < d then n / d
  else if d < 2 * (n % d) then n / d + 1
  else if (n / d) % 2 = 0 then n / d else n / d + 1

/-- The position of the leading binary digit of `n` (0 for `n < 2`), found in at most
`fuel` halvings. -/
def leadingBit : Nat → Nat → Nat
  | 0, _ => 0
  | fuel + 1, n => if n < 2 then 0 else leadingBit fuel (n / 2) + 1

/-- Rounding to the nearest number with `p` significant binary digits, a tie going to the
even significand. The exponent range is not bounded (no overflow, no subnormal numbers).
The scale `s` is chosen so that `|q| * 2 ^ s` lies in `[2 ^ (p - 1), 2 ^ p)`. -/
def roundNearestEven (p : Nat) (q : ℚ) : ℚ :=
  if q.num = 0 then 0
  else
    let n := q.num.natAbs
    let d := q.den
    let s0 : Int := (p : Int) - 1 - ((leadingBit n n : Int) - (leadingBit d d : Int))
    let s : Int :=
      if (n * 2 ^ s0.toNat) / (d * 2 ^ (-s0).toNat) < 2 ^ (p - 1) then s0 + 1 else s0
    mkRat (q.num.sign * (roundHalfEven (n * 2 ^ s.toNat) (d * 2 ^ (-s).toNat) : Int)
      * 2 ^ (-s).toNat) (2 ^ s.toNat)

/-- Rounding of IEEE 754 arithmetic in the default mode: 24 significant bits for `float`,
53 for `double`; the angle is computed in `double`. -/
def Rounding.ieee : Rounding where
  single := roundNearestEven 24
  double := roundNearestEven 53
  angle := roundNearestEven 53

/-- Rounding of IEEE 754 arithmetic in the default mode, with the angle computed in
`float`. -/
def Rounding.ieeeSingleAngle : Rounding where
  single := roundNearestEven 24
  double := roundNearestEven 53
  angle := roundNearestEven 24

/-- The loop `for (uint8_t i = 0; i < N; i++) g_filt += ringbuf[i]` on the `float`
accumulator `g_filt`, started from `0`: every addition is rounded, in the order of the
slots. -/
def addAllSamplesFloat (fl : Rounding) (ringbuf : Nat → ℚ) : ℚ :=
  (List.range N).foldl (fun g_filt i => fl.single (g_filt + ringbuf i)) 0

/-- The filtered value before the clamp: all samples added, then `g_filt /= (float)N`. -/
def movingAverageFloat (fl : Rounding) (ringbuf : Nat → ℚ) : ℚ :=
  fl.single (addAllSamplesFloat fl ringbuf / (N : ℚ))

/-- Angle in degrees, `180*acos(g_filt)/PI` assigned to a `float`: the product and the
quotient are rounded in the type of the result of `acos`, `PI` is the `float` constant, and
the assignment rounds to `float`. -/
def angleDegFloat (fl : Rounding) (env : Env) (g_filt : ℚ) : ℚ :=
  fl.single (fl.angle (fl.angle (180 * env.acos g_filt) / fl.single PI))

/-- Function `sampling` of the source with rounded operations. The normalisation
`(float)raw/17694.0` is a `double` division assigned to a `float`. -/
def samplingFloat (fl : Rounding) (env : Env) (g : Signal) : Signal :=
  let r := env.ReadData g.reads
  let g_x : ℚ := fl.single (fl.double ((r.x : ℚ) / 17694))
  let g_y : ℚ := fl.single (fl.double ((r.y : ℚ) / 17694))
  let g_z : ℚ := fl.single (fl.double ((r.z : ℚ) / 17694))
  let ringbufX := Function.update g.ringbufX g.ringbuf_index_x g_x
  let ringbufY := Function.update g.ringbufY g.ringbuf_index_y g_y
  let ringbufZ := Function.update g.ringbufZ g.ringbuf_index_z g_z
  let g_x_filt := restrictTo1g (movingAverageFloat fl ringbufX)
  let g_y_filt := restrictTo1g (movingAverageFloat fl ringbufY)
  let g_z_filt := restrictTo1g (movingAverageFloat fl ringbufZ)
  let angleX := angleDegFloat fl env g_x_filt
  let angleY := angleDegFloat fl env g_y_filt
  let angleZ := angleDegFloat fl env g_z_filt
  { g with
    xAccel := r.x
    yAccel := r.y
    zAccel := r.z
    g_x := g_x
    g_y := g_y
    g_z := g_z
    ringbufX := ringbufX
    ringbufY := ringbufY
    ringbufZ := ringbufZ
    ringbuf_index_x := nextIndex g.ringbuf_index_x
    ringbuf_index_y := nextIndex g.ringbuf_index_y
    ringbuf_index_z := nextIndex g.ringbuf_index_z
    angleX := angleX
    angleY := angleY
    angleZ := angleZ
    tempBuffer := Function.update (Function.update (Function.update g.tempBuffer
      0 angleX) 1 angleY) 2 angleZ
    reads := g.reads + 1 }

/-- Body of the loop of `sampleTwoSeconds` at index `i`, with rounded operations. -/
def sampleAtFloat (fl : Rounding) (env : Env) (g : Signal) (i : Nat) : Signal :=
  let g1 := samplingFloat fl env g
  { g1 with
    presamplesBuffer := Function.update g1.presamplesBuffer i
      (Function.update (Function.update (Function.update (g1.presamplesBuffer i)
        0 (g1.tempBuffer 0)) 1 (g1.tempBuffer 1)) 2 (g1.tempBuffer 2)) }

/-- Function `sampleTwoSeconds` of the source, with rounded operations. -/
def sampleTwoSecondsFloat (fl : Rounding) (env : Env) (g : Signal) : Signal :=
  (List.range PRESAMPLE_LENGTH).foldl (sampleAtFloat fl env) g

/-- An environment whose Y readings climb from 16400 to 17600 in steps of 100 and start
again every 13 readings; X and Z read 0, the button is never pressed, and the inverse
cosine is the linear stand-in. -/
def rampEnv : Env where
  ReadData k := ⟨0, 16400 + 100 * ((k % 13 : Nat) : Int), 0⟩
  MyButton _ := false
  acos g := PI * (1 - g) / 2

/-- The signal state after 13 calls of `sampling` from power-on in the environment
`rampEnv`, with IEEE rounding: the write indices are at 13. -/
def rampPrior : Signal :=
  (samplingFloat Rounding.ieee rampEnv)^[13] Signal.init

/-- The signal state after 13 calls of `sampling` in the environment `rampEnv`, with IEEE
rounding, from the primed state instead of power-on: the write indices are at 13 as in
`rampPrior`, but the slots 13 to 19 of the Y ring buffer hold -1 instead of 0. -/
def rampPriorPrimed : Signal :=
  (samplingFloat Rounding.ieee rampEnv)^[13] primedSignal

/-! ## Lemmas on the peak scan -/

theorem foldl_count_eq (p : Nat → Prop) [DecidablePred p] (l : List Nat) (c : Int) :
    l.foldl (fun count i => if p i then count + 1 else count) c
      = c + ((l.filter (fun i => decide (p i))).length : Int) := by
  induction l generalizing c with
  | nil => simp
  | cons a l ih =>
    simp only [List.foldl_cons, List.filter_cons]
    rw [ih]
    by_cases h : p a
    · simp [h]; ring
    · simp [h]

theorem range'_filter_length (p : Nat → Prop) [DecidablePred p] :
    ((List.range' 1 18).filter (fun i => decide (p i))).length
      = ((Finset.Icc 1 18).filter p).card := by
  have h : Finset.Icc 1 18 = (List.range' 1 18).toFinset := by decide
  have hf : Finset.filter p (List.range' 1 18).toFinset
      = ((List.range' 1 18).filter (fun i => decide (p i))).toFinset := by
    ext i
    simp
  rw [h, hf, List.toFinset_card_of_nodup]
  exact (List.nodup_range' 1 18).filter _

theorem peakScan_eq (w : Nat → Nat → ℚ) (c : Int) :
    peakScan w c = c + (strictLocalMaxCount w : Int) := by
  unfold peakScan strictLocalMaxCount
  rw [foldl_count_eq (fun i => w i 1 > w (i - 1) 1 ∧ w i 1 > w (i + 1) 1)]
  have h : PRESAMPLE_LENGTH - 1 - 1 = 18 := by decide
  rw [h, range'_filter_length]

/-! ## Lemmas on the counting loops -/

theorem countSU_inner_eq (env : Env) (fuel : Nat) (s : State) :
    countSU_inner env fuel s = count_inner env fuel s := by
  induction fuel generalizing s with
  | zero => rfl
  | succ n ih => simp only [countSU_inner, count_inner, acquire, leaveInner, ih]

theorem countPU_inner_eq (env : Env) (fuel : Nat) (s : State) :
    countPU_inner env fuel s = count_inner env fuel s := by
  induction fuel generalizing s with
  | zero => rfl
  | succ n ih => simp only [countPU_inner, count_inner, acquire, leaveInner, ih]

theorem countJJ_inner_eq (env : Env) (fuel : Nat) (s : State) :
    countJJ_inner env fuel s = count_inner env fuel s := by
  induction fuel generalizing s with
  | zero => rfl
  | succ n ih => simp only [countJJ_inner, count_inner, acquire, leaveInner, ih]

theorem countS_inner_eq (env : Env) (fuel : Nat) (s : State) :
    countS_inner env fuel s = count_inner env fuel s := by
  induction fuel generalizing s with
  | zero => rfl
  | succ n ih => simp only [countS_inner, count_inner, acquire, leaveInner, ih]

theorem countSU_outer_eq (env : Env) (fuel : Nat) (s : State) :
    countSU_outer env fuel s = count_outer .LED3 env fuel s := by
  induction fuel generalizing s with
  | zero => rfl
  | succ n ih =>
    simp only [countSU_outer, count_outer, countSU_inner_eq, Run.andThen]
    split
    · cases count_inner env n s <;> simp [ih]
    · rfl

theorem countPU_outer_eq (env : Env) (fuel : Nat) (s : State) :
    countPU_outer env fuel s = count_outer .LED5 env fuel s := by
  induction fuel generalizing s with
  | zero => rfl
  | succ n ih =>
    simp only [countPU_outer, count_outer, countPU_inner_eq, Run.andThen]
    split
    · cases count_inner env n s <;> simp [ih]
    · rfl

theorem countJJ_outer_eq (env : Env) (fuel : Nat) (s : State) :
    countJJ_outer env fuel s = count_outer .LED6 env fuel s := by
  induction fuel generalizing s with
  | zero => rfl
  | succ n ih =>
    simp only [countJJ_outer, count_outer, countJJ_inner_eq, Run.andThen]
    split
    · cases count_inner env n s <;> simp [ih]
    · rfl

theorem countS_outer_eq (env : Env) (fuel : Nat) (s : State) :
    countS_outer env fuel s = count_outer .LED4 env fuel s := by
  induction fuel generalizing s with
  | zero => rfl
  | succ n ih =>
    simp only [countS_outer, count_outer, countS_inner_eq, Run.andThen]
    split
    · cases count_inner env n s <;> simp [ih]
    · rfl

theorem Counter.inner_eq (f : Counter) (env : Env) (fuel : Nat) (s : State) :
    f.inner env fuel s = count_inner env fuel s := by
  cases f
  · exact countSU_inner_eq env fuel s
  · exact countPU_inner_eq env fuel s
  · exact countJJ_inner_eq env fuel s
  · exact countS_inner_eq env fuel s

theorem Counter.outer_eq (f : Counter) (env : Env) (fuel : Nat) (s : State) :
    f.outer env fuel s = count_outer f.led env fuel s := by
  cases f
  · exact countSU_outer_eq env fuel s
  · exact countPU_outer_eq env fuel s
  · exact countJJ_outer_eq env fuel s
  · exact countS_outer_eq env fuel s

theorem Counter.run_eq (f : Counter) (env : Env) (fuel : Nat) (s : State) (initVal : Int) :
    f.run env fuel s initVal = countGeneric f env fuel s initVal := by
  cases f
  · exact countSU_outer_eq env fuel _
  · exact countPU_outer_eq env fuel _
  · exact countJJ_outer_eq env fuel _
  · exact countS_outer_eq env fuel _

/-! ### Field lemmas -/

@[simp] theorem emit_sig (s : State) (es : List Event) : (s.emit es).sig = s.sig := rfl
@[simp] theorem emit_count (s : State) (es : List Event) : (s.emit es).count = s.count := rfl
@[simp] theorem emit_polls (s : State) (es : List Event) : (s.emit es).polls = s.polls := rfl
@[simp] theorem emit_trace (s : State) (es : List Event) :
    (s.emit es).trace = s.trace ++ es := rfl
@[simp] theorem emit_isButtonPressed (s : State) (es : List Event) :
    (s.emit es).isButtonPressed = s.isButtonPressed := rfl
@[simp] theorem emit_finished (s : State) (es : List Event) :
    (s.emit es).finished = s.finished := rfl

theorem emit_emit (s : State) (a b : List Event) : (s.emit a).emit b = s.emit (a ++ b) := by
  simp [State.emit, List.append_assoc]

theorem emit_nil (s : State) : s.emit [] = s := by
  simp [State.emit]

theorem foldl_emit (es : List Event) (n : Nat) (s : State) :
    (List.range n).foldl (fun s _ => s.emit es) s = s.emit (List.replicate n es).flatten := by
  induction n with
  | zero => simp [emit_nil]
  | succ n ih =>
    rw [List.range_succ, List.foldl_append, ih, List.replicate_succ']
    simp [emit_emit]

theorem display_eq (l : Led) (s : State) :
    display l s = s.emit (List.replicate s.count.toNat (blinkOnce l)).flatten :=
  foldl_emit (blinkOnce l) s.count.toNat s

theorem blinkAllThrice_eq (s : State) :
    blinkAllThrice s = s.emit (List.replicate 3 blinkAll).flatten :=
  foldl_emit blinkAll 3 s

@[simp] theorem display_sig (l : Led) (s : State) : (display l s).sig = s.sig := by
  simp [display_eq]
@[simp] theorem display_count (l : Led) (s : State) : (display l s).count = s.count := by
  simp [display_eq]
@[simp] theorem display_polls (l : Led) (s : State) : (display l s).polls = s.polls := by
  simp [display_eq]
@[simp] theorem display_isButtonPressed (l : Led) (s : State) :
    (display l s).isButtonPressed = s.isButtonPressed := by
  simp [display_eq]
@[simp] theorem display_finished (l : Led) (s : State) :
    (display l s).finished = s.finished := by
  simp [display_eq]
theorem display_trace (l : Led) (s : State) :
    (display l s).trace = s.trace ++ (List.replicate s.count.toNat (blinkOnce l)).flatten := by
  simp [display_eq]

@[simp] theorem acquire_sig (env : Env) (s : State) :
    (acquire env s).sig = sampleTwoSeconds env s.sig := rfl
@[simp] theorem acquire_polls (env : Env) (s : State) :
    (acquire env s).polls = s.polls + 1 := rfl
@[simp] theorem acquire_trace (env : Env) (s : State) : (acquire env s).trace = s.trace := rfl
@[simp] theorem acquire_isButtonPressed (env : Env) (s : State) :
    (acquire env s).isButtonPressed = s.isButtonPressed := rfl
@[simp] theorem acquire_finished (env : Env) (s : State) :
    (acquire env s).finished = s.finished := rfl
theorem acquire_count (env : Env) (s : State) :
    (acquire env s).count = s.count + (windowPeaks env s.sig 0 : Int) := by
  simp [acquire, peakScan_eq, windowPeaks]

@[simp] theorem leaveInner_sig (s : State) : (leaveInner s).sig = s.sig := rfl
@[simp] theorem leaveInner_count (s : State) : (leaveInner s).count = s.count := rfl
@[simp] theorem leaveInner_polls (s : State) : (leaveInner s).polls = s.polls + 1 := rfl
@[simp] theorem leaveInner_trace (s : State) : (leaveInner s).trace = s.trace := rfl
@[simp] theorem leaveInner_isButtonPressed (s : State) :
    (leaveInner s).isButtonPressed = s.isButtonPressed := rfl
@[simp] theorem leaveInner_finished (s : State) : (leaveInner s).finished = s.finished := rfl

/-! ### Tally after a number of windows -/

@[simp] theorem tallyAfter_zero (env : Env) (g : Signal) (c : Int) :
    tallyAfter env g c 0 = c := by
  simp [tallyAfter]

theorem windowPeaks_shift (env : Env) (g : Signal) (j : Nat) :
    windowPeaks env (sampleTwoSeconds env g) j = windowPeaks env g (j + 1) := by
  simp only [windowPeaks, Function.iterate_succ_apply]

theorem tallyAfter_succ (env : Env) (g : Signal) (c : Int) (k : Nat) :
    tallyAfter env g c (k + 1) = tallyAfter env g c k + (windowPeaks env g k : Int) := by
  simp [tallyAfter, Finset.sum_range_succ, add_assoc]

theorem tallyAfter_shift (env : Env) (g : Signal) (c : Int) (k : Nat) :
    tallyAfter env (sampleTwoSeconds env g) (c + (windowPeaks env g 0 : Int)) k
      = tallyAfter env g c (k + 1) := by
  simp only [tallyAfter, windowPeaks_shift, Finset.sum_range_succ']
  ring

theorem tallyAfter_add (env : Env) (g : Signal) (c : Int) (k1 k2 : Nat) :
    tallyAfter env ((sampleTwoSeconds env)^[k1] g) (tallyAfter env g c k1) k2
      = tallyAfter env g c (k1 + k2) := by
  induction k1 generalizing g c with
  | zero => simp
  | succ n ih =>
    rw [Function.iterate_succ_apply, ← tallyAfter_shift, ih, tallyAfter_shift]
    congr 1
    omega

theorem tallyAfter_mono (env : Env) (g : Signal) (c : Int) {k1 k2 : Nat} (h : k1 ≤ k2) :
    tallyAfter env g c k1 ≤ tallyAfter env g c k2 := by
  induction h with
  | refl => exact le_refl _
  | @step m _ ih =>
    rw [tallyAfter_succ]
    have : (0 : Int) ≤ (windowPeaks env g m : Int) := Int.ofNat_nonneg _
    omega

theorem le_tallyAfter (env : Env) (g : Signal) (c : Int) (k : Nat) :
    c ≤ tallyAfter env g c k := by
  have := tallyAfter_mono env g c (Nat.zero_le k)
  simpa using this

/-! ### The relation `Acquired` -/

theorem Acquired.of_eq {env : Env} {s1 s2 : State} (h1 : s2.sig = s1.sig)
    (h2 : s2.count = s1.count) : Acquired env s1 s2 :=
  ⟨0, by simp [h1], by simp [h2]⟩

theorem Acquired.refl (env : Env) (s : State) : Acquired env s s :=
  Acquired.of_eq rfl rfl

theorem Acquired.trans {env : Env} {s1 s2 s3 : State} (h12 : Acquired env s1 s2)
    (h23 : Acquired env s2 s3) : Acquired env s1 s3 := by
  obtain ⟨k1, hs1, hc1⟩ := h12
  obtain ⟨k2, hs2, hc2⟩ := h23
  refine ⟨k1 + k2, ?_, ?_⟩
  · rw [hs2, hs1, ← Function.iterate_add_apply, Nat.add_comm]
  · rw [hc2, hs1, hc1, tallyAfter_add]

theorem Acquired.acquire (env : Env) (s : State) : Acquired env s (acquire env s) :=
  ⟨1, by simp, by simp [acquire_count, tallyAfter]⟩

theorem Acquired.le {env : Env} {s1 s2 : State} (h : Acquired env s1 s2) :
    s1.count ≤ s2.count := by
  obtain ⟨k, -, hc⟩ := h
  rw [hc]
  exact le_tallyAfter env _ _ k

/-! ### Unfolding the loops -/

theorem count_inner_continue (env : Env) (fuel : Nat) (s : State)
    (hb : env.MyButton s.polls = false) (hc : s.count < 5) :
    count_inner env (fuel + 1) s = count_inner env fuel (acquire env s) := by
  simp [count_inner, hb, hc]

theorem count_inner_exit (env : Env) (fuel : Nat) (s : State)
    (h : env.MyButton s.polls = true ∨ 5 ≤ s.count) :
    count_inner env (fuel + 1) s = .returned (leaveInner s) := by
  rcases h with h | h
  · simp [count_inner, h]
  · simp [count_inner, not_lt.mpr h]

theorem count_outer_done (l : Led) (env : Env) (fuel : Nat) (s : State) (h : 5 ≤ s.count) :
    count_outer l env (fuel + 1) s = .returned s := by
  simp [count_outer, not_lt.mpr h]

theorem count_outer_step (l : Led) (env : Env) (fuel : Nat) (s : State) (h : s.count < 5) :
    count_outer l env (fuel + 1) s
      = (count_inner env fuel s).andThen fun s1 => count_outer l env fuel (display l s1) := by
  simp [count_outer, h]

/-! ### What every run of the loops preserves -/

theorem calls_append (a b : List Event) : calls (a ++ b) = calls a ++ calls b := by
  induction a with
  | nil => rfl
  | cons e a ih => cases e <;> simp [calls, ih]

theorem calls_blinks (l : Led) (n : Nat) :
    calls (List.replicate n (blinkOnce l)).flatten = [] := by
  induction n with
  | zero => rfl
  | succ n ih =>
    rw [List.replicate_succ, List.flatten_cons, calls_append, ih]
    rfl

theorem calls_display (l : Led) (s : State) : calls (display l s).trace = calls s.trace := by
  simp [display_trace, calls_append, calls_blinks]

theorem count_inner_inv (env : Env) (fuel : Nat) (s : State) :
    Acquired env s (count_inner env fuel s).state
      ∧ (count_inner env fuel s).state.trace = s.trace
      ∧ (count_inner env fuel s).state.finished = s.finished
      ∧ (count_inner env fuel s).state.isButtonPressed = s.isButtonPressed := by
  induction fuel generalizing s with
  | zero => exact ⟨Acquired.refl env s, rfl, rfl, rfl⟩
  | succ n ih =>
    by_cases h : env.MyButton s.polls = false ∧ s.count < 5
    · rw [count_inner_continue env n s h.1 h.2]
      obtain ⟨h1, h2, h3, h4⟩ := ih (acquire env s)
      exact ⟨(Acquired.acquire env s).trans h1, by simpa using h2, by simpa using h3,
        by simpa using h4⟩
    · have h' : env.MyButton s.polls = true ∨ 5 ≤ s.count := by
        by_cases hb : env.MyButton s.polls = true
        · exact Or.inl hb
        · right
          simp only [Bool.not_eq_true] at hb
          exact not_lt.mp fun hc => h ⟨hb, hc⟩
      rw [count_inner_exit env n s h']
      exact ⟨Acquired.of_eq rfl rfl, rfl, rfl, rfl⟩

theorem count_outer_inv (l : Led) (env : Env) (fuel : Nat) (s : State) :
    Acquired env s (count_outer l env fuel s).state
      ∧ calls (count_outer l env fuel s).state.trace = calls s.trace
      ∧ (count_outer l env fuel s).state.finished = s.finished
      ∧ (count_outer l env fuel s).state.isButtonPressed = s.isButtonPressed
      ∧ ((count_outer l env fuel s).isReturned = true
          → 5 ≤ (count_outer l env fuel s).state.count) := by
  induction fuel generalizing s with
  | zero => exact ⟨Acquired.refl env s, rfl, rfl, rfl, by simp [count_outer, Run.isReturned]⟩
  | succ n ih =>
    by_cases h : s.count < 5
    · rw [count_outer_step l env n s h]
      obtain ⟨h1, h2, h3, h4⟩ := count_inner_inv env n s
      cases hr : count_inner env n s with
      | unfinished s1 =>
        rw [hr] at h1 h2 h3 h4
        simp only [Run.state] at h1 h2 h3 h4
        exact ⟨h1, by simp [Run.andThen, Run.state, h2], by simpa [Run.andThen, Run.state] using h3,
          by simpa [Run.andThen, Run.state] using h4, by simp [Run.andThen, Run.isReturned]⟩
      | returned s1 =>
        rw [hr] at h1 h2 h3 h4
        simp only [Run.state] at h1 h2 h3 h4
        obtain ⟨k1, k2, k3, k4, k5⟩ := ih (display l s1)
        simp only [Run.andThen]
        refine ⟨h1.trans ((Acquired.of_eq (by simp) (by simp)).trans k1), ?_, ?_, ?_, k5⟩
        · rw [k2, calls_display, h2]
        · rw [k3, display_finished, h3]
        · rw [k4, display_isButtonPressed, h4]
    · rw [count_outer_done l env n s (not_lt.mp h)]
      exact ⟨Acquired.refl env s, rfl, rfl, rfl, fun _ => not_lt.mp h⟩

theorem countGeneric_inv (f : Counter) (env : Env) (fuel : Nat) (s : State) (initVal : Int) :
    (∃ k, (countGeneric f env fuel s initVal).state.sig = (sampleTwoSeconds env)^[k] s.sig
        ∧ (countGeneric f env fuel s initVal).state.count = tallyAfter env s.sig initVal k)
      ∧ calls (countGeneric f env fuel s initVal).state.trace = calls s.trace ++ [(f, initVal)]
      ∧ (countGeneric f env fuel s initVal).state.finished = s.finished
      ∧ (countGeneric f env fuel s initVal).state.isButtonPressed = s.isButtonPressed
      ∧ ((countGeneric f env fuel s initVal).isReturned = true
          → 5 ≤ (countGeneric f env fuel s initVal).state.count) := by
  obtain ⟨h1, h2, h3, h4, h5⟩ :=
    count_outer_inv f.led env fuel { s.emit [.call f initVal] with count := initVal }
  refine ⟨h1, ?_, h3, h4, h5⟩
  rw [countGeneric, h2]
  simp [calls_append, calls]

/-! ## Lemmas on the classifier -/

theorem axisSums_range (w : Nat → Nat → ℚ) (n : Nat) :
    (List.range n).foldl
        (fun (sum : ℚ × ℚ × ℚ) i => (sum.1 + w i 0, sum.2.1 + w i 1, sum.2.2 + w i 2))
        (0, 0, 0)
      = (∑ i ∈ Finset.range n, w i 0, ∑ i ∈ Finset.range n, w i 1,
          ∑ i ∈ Finset.range n, w i 2) := by
  induction n with
  | zero => rfl
  | succ n ih =>
    rw [List.range_succ, List.foldl_append, ih]
    simp [Finset.sum_range_succ]

theorem div_presample (x : ℚ) : x * 20 / ((20 : ℕ) : ℚ) = x := by
  norm_num

theorem axisSums_eq (w : Nat → Nat → ℚ) :
    axisSums w = (axisMean w 0 * 20, axisMean w 1 * 20, axisMean w 2 * 20) := by
  unfold axisSums
  rw [axisSums_range]
  simp [axisMean, PRESAMPLE_LENGTH]

theorem isSU_fst (s : State) :
    (isSU s).1 = decide (Region.holds ⟨60, 100, 80, 140, 120, 180⟩ s.sig.presamplesBuffer) := by
  simp only [isSU, axisSums_eq, PRESAMPLE_LENGTH, div_presample, Region.holds, ge_iff_le]
  split_ifs with h
  · exact (decide_eq_true (by tauto)).symm
  · exact (decide_eq_false (by tauto)).symm

theorem isPU_fst (s : State) :
    (isPU s).1 = decide (Region.holds ⟨80, 100, 60, 90, 20, 40⟩ s.sig.presamplesBuffer) := by
  simp only [isPU, axisSums_eq, PRESAMPLE_LENGTH, div_presample, Region.holds, ge_iff_le]
  split_ifs with h
  · exact (decide_eq_true (by tauto)).symm
  · exact (decide_eq_false (by tauto)).symm

theorem isJJ_fst (s : State) :
    (isJJ s).1 = decide (Region.holds ⟨60, 160, 80, 120, 30, 80⟩ s.sig.presamplesBuffer) := by
  simp only [isJJ, axisSums_eq, PRESAMPLE_LENGTH, div_presample, Region.holds, ge_iff_le]
  split_ifs with h
  · exact (decide_eq_true (by tauto)).symm
  · exact (decide_eq_false (by tauto)).symm

theorem isS_fst (s : State) :
    (isS s).1 = decide (Region.holds ⟨60, 100, 80, 140, 120, 180⟩ s.sig.presamplesBuffer) := by
  simp only [isS, axisSums_eq, PRESAMPLE_LENGTH, div_presample, Region.holds, ge_iff_le]
  split_ifs with h
  · exact (decide_eq_true (by tauto)).symm
  · exact (decide_eq_false (by tauto)).symm

theorem isSU_snd (s : State) :
    (isSU s).2 = if (isSU s).1 then s.emit [.led .LED3 true, .print .SitUps] else s := by
  simp only [isSU]
  split_ifs <;> simp_all

theorem isPU_snd (s : State) :
    (isPU s).2 = if (isPU s).1 then s.emit [.led .LED5 true, .print .PushUps] else s := by
  simp only [isPU]
  split_ifs <;> simp_all

theorem isJJ_snd (s : State) :
    (isJJ s).2 = if (isJJ s).1 then s.emit [.led .LED6 true, .print .JumpJacks] else s := by
  simp only [isJJ]
  split_ifs <;> simp_all

theorem isS_snd (s : State) :
    (isS s).2 = if (isS s).1 then s.emit [.led .LED4 true, .print .Squarts] else s := by
  simp only [isS]
  split_ifs <;> simp_all

/-! ## Lemmas on particular runs of the counting loops -/

/-! ### Runs in which the button is never pressed -/

theorem iterate_acquire_sig (env : Env) (n : Nat) (s : State) :
    ((acquire env)^[n] s).sig = (sampleTwoSeconds env)^[n] s.sig := by
  induction n generalizing s with
  | zero => rfl
  | succ n ih => rw [Function.iterate_succ_apply, ih, Function.iterate_succ_apply, acquire_sig]

theorem iterate_acquire_count (env : Env) (n : Nat) (s : State) :
    ((acquire env)^[n] s).count = tallyAfter env s.sig s.count n := by
  induction n generalizing s with
  | zero => simp
  | succ n ih =>
    rw [Function.iterate_succ_apply, ih, acquire_sig, acquire_count, tallyAfter_shift]

theorem iterate_acquire_polls (env : Env) (n : Nat) (s : State) :
    ((acquire env)^[n] s).polls = s.polls + n := by
  induction n generalizing s with
  | zero => rfl
  | succ n ih =>
    rw [Function.iterate_succ_apply, ih, acquire_polls]
    omega

theorem iterate_acquire_trace (env : Env) (n : Nat) (s : State) :
    ((acquire env)^[n] s).trace = s.trace := by
  induction n generalizing s with
  | zero => rfl
  | succ n ih => rw [Function.iterate_succ_apply, ih, acquire_trace]

theorem count_inner_free (env : Env) (hb : ∀ k, env.MyButton k = false) (n : Nat) :
    ∀ (s : State) (fuel : Nat), (∀ m, m < n → tallyAfter env s.sig s.count m < 5)
      → 5 ≤ tallyAfter env s.sig s.count n → n < fuel
      → count_inner env fuel s = .returned (leaveInner ((acquire env)^[n] s)) := by
  induction n with
  | zero =>
    intro s fuel _ h5 hfuel
    obtain ⟨fuel, rfl⟩ := Nat.exists_eq_succ_of_ne_zero (Nat.pos_iff_ne_zero.mp hfuel)
    exact count_inner_exit env fuel s (Or.inr (by simpa using h5))
  | succ n ih =>
    intro s fuel hlt h5 hfuel
    obtain ⟨fuel, rfl⟩ := Nat.exists_eq_succ_of_ne_zero (Nat.not_eq_zero_of_lt hfuel)
    have h0 : s.count < 5 := by simpa using hlt 0 (Nat.succ_pos n)
    rw [count_inner_continue env fuel s (hb _) h0, Function.iterate_succ_apply]
    apply ih
    · intro m hm
      rw [acquire_sig, acquire_count, tallyAfter_shift]
      exact hlt (m + 1) (Nat.succ_lt_succ hm)
    · rw [acquire_sig, acquire_count, tallyAfter_shift]
      exact h5
    · exact Nat.lt_of_succ_lt_succ hfuel

theorem count_outer_free (l : Led) (env : Env) (hb : ∀ k, env.MyButton k = false) (n : Nat)
    (s : State) (fuel : Nat) (h0 : s.count < 5)
    (hlt : ∀ m, m < n → tallyAfter env s.sig s.count m < 5)
    (h5 : 5 ≤ tallyAfter env s.sig s.count n) (hfuel : n + 1 < fuel) :
    count_outer l env fuel s = .returned (display l (leaveInner ((acquire env)^[n] s))) := by
  obtain ⟨fuel, rfl⟩ := Nat.exists_eq_succ_of_ne_zero (Nat.not_eq_zero_of_lt hfuel)
  have hn : n < fuel := by omega
  rw [count_outer_step l env fuel s h0, count_inner_free env hb n s fuel hlt h5 hn]
  obtain ⟨fuel, rfl⟩ := Nat.exists_eq_succ_of_ne_zero (Nat.not_eq_zero_of_lt hn)
  simp only [Run.andThen]
  apply count_outer_done
  rw [display_count, leaveInner_count, iterate_acquire_count]
  exact h5

/-! ### Runs in which the button is pressed, or the tally reaches 5 -/

theorem count_outer_pressed (l : Led) (env : Env) (fuel : Nat) (s : State)
    (hc : s.count < 5) (hb : env.MyButton s.polls = true) :
    count_outer l env (fuel + 2) s = count_outer l env (fuel + 1) (display l (leaveInner s)) := by
  rw [count_outer_step l env (fuel + 1) s hc, count_inner_exit env fuel s (Or.inl hb)]
  rfl

theorem count_outer_reach5 (l : Led) (env : Env) (fuel : Nat) (s : State)
    (hc : s.count < 5) (hb : env.MyButton s.polls = false) (h5 : 5 ≤ (acquire env s).count) :
    count_outer l env (fuel + 3) s = .returned (display l (leaveInner (acquire env s))) := by
  rw [count_outer_step l env (fuel + 2) s hc, count_inner_continue env (fuel + 1) s hb hc,
    count_inner_exit env fuel (acquire env s) (Or.inr h5)]
  exact count_outer_done l env (fuel + 1) _ (by simpa using h5)

theorem count_inner_returned (env : Env) (fuel : Nat) (s s1 : State)
    (h : count_inner env fuel s = .returned s1) :
    0 < s1.polls ∧ (env.MyButton (s1.polls - 1) = true ∨ 5 ≤ s1.count) := by
  induction fuel generalizing s with
  | zero => simp [count_inner] at h
  | succ n ih =>
    by_cases hc : env.MyButton s.polls = false ∧ s.count < 5
    · rw [count_inner_continue env n s hc.1 hc.2] at h
      exact ih _ h
    · have h' : env.MyButton s.polls = true ∨ 5 ≤ s.count := by
        by_cases hb : env.MyButton s.polls = true
        · exact Or.inl hb
        · right
          simp only [Bool.not_eq_true] at hb
          exact not_lt.mp fun hlt => hc ⟨hb, hlt⟩
      rw [count_inner_exit env n s h'] at h
      cases h
      simpa using h'

theorem count_pressed_forever (l : Led) (env : Env) (hb : ∀ k, env.MyButton k = true)
    (fuel : Nat) :
    ∀ s : State, s.count < 5 →
      (count_outer l env fuel s).isReturned = false
        ∧ (count_outer l env fuel s).state.count = s.count
        ∧ (count_outer l env fuel s).state.sig = s.sig := by
  induction fuel using Nat.strong_induction_on with
  | _ fuel ih =>
    intro s hc
    match fuel with
    | 0 => exact ⟨rfl, rfl, rfl⟩
    | 1 =>
      rw [count_outer_step l env 0 s hc]
      exact ⟨rfl, rfl, rfl⟩
    | fuel + 2 =>
      rw [count_outer_pressed l env fuel s hc (hb _)]
      have h := ih (fuel + 1) (by omega) (display l (leaveInner s)) (by simpa using hc)
      simpa using h

/-! ### Readings consumed by the windows -/

theorem sampleAt_foldl_reads (env : Env) (l : List Nat) (g : Signal) :
    (l.foldl (sampleAt env) g).reads = g.reads + l.length := by
  induction l generalizing g with
  | nil => rfl
  | cons a l ih =>
    rw [List.foldl_cons, ih, List.length_cons]
    show g.reads + 1 + l.length = _
    omega

theorem sampleTwoSeconds_reads (env : Env) (g : Signal) :
    (sampleTwoSeconds env g).reads = g.reads + 20 := by
  rw [sampleTwoSeconds, sampleAt_foldl_reads]
  rfl

theorem iterate_sampleTwoSeconds_reads (env : Env) (n : Nat) (g : Signal) :
    ((sampleTwoSeconds env)^[n] g).reads = g.reads + 20 * n := by
  induction n generalizing g with
  | zero => rfl
  | succ n ih =>
    rw [Function.iterate_succ_apply, ih, sampleTwoSeconds_reads]
    omega

theorem tallyAfter_single_peaks (env : Env) (g : Signal) (c : Int) (M : Nat)
    (h1 : ∀ j, 1 ≤ j → j ≤ M → windowPeaks env g j = 1) (m : Nat) (hm : m ≤ M) :
    tallyAfter env (sampleTwoSeconds env g) c m = c + m := by
  induction m with
  | zero => simp
  | succ m ih =>
    rw [tallyAfter_succ, ih (Nat.le_of_succ_le hm), windowPeaks_shift,
      h1 (m + 1) (Nat.succ_pos m) hm]
    push_cast
    ring

theorem countGeneric_free (f : Counter) (env : Env) (hb : ∀ k, env.MyButton k = false)
    (n : Nat) (s : State) (seed : Int) (fuel : Nat)
    (hlt : ∀ m, m < n → tallyAfter env s.sig seed m < 5)
    (h5 : 5 ≤ tallyAfter env s.sig seed n) (hfuel : n + 1 < fuel) :
    ∃ s', countGeneric f env fuel s seed = .returned s'
      ∧ s'.sig = (sampleTwoSeconds env)^[n] s.sig
      ∧ s'.sig.reads = s.sig.reads + 20 * n
      ∧ s'.count = tallyAfter env s.sig seed n
      ∧ s'.polls = s.polls + (if n = 0 then 0 else n + 1)
      ∧ s'.trace = s.trace ++ [.call f seed]
          ++ (if n = 0 then [] else (List.replicate s'.count.toNat (blinkOnce f.led)).flatten) := by
  rw [countGeneric]
  cases n with
  | zero =>
    obtain ⟨fuel, rfl⟩ := Nat.exists_eq_succ_of_ne_zero (Nat.not_eq_zero_of_lt hfuel)
    rw [count_outer_done f.led env fuel _ (by simpa using h5)]
    exact ⟨_, rfl, rfl, rfl, by simp, by simp, by simp⟩
  | succ n =>
    have h0 : seed < 5 := by simpa using hlt 0 (Nat.succ_pos n)
    rw [count_outer_free f.led env hb (n + 1) _ fuel h0 hlt h5 hfuel]
    refine ⟨_, rfl, ?_, ?_, ?_, ?_, ?_⟩
    · rw [display_sig, leaveInner_sig, iterate_acquire_sig]
      rfl
    · rw [display_sig, leaveInner_sig, iterate_acquire_sig, iterate_sampleTwoSeconds_reads]
      rfl
    · rw [display_count, leaveInner_count, iterate_acquire_count]
      rfl
    · rw [display_polls, leaveInner_polls, iterate_acquire_polls]
      simp
      rfl
    · rw [display_trace, leaveInner_trace, iterate_acquire_trace, if_neg (Nat.succ_ne_zero n),
        display_count]
      rfl

/-! ## Lemmas on the free-exercise loop -/

/-- The label that the chain of tests `isSU`, `isPU`, `isJJ`, `isS` of `freeToExercise`
selects is the one given by `classify`. -/
theorem classify_eq_chain (s : State) :
    classify s.sig.presamplesBuffer
      = if (isSU s).1 then .SitUps
        else if (isPU s).1 then .PushUps
        else if (isJJ s).1 then .JumpingJacks
        else if (isS s).1 then .Squats
        else .Unknown := by
  rw [isSU_fst, isPU_fst, isJJ_fst, isS_fst]
  unfold classify priorityOrder
  simp only [List.find?]
  generalize decide (Region.holds ⟨60, 100, 80, 140, 120, 180⟩ s.sig.presamplesBuffer) = b1
  generalize decide (Region.holds ⟨80, 100, 60, 90, 20, 40⟩ s.sig.presamplesBuffer) = b2
  generalize decide (Region.holds ⟨60, 160, 80, 120, 30, 80⟩ s.sig.presamplesBuffer) = b3
  cases b1 <;> cases b2 <;> cases b3 <;> rfl

theorem freeToExercise_loop_succ (env : Env) (fuel : Nat) (s : State) :
    freeToExercise_loop env (fuel + 1) s
      = if !s.isButtonPressed then
          if (pollButton env s).isButtonPressed then .returned (pollButton env s)
          else freeDispatch env fuel (freeAcquire env s)
        else .returned s := rfl

theorem freeDispatch_eq (env : Env) (fuel : Nat) (s2 : State) :
    freeDispatch env fuel s2
      = if (isSU s2).1 then startCounting env fuel s2 .SitUps
        else if (isPU s2).1 then startCounting env fuel s2 .PushUps
        else if (isJJ s2).1 then startCounting env fuel s2 .JumpingJacks
        else if (isS s2).1 then startCounting env fuel s2 .Squats
        else startCounting env fuel s2 .Unknown := by
  unfold freeDispatch
  dsimp only
  by_cases h1 : (isSU s2).1 = true
  · rw [if_pos h1, if_pos h1, isSU_snd, if_pos h1]
    rfl
  · have e1 : (isSU s2).2 = s2 := by rw [isSU_snd, if_neg h1]
    rw [if_neg h1, if_neg h1, e1]
    by_cases h2 : (isPU s2).1 = true
    · rw [if_pos h2, if_pos h2, isPU_snd, if_pos h2]
      rfl
    · have e2 : (isPU s2).2 = s2 := by rw [isPU_snd, if_neg h2]
      rw [if_neg h2, if_neg h2, e2]
      by_cases h3 : (isJJ s2).1 = true
      · rw [if_pos h3, if_pos h3, isJJ_snd, if_pos h3]
        rfl
      · have e3 : (isJJ s2).2 = s2 := by rw [isJJ_snd, if_neg h3]
        rw [if_neg h3, if_neg h3, e3]
        by_cases h4 : (isS s2).1 = true
        · rw [if_pos h4, if_pos h4, isS_snd, if_pos h4]
          rfl
        · have e4 : (isS s2).2 = s2 := by rw [isS_snd, if_neg h4]
          rw [if_neg h4, if_neg h4, e4]
          rfl

theorem freeToExercise_loop_step (env : Env) (fuel : Nat) (s : State)
    (hflag : s.isButtonPressed = false) (hbutton : env.MyButton s.polls = false) :
    freeToExercise_loop env (fuel + 1) s
      = if (isSU (freeAcquire env s)).1 then startCounting env fuel (freeAcquire env s) .SitUps
        else if (isPU (freeAcquire env s)).1 then
          startCounting env fuel (freeAcquire env s) .PushUps
        else if (isJJ (freeAcquire env s)).1 then
          startCounting env fuel (freeAcquire env s) .JumpingJacks
        else if (isS (freeAcquire env s)).1 then
          startCounting env fuel (freeAcquire env s) .Squats
        else startCounting env fuel (freeAcquire env s) .Unknown := by
  have hp : (pollButton env s).isButtonPressed = false := hbutton
  rw [freeToExercise_loop_succ, if_pos (by simp [hflag]), if_neg (by simp [hp]),
    freeDispatch_eq]

theorem freeToExercise_loop_classify (env : Env) (fuel : Nat) (s : State)
    (hflag : s.isButtonPressed = false) (hbutton : env.MyButton s.polls = false) :
    freeToExercise_loop env (fuel + 1) s
      = startCounting env fuel (freeAcquire env s)
          (classify (freeAcquire env s).sig.presamplesBuffer) := by
  rw [freeToExercise_loop_step env fuel s hflag hbutton, classify_eq_chain]
  split_ifs <;> rfl

/-! ## Lemmas on the routine -/

theorem calls_chase (a b c d : Led) (n : Nat) :
    calls (List.replicate n (chase a b c d)).flatten = [] := by
  induction n with
  | zero => rfl
  | succ n ih =>
    rw [List.replicate_succ, List.flatten_cons, calls_append, ih]
    rfl

theorem calls_blinkAll (n : Nat) : calls (List.replicate n blinkAll).flatten = [] := by
  induction n with
  | zero => rfl
  | succ n ih =>
    rw [List.replicate_succ, List.flatten_cons, calls_append, ih]
    rfl

theorem waitForRestart_inv (env : Env) (fuel : Nat) (s : State) :
    calls (waitForRestart env fuel s).state.trace = calls s.trace
      ∧ (waitForRestart env fuel s).state.finished = s.finished := by
  induction fuel generalizing s with
  | zero => exact ⟨rfl, rfl⟩
  | succ n ih =>
    rw [waitForRestart]
    split_ifs with h
    · obtain ⟨h1, h2⟩ := ih ({ s with polls := s.polls + 1 }.emit blinkAll)
      rw [h1, h2]
      refine ⟨?_, rfl⟩
      rw [emit_trace, calls_append]
      show calls s.trace ++ calls blinkAll = _
      simp [blinkAll, calls]
    · exact ⟨rfl, rfl⟩

theorem firstFinished_cases (s : State) (j : Nat) (hj : j ≤ 4) (h : s.finished = firstFinished j) :
    (j = 0 ∧ s.sitUpsFinished = false ∧ s.pushUpsFinished = false
        ∧ s.jumpJacksFinished = false ∧ s.squartsFinished = false)
    ∨ (j = 1 ∧ s.sitUpsFinished = true ∧ s.pushUpsFinished = false
        ∧ s.jumpJacksFinished = false ∧ s.squartsFinished = false)
    ∨ (j = 2 ∧ s.sitUpsFinished = true ∧ s.pushUpsFinished = true
        ∧ s.jumpJacksFinished = false ∧ s.squartsFinished = false)
    ∨ (j = 3 ∧ s.sitUpsFinished = true ∧ s.pushUpsFinished = true
        ∧ s.jumpJacksFinished = true ∧ s.squartsFinished = false)
    ∨ (j = 4 ∧ s.sitUpsFinished = true ∧ s.pushUpsFinished = true
        ∧ s.jumpJacksFinished = true ∧ s.squartsFinished = true) := by
  interval_cases j <;> simp [State.finished, firstFinished] at h <;> simp [h]

/-- A counting function run for a stage: calls and flags afterwards. -/
theorem stage_count (f : Counter) (env : Env) (fuel : Nat) (s : State) (l : Led) :
    calls (f.run env fuel (s.emit [.led l true]) 0).state.trace = calls s.trace ++ [(f, 0)]
      ∧ (f.run env fuel (s.emit [.led l true]) 0).state.finished = s.finished := by
  rw [Counter.run_eq]
  obtain ⟨-, h2, h3, -⟩ := countGeneric_inv f env fuel (s.emit [.led l true]) 0
  refine ⟨?_, h3⟩
  rw [h2, emit_trace, calls_append]
  simp [calls]

theorem stage_generic (f : Counter) (l : Led) (setFlag : State → State) (i : Nat)
    (env : Env) (fuel : Nat) (t0 : List (Counter × Int))
    (hset : ∀ s', s'.finished = firstFinished i
      → (setFlag s').finished = firstFinished (i + 1) ∧ (setFlag s').trace = s'.trace)
    (hord : routineOrder.take (i + 1) = routineOrder.take i ++ [(f, 0)])
    (s : State) (h : Progress t0 i i s) :
    match (f.run env fuel (s.emit [.led l true]) 0).andThen fun s1 => .returned (setFlag s1) with
    | .returned s' => Progress t0 (i + 1) (i + 1) s'
    | .unfinished s' => Progress t0 i (i + 1) s' := by
  obtain ⟨h1, h2⟩ := stage_count f env fuel s l
  cases hr : f.run env fuel (s.emit [.led l true]) 0 with
  | returned s1 =>
    rw [hr] at h1 h2
    simp only [Run.state] at h1 h2
    simp only [Run.andThen]
    obtain ⟨k1, k2⟩ := hset s1 (h2.trans h.1)
    exact ⟨k1, by rw [k2, h1, h.2, hord, List.append_assoc]⟩
  | unfinished s1 =>
    rw [hr] at h1 h2
    simp only [Run.state] at h1 h2
    simp only [Run.andThen]
    exact ⟨h2.trans h.1, by rw [h1, h.2, hord, List.append_assoc]⟩

theorem stageSitUps_progress (env : Env) (fuel : Nat) (t0 : List (Counter × Int)) (s : State)
    (j : Nat) (hj : j < 4) (h : Progress t0 j j s) :
    StageOutcome t0 (stageSitUps env fuel (pollButton env s)) := by
  have hp : Progress t0 j j (pollButton env s) := h
  rcases firstFinished_cases (pollButton env s) j (Nat.le_of_lt hj) hp.1 with
    ⟨rfl, f1, f2, f3, f4⟩ | ⟨rfl, f1, f2, f3, f4⟩ | ⟨rfl, f1, f2, f3, f4⟩
      | ⟨rfl, f1, f2, f3, f4⟩ | ⟨rfl, f1, f2, f3, f4⟩
  · by_cases hb : (pollButton env s).isButtonPressed = true
    · have hg := stage_generic .countSU .LED3 (fun s1 => { s1 with sitUpsFinished := true }) 0
        env fuel t0
        (fun s' hs' => ⟨by
          simp [State.finished, firstFinished] at hs' ⊢
          simp [hs'], rfl⟩) rfl (pollButton env s) hp
      simp only [stageSitUps, hb, f1, f2, f3, f4, Bool.not_false, Bool.and_self, if_true]
      revert hg
      show (match (countSU env fuel _ 0).andThen _ with
        | .returned s' => _ | .unfinished s' => _) → _
      cases (countSU env fuel ((pollButton env s).emit [.led .LED3 true]) 0).andThen
          (fun s1 => Run.returned { s1 with sitUpsFinished := true }) with
      | returned s' => exact fun hg => ⟨1, by decide, hg⟩
      | unfinished s' => exact fun hg => ⟨0, by decide, hg⟩
    · simp only [stageSitUps, hb, Bool.false_and, if_false, Bool.false_eq_true]
      exact ⟨0, hj, hp⟩
  all_goals
    simp only [stageSitUps, f1, f2, f3, f4, Bool.not_true, Bool.and_false, Bool.false_and,
      if_false, Bool.false_eq_true]
    exact ⟨_, hj, hp⟩

theorem stagePushUps_progress (env : Env) (fuel : Nat) (t0 : List (Counter × Int)) (s : State)
    (j : Nat) (hj : j < 4) (h : Progress t0 j j s) :
    StageOutcome t0 (stagePushUps env fuel (pollButton env s)) := by
  have hp : Progress t0 j j (pollButton env s) := h
  rcases firstFinished_cases (pollButton env s) j (Nat.le_of_lt hj) hp.1 with
    ⟨rfl, f1, f2, f3, f4⟩ | ⟨rfl, f1, f2, f3, f4⟩ | ⟨rfl, f1, f2, f3, f4⟩
      | ⟨rfl, f1, f2, f3, f4⟩ | ⟨rfl, f1, f2, f3, f4⟩
  rotate_left
  · by_cases hb : (pollButton env s).isButtonPressed = true
    · have hg := stage_generic .countPU .LED5 (fun s1 => { s1 with pushUpsFinished := true }) 1
        env fuel t0
        (fun s' hs' => ⟨by
          simp [State.finished, firstFinished] at hs' ⊢
          simp [hs'], rfl⟩) rfl (pollButton env s) hp
      simp only [stagePushUps, hb, f1, f2, f3, f4, Bool.not_false, Bool.and_self, if_true]
      revert hg
      show (match (countPU env fuel _ 0).andThen _ with
        | .returned s' => _ | .unfinished s' => _) → _
      cases (countPU env fuel ((pollButton env s).emit [.led .LED5 true]) 0).andThen
          (fun s1 => Run.returned { s1 with pushUpsFinished := true }) with
      | returned s' => exact fun hg => ⟨2, by decide, hg⟩
      | unfinished s' => exact fun hg => ⟨1, by decide, hg⟩
    · simp only [stagePushUps, hb, Bool.false_and, if_false, Bool.false_eq_true]
      exact ⟨1, hj, hp⟩
  all_goals
    simp only [stagePushUps, f1, f2, f3, f4, Bool.not_true, Bool.and_false, Bool.false_and,
      Bool.and_true, Bool.not_false, if_false, Bool.false_eq_true]
    exact ⟨_, hj, hp⟩

theorem stageJumpJacks_progress (env : Env) (fuel : Nat) (t0 : List (Counter × Int))
    (s : State) (j : Nat) (hj : j < 4) (h : Progress t0 j j s) :
    StageOutcome t0 (stageJumpJacks env fuel (pollButton env s)) := by
  have hp : Progress t0 j j (pollButton env s) := h
  rcases firstFinished_cases (pollButton env s) j (Nat.le_of_lt hj) hp.1 with
    ⟨rfl, f1, f2, f3, f4⟩ | ⟨rfl, f1, f2, f3, f4⟩ | ⟨rfl, f1, f2, f3, f4⟩
      | ⟨rfl, f1, f2, f3, f4⟩ | ⟨rfl, f1, f2, f3, f4⟩
  rotate_left 2
  · by_cases hb : (pollButton env s).isButtonPressed = true
    · have hg := stage_generic .countJJ .LED6 (fun s1 => { s1 with jumpJacksFinished := true }) 2
        env fuel t0
        (fun s' hs' => ⟨by
          simp [State.finished, firstFinished] at hs' ⊢
          simp [hs'], rfl⟩) rfl (pollButton env s) hp
      simp only [stageJumpJacks, hb, f1, f2, f3, f4, Bool.not_false, Bool.and_self, if_true]
      revert hg
      show (match (countJJ env fuel _ 0).andThen _ with
        | .returned s' => _ | .unfinished s' => _) → _
      cases (countJJ env fuel ((pollButton env s).emit [.led .LED6 true]) 0).andThen
          (fun s1 => Run.returned { s1 with jumpJacksFinished := true }) with
      | returned s' => exact fun hg => ⟨3, by decide, hg⟩
      | unfinished s' => exact fun hg => ⟨2, by decide, hg⟩
    · simp only [stageJumpJacks, hb, Bool.false_and, if_false, Bool.false_eq_true]
      exact ⟨2, hj, hp⟩
  all_goals
    simp only [stageJumpJacks, f1, f2, f3, f4, Bool.not_true, Bool.and_false, Bool.false_and,
      Bool.and_true, Bool.not_false, if_false, Bool.false_eq_true]
    exact ⟨_, hj, hp⟩

theorem stageSquats_progress (env : Env) (fuel : Nat) (t0 : List (Counter × Int)) (s : State)
    (h : Progress t0 3 3 s) :
    RoutineOutcome t0 (stageSquats env fuel s) := by
  have hg := stage_generic .countS .LED4 (fun s1 => { s1 with squartsFinished := true }) 3
    env fuel t0
    (fun s' hs' => ⟨by
      simp [State.finished, firstFinished] at hs' ⊢
      simp [hs'], rfl⟩) rfl s h
  rw [stageSquats]
  revert hg
  show (match (countS env fuel _ 0).andThen _ with
    | .returned s' => _ | .unfinished s' => _) → _
  cases countS env fuel (s.emit [.led .LED4 true]) 0 with
  | unfinished s1 =>
    intro hg
    exact ⟨3, 4, le_refl 4, Or.inr rfl, hg, by simp [Run.andThen, Run.isReturned]⟩
  | returned s1 =>
    intro hg
    simp only [Run.andThen] at hg ⊢
    obtain ⟨w1, w2⟩ := waitForRestart_inv env fuel { s1 with squartsFinished := true }
    exact ⟨4, 4, le_refl 4, Or.inl rfl, ⟨w2.trans hg.1, w1.trans hg.2⟩, fun _ => ⟨rfl, rfl⟩⟩

theorem StageOutcome.unfinished {t0 : List (Counter × Int)} {s' : State}
    (h : StageOutcome t0 (.unfinished s')) : RoutineOutcome t0 (.unfinished s') := by
  obtain ⟨j, hj, hp⟩ := h
  exact ⟨j, j + 1, hj, Or.inr rfl, hp, by simp [Run.isReturned]⟩

theorem routinedExercise_loop_progress (env : Env) (t0 : List (Counter × Int)) (fuel : Nat) :
    ∀ (s : State) (j : Nat), j < 4 → Progress t0 j j s
      → RoutineOutcome t0 (routinedExercise_loop env fuel s) := by
  induction fuel with
  | zero =>
    intro s j hj h
    exact ⟨j, j, Nat.le_of_lt hj, Or.inl rfl, h, by simp [routinedExercise_loop, Run.isReturned]⟩
  | succ n ih =>
    intro s j hj h
    rw [routinedExercise_loop]
    have o1 := stageSitUps_progress env n t0 s j hj h
    cases h1 : stageSitUps env n (pollButton env s) with
    | unfinished s' =>
      rw [h1] at o1
      exact o1.unfinished
    | returned s1 =>
      rw [h1] at o1
      obtain ⟨j1, hj1, p1⟩ := o1
      simp only [Run.andThen]
      have o2 := stagePushUps_progress env n t0 s1 j1 hj1 p1
      cases h2 : stagePushUps env n (pollButton env s1) with
      | unfinished s' =>
        rw [h2] at o2
        exact o2.unfinished
      | returned s2 =>
        rw [h2] at o2
        obtain ⟨j2, hj2, p2⟩ := o2
        simp only []
        have o3 := stageJumpJacks_progress env n t0 s2 j2 hj2 p2
        cases h3 : stageJumpJacks env n (pollButton env s2) with
        | unfinished s' =>
          rw [h3] at o3
          exact o3.unfinished
        | returned s3 =>
          rw [h3] at o3
          obtain ⟨j3, hj3, p3⟩ := o3
          simp only []
          have p4 : Progress t0 j3 j3 (pollButton env s3) := p3
          split_ifs with hg
          · rcases firstFinished_cases (pollButton env s3) j3 (Nat.le_of_lt hj3) p4.1 with
              ⟨rfl, f1, f2, f3, f4⟩ | ⟨rfl, f1, f2, f3, f4⟩ | ⟨rfl, f1, f2, f3, f4⟩
                | ⟨rfl, f1, f2, f3, f4⟩ | ⟨rfl, f1, f2, f3, f4⟩
            · simp [f1] at hg
            · simp [f2] at hg
            · simp [f3] at hg
            · exact stageSquats_progress env n t0 _ p4
            · omega
          · exact ih _ j3 hj3 p4

theorem routinedExercise_progress (env : Env) (fuel : Nat) (s : State) :
    RoutineOutcome (calls s.trace) (routinedExercise env fuel s) := by
  rw [routinedExercise]
  apply routinedExercise_loop_progress env (calls s.trace) fuel _ 0 (by decide)
  refine ⟨rfl, ?_⟩
  rw [foldl_emit]
  simp [calls_append, calls_chase, calls, routineOrder]

theorem routinedExercise_loop_succ (env : Env) (fuel : Nat) (s : State) :
    routinedExercise_loop env (fuel + 1) s
      = (stageSitUps env fuel (pollButton env s)).andThen fun s1 =>
        (stagePushUps env fuel (pollButton env s1)).andThen fun s2 =>
        (stageJumpJacks env fuel (pollButton env s2)).andThen fun s3 =>
        fourthTest env fuel (pollButton env s3) := rfl

theorem gate_iff (s : State) (i : Nat) (hi : i < 4) :
    Gate i s ↔ (s.isButtonPressed = true
      ∧ s.sitUpsFinished = decide (0 < i) ∧ s.pushUpsFinished = decide (1 < i)
      ∧ s.jumpJacksFinished = decide (2 < i) ∧ s.squartsFinished = false) := by
  interval_cases i <;> simp [Gate, State.finished, firstFinished]

theorem stageSitUps_gate (env : Env) (fuel : Nat) (s : State) :
    stageSitUps env fuel s
      = (countSU env fuel (s.emit [.led .LED3 true]) 0).andThen
          (fun s1 => .returned { s1 with sitUpsFinished := true })
        ∧ Gate 0 s
      ∨ stageSitUps env fuel s = .returned s ∧ ¬ Gate 0 s := by
  rw [gate_iff s 0 (by decide), stageSitUps]
  split_ifs with h
  · left
    refine ⟨rfl, ?_⟩
    simpa [Bool.and_eq_true, and_assoc] using h
  · right
    refine ⟨rfl, ?_⟩
    simpa [Bool.and_eq_true, and_assoc] using h

theorem stagePushUps_gate (env : Env) (fuel : Nat) (s : State) :
    stagePushUps env fuel s
      = (countPU env fuel (s.emit [.led .LED5 true]) 0).andThen
          (fun s1 => .returned { s1 with pushUpsFinished := true })
        ∧ Gate 1 s
      ∨ stagePushUps env fuel s = .returned s ∧ ¬ Gate 1 s := by
  rw [gate_iff s 1 (by decide), stagePushUps]
  split_ifs with h
  · left
    refine ⟨rfl, ?_⟩
    simpa [Bool.and_eq_true, and_assoc] using h
  · right
    refine ⟨rfl, ?_⟩
    simpa [Bool.and_eq_true, and_assoc] using h

theorem stageJumpJacks_gate (env : Env) (fuel : Nat) (s : State) :
    stageJumpJacks env fuel s
      = (countJJ env fuel (s.emit [.led .LED6 true]) 0).andThen
          (fun s1 => .returned { s1 with jumpJacksFinished := true })
        ∧ Gate 2 s
      ∨ stageJumpJacks env fuel s = .returned s ∧ ¬ Gate 2 s := by
  rw [gate_iff s 2 (by decide), stageJumpJacks]
  split_ifs with h
  · left
    refine ⟨rfl, ?_⟩
    simpa [Bool.and_eq_true, and_assoc] using h
  · right
    refine ⟨rfl, ?_⟩
    simpa [Bool.and_eq_true, and_assoc] using h

theorem fourthTest_gate (env : Env) (fuel : Nat) (s : State) :
    fourthTest env fuel s
      = (countS env fuel (s.emit [.led .LED4 true]) 0).andThen
          (fun s1 => waitForRestart env fuel { s1 with squartsFinished := true })
        ∧ Gate 3 s
      ∨ fourthTest env fuel s = routinedExercise_loop env fuel s ∧ ¬ Gate 3 s := by
  rw [gate_iff s 3 (by decide), fourthTest]
  split_ifs with h
  · left
    refine ⟨rfl, ?_⟩
    simpa [Bool.and_eq_true, and_assoc] using h
  · right
    refine ⟨rfl, ?_⟩
    simpa [Bool.and_eq_true, and_assoc] using h

/-! ## Lemmas on the filter -/

theorem nextIndex_of_lt {i : Nat} (h : i < 20) : nextIndex i = (i + 1) % 20 := by
  unfold nextIndex N
  have h1 : (i + 1) % 256 = i + 1 := Nat.mod_eq_of_lt (by omega)
  rw [h1]
  split_ifs with h2
  · omega
  · omega

theorem ringAfter_index (buf : Nat → ℚ) (i0 : Nat) (v : Nat → ℚ) (h0 : i0 < 20) (n : Nat) :
    (ringAfter buf i0 v n).2 = (i0 + n) % 20 := by
  induction n with
  | zero => exact (Nat.mod_eq_of_lt h0).symm
  | succ n ih =>
    show nextIndex (ringAfter buf i0 v n).2 = _
    rw [ih, nextIndex_of_lt (Nat.mod_lt _ (by decide))]
    omega

theorem ringAfter_get (buf : Nat → ℚ) (i0 : Nat) (v : Nat → ℚ) (h0 : i0 < 20) (n m : Nat)
    (hm : m < n) (hn : n ≤ m + 20) :
    (ringAfter buf i0 v n).1 ((i0 + m) % 20) = v m := by
  induction n with
  | zero => omega
  | succ n ih =>
    show Function.update (ringAfter buf i0 v n).1 (ringAfter buf i0 v n).2 (v n) _ = _
    rw [ringAfter_index buf i0 v h0 n]
    by_cases hmn : m = n
    · subst hmn
      simp
    · have hne : (i0 + m) % 20 ≠ (i0 + n) % 20 := by omega
      rw [Function.update_noteq hne]
      exact ih (by omega) (by omega)

theorem addAllSamples_eq_sum (buf : Nat → ℚ) :
    addAllSamples buf = ∑ j ∈ Finset.range 20, buf j := by
  unfold addAllSamples N
  generalize 20 = n
  induction n with
  | zero => rfl
  | succ n ih => rw [List.range_succ, List.foldl_append, ih, Finset.sum_range_succ]; rfl

theorem sum_range_eq_sum_Ico_mod (f : Nat → ℚ) (a : Nat) :
    ∑ j ∈ Finset.range 20, f j = ∑ k ∈ Finset.Ico a (a + 20), f (k % 20) := by
  rw [← Nat.image_Ico_mod a 20, Finset.sum_image]
  intro x hx y hy hxy
  simp only [Finset.mem_Ico] at hx hy
  omega

theorem ringAfter_sum (buf : Nat → ℚ) (i0 : Nat) (v : Nat → ℚ) (h0 : i0 < 20) (n : Nat)
    (hn : 20 ≤ n) :
    addAllSamples (ringAfter buf i0 v n).1 = ∑ m ∈ Finset.Ico (n - 20) n, v m := by
  rw [addAllSamples_eq_sum, sum_range_eq_sum_Ico_mod _ (i0 + (n - 20))]
  have e : i0 + (n - 20) + 20 = i0 + n := by omega
  have e2 : Finset.Ico (i0 + (n - 20)) (i0 + n)
      = Finset.Ico ((n - 20) + i0) (n + i0) := by
    rw [Nat.add_comm i0, Nat.add_comm i0]
  rw [e, e2, ← Finset.sum_Ico_add']
  apply Finset.sum_congr rfl
  intro m hm
  simp only [Finset.mem_Ico] at hm
  rw [Nat.add_comm m i0]
  exact ringAfter_get buf i0 v h0 n m hm.2 (by omega)

theorem sampling_iterate_succ (env : Env) (n : Nat) (g : Signal) :
    (sampling env)^[n + 1] g = sampling env ((sampling env)^[n] g) :=
  Function.iterate_succ_apply' (sampling env) n g

theorem sampling_iterate_reads (env : Env) (n : Nat) (g : Signal) :
    ((sampling env)^[n] g).reads = g.reads + n := by
  induction n with
  | zero => rfl
  | succ n ih =>
    rw [sampling_iterate_succ]
    show ((sampling env)^[n] g).reads + 1 = _
    rw [ih, Nat.add_assoc]

theorem sampling_iterate_X (env : Env) (n : Nat) (g : Signal) :
    (((sampling env)^[n] g).ringbufX, ((sampling env)^[n] g).ringbuf_index_x)
      = ringAfter g.ringbufX g.ringbuf_index_x
          (fun m => ((env.ReadData (g.reads + m)).x : ℚ) / 17694) n := by
  induction n with
  | zero => rfl
  | succ n ih =>
    rw [sampling_iterate_succ, ringAfter, ← ih, ← sampling_iterate_reads env n g]
    rfl

theorem sampling_iterate_Y (env : Env) (n : Nat) (g : Signal) :
    (((sampling env)^[n] g).ringbufY, ((sampling env)^[n] g).ringbuf_index_y)
      = ringAfter g.ringbufY g.ringbuf_index_y
          (fun m => ((env.ReadData (g.reads + m)).y : ℚ) / 17694) n := by
  induction n with
  | zero => rfl
  | succ n ih =>
    rw [sampling_iterate_succ, ringAfter, ← ih, ← sampling_iterate_reads env n g]
    rfl

theorem sampling_iterate_Z (env : Env) (n : Nat) (g : Signal) :
    (((sampling env)^[n] g).ringbufZ, ((sampling env)^[n] g).ringbuf_index_z)
      = ringAfter g.ringbufZ g.ringbuf_index_z
          (fun m => ((env.ReadData (g.reads + m)).z : ℚ) / 17694) n := by
  induction n with
  | zero => rfl
  | succ n ih =>
    rw [sampling_iterate_succ, ringAfter, ← ih, ← sampling_iterate_reads env n g]
    rfl

theorem movingAverage_ringAfter (buf : Nat → ℚ) (i0 : Nat) (raw : Nat → Int) (h0 : i0 < 20)
    (n : Nat) (hn : 20 ≤ n) :
    movingAverage (ringAfter buf i0 (fun m => (raw m : ℚ) / 17694) n).1
      = meanOfLast20 raw n := by
  rw [movingAverage, ringAfter_sum buf i0 _ h0 n hn, meanOfLast20]
  simp [N]

theorem restrictTo1g_eq_min (m : ℚ) : restrictTo1g m = min m 1 := by
  unfold restrictTo1g
  split_ifs with h
  · exact (min_eq_right (le_of_lt h)).symm
  · exact (min_eq_left (not_lt.mp h)).symm

theorem sampling_angles (env : Env) (g : Signal) :
    (sampling env g).angleX
        = 180 * env.acos (min (movingAverage (sampling env g).ringbufX) 1) / PI
      ∧ (sampling env g).angleY
        = 180 * env.acos (min (movingAverage (sampling env g).ringbufY) 1) / PI
      ∧ (sampling env g).angleZ
        = 180 * env.acos (min (movingAverage (sampling env g).ringbufZ) 1) / PI
      ∧ (sampling env g).tempBuffer 0 = (sampling env g).angleX
      ∧ (sampling env g).tempBuffer 1 = (sampling env g).angleY
      ∧ (sampling env g).tempBuffer 2 = (sampling env g).angleZ := by
  simp only [← restrictTo1g_eq_min]
  refine ⟨rfl, rfl, rfl, ?_, ?_, ?_⟩ <;> simp [sampling]

theorem meanOfLast20_const (r : Int) (raw : Nat → Int) (n : Nat) (hn : 20 ≤ n)
    (h : ∀ m, raw m = r) : meanOfLast20 raw n = (r : ℚ) / 17694 := by
  have hc : n - (n - 20) = 20 := by omega
  simp [meanOfLast20, h, Finset.sum_const, Nat.card_Ico, hc]

theorem movingAverage_iterate_X (env : Env) (g : Signal) (n : Nat) (hn : 20 ≤ n)
    (hx : g.ringbuf_index_x < 20) :
    movingAverage ((sampling env)^[n] g).ringbufX
      = meanOfLast20 (fun m => (env.ReadData (g.reads + m)).x) n := by
  have h := congrArg Prod.fst (sampling_iterate_X env n g)
  simp only at h
  rw [h]
  exact movingAverage_ringAfter _ _ _ hx n hn

theorem movingAverage_iterate_Y (env : Env) (g : Signal) (n : Nat) (hn : 20 ≤ n)
    (hy : g.ringbuf_index_y < 20) :
    movingAverage ((sampling env)^[n] g).ringbufY
      = meanOfLast20 (fun m => (env.ReadData (g.reads + m)).y) n := by
  have h := congrArg Prod.fst (sampling_iterate_Y env n g)
  simp only at h
  rw [h]
  exact movingAverage_ringAfter _ _ _ hy n hn

theorem movingAverage_iterate_Z (env : Env) (g : Signal) (n : Nat) (hn : 20 ≤ n)
    (hz : g.ringbuf_index_z < 20) :
    movingAverage ((sampling env)^[n] g).ringbufZ
      = meanOfLast20 (fun m => (env.ReadData (g.reads + m)).z) n := by
  have h := congrArg Prod.fst (sampling_iterate_Z env n g)
  simp only at h
  rw [h]
  exact movingAverage_ringAfter _ _ _ hz n hn

/-! ## Further lemmas: regions, free-exercise calls, warm-up, indices, stalled counting -/

theorem axisMean_constWindow (x y z : ℚ) :
    axisMean (constWindow x y z) 0 = x ∧ axisMean (constWindow x y z) 1 = y
      ∧ axisMean (constWindow x y z) 2 = z := by
  simp [axisMean, constWindow, Finset.sum_const]

theorem isSU_iff (s : State) :
    (isSU s).1 = true ↔ Region.holds ⟨60, 100, 80, 140, 120, 180⟩ s.sig.presamplesBuffer := by
  rw [isSU_fst, decide_eq_true_iff]

theorem isPU_iff (s : State) :
    (isPU s).1 = true ↔ Region.holds ⟨80, 100, 60, 90, 20, 40⟩ s.sig.presamplesBuffer := by
  rw [isPU_fst, decide_eq_true_iff]

theorem isJJ_iff (s : State) :
    (isJJ s).1 = true ↔ Region.holds ⟨60, 160, 80, 120, 30, 80⟩ s.sig.presamplesBuffer := by
  rw [isJJ_fst, decide_eq_true_iff]

theorem isS_iff (s : State) :
    (isS s).1 = true ↔ Region.holds ⟨60, 100, 80, 140, 120, 180⟩ s.sig.presamplesBuffer := by
  rw [isS_fst, decide_eq_true_iff]

theorem freeToExercise_loop_pressed (env : Env) (fuel : Nat) (s : State)
    (hflag : s.isButtonPressed = false) (hbutton : env.MyButton s.polls = true) :
    freeToExercise_loop env (fuel + 1) s = .returned (pollButton env s) := by
  have hp : (pollButton env s).isButtonPressed = true := hbutton
  rw [freeToExercise_loop_succ, if_pos (by simp [hflag]), if_pos hp]

theorem andThen_finishFree_calls (r : Run) :
    calls (r.andThen finishFree).state.trace = calls r.state.trace := by
  cases r with
  | unfinished s => rfl
  | returned s =>
    show calls (blinkAllThrice s).trace = calls s.trace
    rw [blinkAllThrice_eq, emit_trace, calls_append, calls_blinkAll, List.append_nil]

theorem calls_run (f : Counter) (env : Env) (fuel : Nat) (s : State) (seed : Int) :
    calls (f.run env fuel s seed).state.trace = calls s.trace ++ [(f, seed)] := by
  rw [Counter.run_eq]
  exact (countGeneric_inv f env fuel s seed).2.1

theorem calls_startCounting (env : Env) (fuel : Nat) (s : State) (label : ExerciseLabel)
    (f : Counter) (h : label.counter = some f) :
    calls (startCounting env fuel s label).state.trace
      = calls s.trace ++ [(f, peakScan s.sig.presamplesBuffer 0)] := by
  cases label with
  | Unknown => simp [ExerciseLabel.counter] at h
  | SitUps =>
    obtain rfl : Counter.countSU = f := by simpa [ExerciseLabel.counter] using h
    rw [startCounting, andThen_finishFree_calls]
    refine (calls_run .countSU env fuel _ _).trans ?_
    rw [emit_trace, calls_append]
    simp [calls]
  | PushUps =>
    obtain rfl : Counter.countPU = f := by simpa [ExerciseLabel.counter] using h
    rw [startCounting, andThen_finishFree_calls]
    refine (calls_run .countPU env fuel _ _).trans ?_
    rw [emit_trace, calls_append]
    simp [calls]
  | JumpingJacks =>
    obtain rfl : Counter.countJJ = f := by simpa [ExerciseLabel.counter] using h
    rw [startCounting, andThen_finishFree_calls]
    refine (calls_run .countJJ env fuel _ _).trans ?_
    rw [emit_trace, calls_append]
    simp [calls]
  | Squats =>
    obtain rfl : Counter.countS = f := by simpa [ExerciseLabel.counter] using h
    rw [startCounting, andThen_finishFree_calls]
    refine (calls_run .countS env fuel _ _).trans ?_
    rw [emit_trace, calls_append]
    simp [calls]

theorem isS_eq_isSU (s : State) : (isS s).1 = (isSU s).1 := by
  rw [isS_fst, isSU_fst]

theorem classify_chain_ne_Squats (s : State) : classify s.sig.presamplesBuffer ≠ .Squats := by
  rw [classify_eq_chain, isS_eq_isSU]
  split_ifs <;> simp

theorem classify_ne_Squats (w : Nat → Nat → ℚ) : classify w ≠ .Squats :=
  classify_chain_ne_Squats (stateWithWindow w)

theorem freeToExercise_loop_calls (env : Env) (fuel : Nat) :
    ∀ s : State, ∃ l : List (Counter × Int),
      calls (freeToExercise_loop env fuel s).state.trace = calls s.trace ++ l
        ∧ l.length ≤ 1 ∧ ∀ c ∈ l, c.1 ≠ .countS := by
  induction fuel with
  | zero => exact fun s => ⟨[], by simp [freeToExercise_loop, Run.state], by simp, by simp⟩
  | succ n ih =>
    intro s
    by_cases hflag : s.isButtonPressed = false
    · by_cases hb : env.MyButton s.polls = false
      · rw [freeToExercise_loop_classify env n s hflag hb]
        cases hl : classify (freeAcquire env s).sig.presamplesBuffer with
        | Squats => exact absurd hl (classify_ne_Squats _)
        | Unknown =>
          obtain ⟨l, h1, h2, h3⟩ := ih (freeAcquire env s)
          exact ⟨l, h1, h2, h3⟩
        | SitUps =>
          exact ⟨_, calls_startCounting env n _ .SitUps .countSU rfl, by simp, by simp⟩
        | PushUps =>
          exact ⟨_, calls_startCounting env n _ .PushUps .countPU rfl, by simp, by simp⟩
        | JumpingJacks =>
          exact ⟨_, calls_startCounting env n _ .JumpingJacks .countJJ rfl, by simp, by simp⟩
      · simp only [Bool.not_eq_false] at hb
        rw [freeToExercise_loop_pressed env n s hflag hb]
        exact ⟨[], by simp [Run.state, pollButton], by simp, by simp⟩
    · simp only [Bool.not_eq_false] at hflag
      rw [freeToExercise_loop_succ, if_neg (by simp [hflag])]
      exact ⟨[], by simp [Run.state], by simp, by simp⟩

theorem calls_freeToExercise (env : Env) (fuel : Nat) (s : State) :
    ∃ l : List (Counter × Int),
      calls (freeToExercise env fuel s).state.trace = calls s.trace ++ l
        ∧ l.length ≤ 1 ∧ ∀ c ∈ l, c.1 ≠ .countS := by
  obtain ⟨l, h1, h2, h3⟩ := freeToExercise_loop_calls env fuel
    (s.emit (List.replicate 3 (chase .LED3 .LED5 .LED6 .LED4)).flatten)
  refine ⟨l, ?_, h2, h3⟩
  rw [freeToExercise, foldl_emit, h1, emit_trace, calls_append, calls_chase, List.append_nil]

theorem routineOrder_seed (c : Counter × Int) (h : c ∈ routineOrder) : c.2 = 0 := by
  simp only [routineOrder, List.mem_cons, List.mem_singleton, List.not_mem_nil, or_false] at h
  rcases h with rfl | rfl | rfl | rfl <;> rfl

theorem ringAfter_untouched (buf : Nat → ℚ) (i0 : Nat) (v : Nat → ℚ) (h0 : i0 < 20) (j : Nat)
    (n : Nat) (hj : ∀ m, m < n → (i0 + m) % 20 ≠ j) :
    (ringAfter buf i0 v n).1 j = buf j := by
  induction n with
  | zero => rfl
  | succ n ih =>
    show Function.update (ringAfter buf i0 v n).1 (ringAfter buf i0 v n).2 (v n) j = _
    rw [ringAfter_index buf i0 v h0 n,
      Function.update_noteq (fun h => hj n (Nat.lt_succ_self n) h.symm)]
    exact ih fun m hm => hj m (Nat.lt_succ_of_lt hm)

theorem ringAfter_warmup_sum (v : Nat → ℚ) (k : Nat) (hk : k ≤ 20) :
    addAllSamples (ringAfter (fun _ => 0) 0 v k).1 = ∑ m ∈ Finset.range k, v m := by
  rw [addAllSamples_eq_sum, ← Finset.sum_range_add_sum_Ico _ hk]
  have h1 : ∑ j ∈ Finset.range k, (ringAfter (fun _ => 0) 0 v k).1 j
      = ∑ m ∈ Finset.range k, v m := by
    apply Finset.sum_congr rfl
    intro m hm
    rw [Finset.mem_range] at hm
    have h := ringAfter_get (fun _ => 0) 0 v (by decide) k m hm (by omega)
    rwa [Nat.zero_add, Nat.mod_eq_of_lt (by omega)] at h
  have h2 : ∑ j ∈ Finset.Ico k 20, (ringAfter (fun _ => 0) 0 v k).1 j = 0 := by
    apply Finset.sum_eq_zero
    intro j hj
    rw [Finset.mem_Ico] at hj
    exact ringAfter_untouched (fun _ => 0) 0 v (by decide) j k (fun m hm => by omega)
  rw [h1, h2, add_zero]

theorem movingAverage_warmup_X (env : Env) (k : Nat) (hk : k ≤ 20) :
    movingAverage ((sampling env)^[k] Signal.init).ringbufX
      = (∑ m ∈ Finset.range k, ((env.ReadData m).x : ℚ) / 17694) / 20 := by
  have h := congrArg Prod.fst (sampling_iterate_X env k Signal.init)
  simp only at h
  rw [h, movingAverage]
  show addAllSamples (ringAfter (fun _ => 0) 0
    (fun m => ((env.ReadData (0 + m)).x : ℚ) / 17694) k).1 / ((20 : ℕ) : ℚ) = _
  rw [ringAfter_warmup_sum _ k hk]
  simp

theorem movingAverage_warmup_Y (env : Env) (k : Nat) (hk : k ≤ 20) :
    movingAverage ((sampling env)^[k] Signal.init).ringbufY
      = (∑ m ∈ Finset.range k, ((env.ReadData m).y : ℚ) / 17694) / 20 := by
  have h := congrArg Prod.fst (sampling_iterate_Y env k Signal.init)
  simp only at h
  rw [h, movingAverage]
  show addAllSamples (ringAfter (fun _ => 0) 0
    (fun m => ((env.ReadData (0 + m)).y : ℚ) / 17694) k).1 / ((20 : ℕ) : ℚ) = _
  rw [ringAfter_warmup_sum _ k hk]
  simp

theorem movingAverage_warmup_Z (env : Env) (k : Nat) (hk : k ≤ 20) :
    movingAverage ((sampling env)^[k] Signal.init).ringbufZ
      = (∑ m ∈ Finset.range k, ((env.ReadData m).z : ℚ) / 17694) / 20 := by
  have h := congrArg Prod.fst (sampling_iterate_Z env k Signal.init)
  simp only at h
  rw [h, movingAverage]
  show addAllSamples (ringAfter (fun _ => 0) 0
    (fun m => ((env.ReadData (0 + m)).z : ℚ) / 17694) k).1 / ((20 : ℕ) : ℚ) = _
  rw [ringAfter_warmup_sum _ k hk]
  simp

theorem sampling_index_x (env : Env) (n : Nat) :
    ((sampling env)^[n] Signal.init).ringbuf_index_x = n % 20 := by
  have h := congrArg Prod.snd (sampling_iterate_X env n Signal.init)
  simp only at h
  rw [h, ringAfter_index _ _ _ (by decide)]
  show (0 + n) % 20 = _
  rw [Nat.zero_add]

theorem sampling_index_y (env : Env) (n : Nat) :
    ((sampling env)^[n] Signal.init).ringbuf_index_y = n % 20 := by
  have h := congrArg Prod.snd (sampling_iterate_Y env n Signal.init)
  simp only at h
  rw [h, ringAfter_index _ _ _ (by decide)]
  show (0 + n) % 20 = _
  rw [Nat.zero_add]

theorem sampling_index_z (env : Env) (n : Nat) :
    ((sampling env)^[n] Signal.init).ringbuf_index_z = n % 20 := by
  have h := congrArg Prod.snd (sampling_iterate_Z env n Signal.init)
  simp only at h
  rw [h, ringAfter_index _ _ _ (by decide)]
  show (0 + n) % 20 = _
  rw [Nat.zero_add]

theorem sampling_stored_X (env : Env) (n m : Nat) (hm : m < n) (hn : n ≤ m + 20) :
    ((sampling env)^[n] Signal.init).ringbufX (m % 20) = ((env.ReadData m).x : ℚ) / 17694 := by
  have h := congrArg Prod.fst (sampling_iterate_X env n Signal.init)
  simp only at h
  rw [h]
  have hg := ringAfter_get Signal.init.ringbufX 0
    (fun m => ((env.ReadData (Signal.init.reads + m)).x : ℚ) / 17694) (by decide) n m hm hn
  rw [Nat.zero_add] at hg
  refine hg.trans ?_
  show ((env.ReadData (0 + m)).x : ℚ) / 17694 = _
  rw [Nat.zero_add]

theorem sampling_stored_Y (env : Env) (n m : Nat) (hm : m < n) (hn : n ≤ m + 20) :
    ((sampling env)^[n] Signal.init).ringbufY (m % 20) = ((env.ReadData m).y : ℚ) / 17694 := by
  have h := congrArg Prod.fst (sampling_iterate_Y env n Signal.init)
  simp only at h
  rw [h]
  have hg := ringAfter_get Signal.init.ringbufY 0
    (fun m => ((env.ReadData (Signal.init.reads + m)).y : ℚ) / 17694) (by decide) n m hm hn
  rw [Nat.zero_add] at hg
  refine hg.trans ?_
  show ((env.ReadData (0 + m)).y : ℚ) / 17694 = _
  rw [Nat.zero_add]

theorem sampling_stored_Z (env : Env) (n m : Nat) (hm : m < n) (hn : n ≤ m + 20) :
    ((sampling env)^[n] Signal.init).ringbufZ (m % 20) = ((env.ReadData m).z : ℚ) / 17694 := by
  have h := congrArg Prod.fst (sampling_iterate_Z env n Signal.init)
  simp only at h
  rw [h]
  have hg := ringAfter_get Signal.init.ringbufZ 0
    (fun m => ((env.ReadData (Signal.init.reads + m)).z : ℚ) / 17694) (by decide) n m hm hn
  rw [Nat.zero_add] at hg
  refine hg.trans ?_
  show ((env.ReadData (0 + m)).z : ℚ) / 17694 = _
  rw [Nat.zero_add]

theorem sampling_writes (env : Env) (g : Signal) :
    (sampling env g).ringbufX
        = Function.update g.ringbufX g.ringbuf_index_x (((env.ReadData g.reads).x : ℚ) / 17694)
      ∧ (sampling env g).ringbufY
        = Function.update g.ringbufY g.ringbuf_index_y (((env.ReadData g.reads).y : ℚ) / 17694)
      ∧ (sampling env g).ringbufZ
        = Function.update g.ringbufZ g.ringbuf_index_z (((env.ReadData g.reads).z : ℚ) / 17694) :=
  ⟨rfl, rfl, rfl⟩

theorem not_adjacent_peaks (w : Nat → Nat → ℚ) (i : Nat) :
    ¬ ((w i 1 > w (i - 1) 1 ∧ w i 1 > w (i + 1) 1)
      ∧ (w (i + 1) 1 > w (i + 1 - 1) 1 ∧ w (i + 1) 1 > w (i + 1 + 1) 1)) := by
  rintro ⟨⟨-, h1⟩, ⟨h2, -⟩⟩
  rw [Nat.add_sub_cancel] at h2
  exact lt_asymm h1 h2

theorem strictLocalMaxCount_le (w : Nat → Nat → ℚ) : strictLocalMaxCount w ≤ 9 := by
  unfold strictLocalMaxCount
  have h := Finset.card_le_card_of_injOn (fun i => (i - 1) / 2)
    (s := (Finset.Icc 1 18).filter
      (fun i => w i 1 > w (i - 1) 1 ∧ w i 1 > w (i + 1) 1))
    (t := Finset.range 9) ?_ ?_
  · simpa using h
  · intro i hi
    simp only [Finset.mem_coe, Finset.mem_filter, Finset.mem_Icc] at hi
    simp only [Finset.mem_coe, Finset.mem_range]
    omega
  · intro i hi j hj hij
    simp only [Finset.mem_coe, Finset.mem_filter, Finset.mem_Icc] at hi hj
    simp only at hij
    by_contra hne
    have hcases : i + 1 = j ∨ j + 1 = i := by omega
    rcases hcases with h | h
    · subst h
      exact not_adjacent_peaks w i ⟨hi.2, hj.2⟩
    · subst h
      exact not_adjacent_peaks w j ⟨hj.2, hi.2⟩

theorem run_seed_ge5 (f : Counter) (env : Env) (fuel : Nat) (s : State) (seed : Int)
    (h5 : 5 ≤ seed) :
    f.run env (fuel + 1) s seed = .returned { s.emit [.call f seed] with count := seed } := by
  rw [Counter.run_eq, countGeneric]
  exact count_outer_done f.led env fuel _ h5

theorem run_seed_ge5_trace (f : Counter) (env : Env) (fuel : Nat) (s : State) (seed : Int)
    (h5 : 5 ≤ seed) :
    (f.run env fuel s seed).state.trace = s.trace ++ [.call f seed] := by
  cases fuel with
  | zero =>
    rw [Counter.run_eq]
    rfl
  | succ n =>
    rw [run_seed_ge5 f env n s seed h5]
    rfl

theorem pressedPass_fields (l : Led) (s : State) :
    (pressedPass l s).sig = s.sig ∧ (pressedPass l s).count = s.count
      ∧ (pressedPass l s).polls = s.polls + 1
      ∧ (pressedPass l s).trace
          = s.trace ++ (List.replicate s.count.toNat [Event.led l true, .led l false]).flatten
      ∧ (s.count = 0 → (pressedPass l s).trace = s.trace) := by
  refine ⟨by simp [pressedPass], by simp [pressedPass], by simp [pressedPass],
    display_trace l (leaveInner s), ?_⟩
  intro h0
  have ht := display_trace l (leaveInner s)
  rw [leaveInner_count, h0] at ht
  simpa using ht

theorem iterate_pressedPass (l : Led) (K : Nat) (s : State) :
    ((pressedPass l)^[K] s).sig = s.sig ∧ ((pressedPass l)^[K] s).count = s.count
      ∧ ((pressedPass l)^[K] s).polls = s.polls + K
      ∧ (s.count = 0 → ((pressedPass l)^[K] s).trace = s.trace) := by
  induction K with
  | zero => exact ⟨rfl, rfl, rfl, fun _ => rfl⟩
  | succ K ih =>
    rw [Function.iterate_succ_apply']
    obtain ⟨h1, h2, h3, h4⟩ := ih
    obtain ⟨p1, p2, p3, -, p5⟩ := pressedPass_fields l ((pressedPass l)^[K] s)
    refine ⟨p1.trans h1, p2.trans h2, ?_, ?_⟩
    · rw [p3, h3, Nat.add_assoc]
    · intro h0
      rw [p5 (h2.trans h0), h4 h0]

theorem count_outer_pressed_passes (l : Led) (env : Env) (K : Nat) :
    ∀ (fuel : Nat) (s : State), s.count < 5
      → (∀ k, k < K → env.MyButton (s.polls + k) = true)
      → count_outer l env (fuel + K + 1) s
          = count_outer l env (fuel + 1) ((pressedPass l)^[K] s) := by
  induction K with
  | zero => intro fuel s _ _; rfl
  | succ K ih =>
    intro fuel s hc hb
    have h0 : env.MyButton s.polls = true := by simpa using hb 0 (Nat.succ_pos K)
    have e : fuel + (K + 1) + 1 = (fuel + K) + 2 := by omega
    rw [e, count_outer_pressed l env (fuel + K) s hc h0, Function.iterate_succ_apply]
    apply ih fuel (display l (leaveInner s)) (by simpa using hc)
    intro k hk
    have := hb (k + 1) (Nat.succ_lt_succ hk)
    rw [display_polls, leaveInner_polls]
    rwa [Nat.add_assoc, Nat.add_comm 1 k]

theorem count_pressed_forever_trace (l : Led) (env : Env) (hb : ∀ k, env.MyButton k = true)
    (fuel : Nat) :
    ∀ s : State, s.count = 0 → (count_outer l env fuel s).state.trace = s.trace := by
  induction fuel using Nat.strong_induction_on with
  | _ fuel ih =>
    intro s h0
    have hc : s.count < 5 := by rw [h0]; decide
    match fuel with
    | 0 => rfl
    | 1 =>
      rw [count_outer_step l env 0 s hc]
      rfl
    | fuel + 2 =>
      rw [count_outer_pressed l env fuel s hc (hb _),
        ih (fuel + 1) (by omega) (display l (leaveInner s)) (by simpa using h0)]
      exact (pressedPass_fields l s).2.2.2.2 h0

/-! ### The window entries and the ring buffer after one window -/

theorem sampleAt_setWindow (env : Env) (g : Signal) (p : Nat → Nat → ℚ) (i : Nat) :
    sampleAt env (g.setWindow p) i
      = (sampling env g).setWindow (Function.update p i
          (Function.update (Function.update (Function.update (p i)
            0 ((sampling env g).tempBuffer 0)) 1 ((sampling env g).tempBuffer 1))
            2 ((sampling env g).tempBuffer 2))) := rfl

theorem sampleAt_foldl (env : Env) (n : Nat) (g : Signal) :
    ∃ p : Nat → Nat → ℚ,
      (List.range n).foldl (sampleAt env) g = ((sampling env)^[n] g).setWindow p
        ∧ ∀ i, i < n → ∀ k, k < 3 → p i k = ((sampling env)^[i + 1] g).tempBuffer k := by
  induction n with
  | zero => exact ⟨g.presamplesBuffer, rfl, fun i hi => absurd hi (Nat.not_lt_zero i)⟩
  | succ n ih =>
    obtain ⟨p, hp, hentries⟩ := ih
    refine ⟨Function.update p n
      (Function.update (Function.update (Function.update (p n)
        0 ((sampling env ((sampling env)^[n] g)).tempBuffer 0))
        1 ((sampling env ((sampling env)^[n] g)).tempBuffer 1))
        2 ((sampling env ((sampling env)^[n] g)).tempBuffer 2)), ?_, ?_⟩
    · rw [List.range_succ, List.foldl_append, List.foldl_cons, List.foldl_nil, hp,
        sampleAt_setWindow, sampling_iterate_succ]
    · intro i hi k hk
      by_cases hin : i = n
      · subst hin
        rw [Function.update_same, ← sampling_iterate_succ]
        interval_cases k <;> simp
      · rw [Function.update_noteq hin]
        exact hentries i (by omega) k hk

theorem sampleTwoSeconds_entries (env : Env) (g : Signal) :
    ∃ p : Nat → Nat → ℚ,
      sampleTwoSeconds env g = ((sampling env)^[20] g).setWindow p
        ∧ ∀ i, i < 20 → ∀ k, k < 3 → p i k = ((sampling env)^[i + 1] g).tempBuffer k :=
  sampleAt_foldl env 20 g

theorem ringAfter_partial_sum (buf : Nat → ℚ) (i0 : Nat) (v : Nat → ℚ) (h0 : i0 < 20)
    (n : Nat) (hn : n ≤ 20) :
    addAllSamples (ringAfter buf i0 v n).1
      = ∑ m ∈ Finset.range n, v m + ∑ m ∈ Finset.Ico n 20, buf ((i0 + m) % 20) := by
  rw [addAllSamples_eq_sum, sum_range_eq_sum_Ico_mod _ i0]
  have e : ∑ k ∈ Finset.Ico i0 (i0 + 20), (ringAfter buf i0 v n).1 (k % 20)
      = ∑ m ∈ Finset.range 20, (ringAfter buf i0 v n).1 ((i0 + m) % 20) := by
    rw [Finset.range_eq_Ico, Finset.sum_Ico_add (fun k => (ringAfter buf i0 v n).1 (k % 20)) 0 20 i0,
      Nat.zero_add, Nat.add_comm 20 i0]
  rw [e, ← Finset.sum_range_add_sum_Ico _ hn]
  congr 1
  · apply Finset.sum_congr rfl
    intro m hm
    rw [Finset.mem_range] at hm
    exact ringAfter_get buf i0 v h0 n m hm (by omega)
  · apply Finset.sum_congr rfl
    intro m hm
    rw [Finset.mem_Ico] at hm
    exact ringAfter_untouched buf i0 v h0 _ n (fun m' hm' => by omega)

theorem entryMean_last (v : Nat → ℚ) (buf : Nat → ℚ) (i0 : Nat) :
    entryMean v buf i0 19 = (∑ m ∈ Finset.range 20, v m) / 20 := by
  simp [entryMean]

theorem movingAverage_entry_X (env : Env) (g : Signal) (hx : g.ringbuf_index_x < 20) (i : Nat)
    (hi : i < 20) :
    movingAverage ((sampling env)^[i + 1] g).ringbufX
      = entryMean (fun m => ((env.ReadData (g.reads + m)).x : ℚ) / 17694) g.ringbufX
          g.ringbuf_index_x i := by
  have h := congrArg Prod.fst (sampling_iterate_X env (i + 1) g)
  simp only at h
  rw [h, movingAverage, ringAfter_partial_sum _ _ _ hx (i + 1) (by omega), entryMean]
  simp [N]

theorem movingAverage_entry_Y (env : Env) (g : Signal) (hy : g.ringbuf_index_y < 20) (i : Nat)
    (hi : i < 20) :
    movingAverage ((sampling env)^[i + 1] g).ringbufY
      = entryMean (fun m => ((env.ReadData (g.reads + m)).y : ℚ) / 17694) g.ringbufY
          g.ringbuf_index_y i := by
  have h := congrArg Prod.fst (sampling_iterate_Y env (i + 1) g)
  simp only at h
  rw [h, movingAverage, ringAfter_partial_sum _ _ _ hy (i + 1) (by omega), entryMean]
  simp [N]

theorem movingAverage_entry_Z (env : Env) (g : Signal) (hz : g.ringbuf_index_z < 20) (i : Nat)
    (hi : i < 20) :
    movingAverage ((sampling env)^[i + 1] g).ringbufZ
      = entryMean (fun m => ((env.ReadData (g.reads + m)).z : ℚ) / 17694) g.ringbufZ
          g.ringbuf_index_z i := by
  have h := congrArg Prod.fst (sampling_iterate_Z env (i + 1) g)
  simp only at h
  rw [h, movingAverage, ringAfter_partial_sum _ _ _ hz (i + 1) (by omega), entryMean]
  simp [N]

theorem window_entry (env : Env) (g : Signal) (hx : g.ringbuf_index_x < 20)
    (hy : g.ringbuf_index_y < 20) (hz : g.ringbuf_index_z < 20) (i : Nat) (hi : i < 20) :
    (sampleTwoSeconds env g).presamplesBuffer i 0
        = 180 * env.acos (min (entryMean
            (fun m => ((env.ReadData (g.reads + m)).x : ℚ) / 17694) g.ringbufX
            g.ringbuf_index_x i) 1) / PI
      ∧ (sampleTwoSeconds env g).presamplesBuffer i 1
        = 180 * env.acos (min (entryMean
            (fun m => ((env.ReadData (g.reads + m)).y : ℚ) / 17694) g.ringbufY
            g.ringbuf_index_y i) 1) / PI
      ∧ (sampleTwoSeconds env g).presamplesBuffer i 2
        = 180 * env.acos (min (entryMean
            (fun m => ((env.ReadData (g.reads + m)).z : ℚ) / 17694) g.ringbufZ
            g.ringbuf_index_z i) 1) / PI := by
  obtain ⟨p, hp, hentries⟩ := sampleTwoSeconds_entries env g
  have ha := sampling_angles env ((sampling env)^[i] g)
  rw [← sampling_iterate_succ, movingAverage_entry_X env g hx i hi,
    movingAverage_entry_Y env g hy i hi, movingAverage_entry_Z env g hz i hi] at ha
  obtain ⟨a1, a2, a3, t1, t2, t3⟩ := ha
  rw [hp]
  show p i 0 = _ ∧ p i 1 = _ ∧ p i 2 = _
  rw [hentries i hi 0 (by decide), hentries i hi 1 (by decide), hentries i hi 2 (by decide),
    t1, t2, t3]
  exact ⟨a1, a2, a3⟩

theorem setWindow_ring (g : Signal) (p : Nat → Nat → ℚ) :
    (g.setWindow p).ringbufX = g.ringbufX
      ∧ (g.setWindow p).ringbufY = g.ringbufY
      ∧ (g.setWindow p).ringbufZ = g.ringbufZ
      ∧ (g.setWindow p).ringbuf_index_x = g.ringbuf_index_x
      ∧ (g.setWindow p).ringbuf_index_y = g.ringbuf_index_y
      ∧ (g.setWindow p).ringbuf_index_z = g.ringbuf_index_z :=
  ⟨rfl, rfl, rfl, rfl, rfl, rfl⟩

theorem last_entry_eq (env : Env) (g g' : Signal) (hx : g.ringbuf_index_x < 20)
    (hy : g.ringbuf_index_y < 20) (hz : g.ringbuf_index_z < 20)
    (hx' : g'.ringbuf_index_x < 20) (hy' : g'.ringbuf_index_y < 20)
    (hz' : g'.ringbuf_index_z < 20)
    (hsame : ∀ m, m < 20 → env.ReadData (g'.reads + m) = env.ReadData (g.reads + m))
    (k : Nat) (hk : k < 3) :
    (sampleTwoSeconds env g').presamplesBuffer 19 k
      = (sampleTwoSeconds env g).presamplesBuffer 19 k := by
  obtain ⟨a1, a2, a3⟩ := window_entry env g hx hy hz 19 (by decide)
  obtain ⟨b1, b2, b3⟩ := window_entry env g' hx' hy' hz' 19 (by decide)
  have ex : ∑ m ∈ Finset.range 20, ((env.ReadData (g'.reads + m)).x : ℚ) / 17694
      = ∑ m ∈ Finset.range 20, ((env.ReadData (g.reads + m)).x : ℚ) / 17694 :=
    Finset.sum_congr rfl fun m hm => by rw [hsame m (Finset.mem_range.mp hm)]
  have ey : ∑ m ∈ Finset.range 20, ((env.ReadData (g'.reads + m)).y : ℚ) / 17694
      = ∑ m ∈ Finset.range 20, ((env.ReadData (g.reads + m)).y : ℚ) / 17694 :=
    Finset.sum_congr rfl fun m hm => by rw [hsame m (Finset.mem_range.mp hm)]
  have ez : ∑ m ∈ Finset.range 20, ((env.ReadData (g'.reads + m)).z : ℚ) / 17694
      = ∑ m ∈ Finset.range 20, ((env.ReadData (g.reads + m)).z : ℚ) / 17694 :=
    Finset.sum_congr rfl fun m hm => by rw [hsame m (Finset.mem_range.mp hm)]
  rw [entryMean_last] at a1 a2 a3 b1 b2 b3
  interval_cases k
  · rw [a1, b1, ex]
  · rw [a2, b2, ey]
  · rw [a3, b3, ez]

theorem slot_reached (i0 j : Nat) (hi : i0 < 20) (hj : j < 20) :
    ∃ m, m < 20 ∧ (i0 + m) % 20 = j :=
  ⟨(j + 20 - i0) % 20, Nat.mod_lt _ (by decide), by omega⟩

/-! ### The counting loops on two LEDs -/

theorem blinks_add (l : Led) (a b : Nat) : blinks l (a + b) = blinks l a ++ blinks l b := by
  unfold blinks
  rw [List.replicate_add, List.flatten_append]

theorem onCount_blinks (l : Led) (n : Nat) : onCount l (blinks l n) = n := by
  induction n with
  | zero => rfl
  | succ n ih =>
    rw [Nat.add_comm, blinks_add, onCount, List.count_append]
    rw [onCount] at ih
    rw [ih]
    simp [blinks, blinkOnce, List.count_cons]

theorem display_withTrace (l : Led) (s : State) (t : List Event) :
    display l (s.withTrace t) = s.withTrace (t ++ blinks l s.count.toNat) := by
  rw [display_eq]
  rfl

theorem count_inner_withTrace (env : Env) (fuel : Nat) (s : State) (t : List Event) :
    (count_inner env fuel (s.withTrace t)).isReturned = (count_inner env fuel s).isReturned
      ∧ (count_inner env fuel (s.withTrace t)).state
          = (count_inner env fuel s).state.withTrace t := by
  induction fuel generalizing s with
  | zero => exact ⟨rfl, rfl⟩
  | succ n ih =>
    by_cases h : env.MyButton s.polls = false ∧ s.count < 5
    · rw [count_inner_continue env n s h.1 h.2,
        count_inner_continue env n (s.withTrace t) h.1 h.2]
      exact ih (acquire env s)
    · have h' : env.MyButton s.polls = true ∨ 5 ≤ s.count := by
        by_cases hb : env.MyButton s.polls = true
        · exact Or.inl hb
        · right
          simp only [Bool.not_eq_true] at hb
          exact not_lt.mp fun hc => h ⟨hb, hc⟩
      rw [count_inner_exit env n s h', count_inner_exit env n (s.withTrace t) h']
      exact ⟨rfl, rfl⟩

theorem count_outer_two_leds (l1 l2 : Led) (env : Env) (fuel : Nat) (s : State)
    (t1 t2 : List Event) :
    ∃ (n : Nat) (s' : State),
      (count_outer l1 env fuel (s.withTrace t1)).state = s'.withTrace (t1 ++ blinks l1 n)
        ∧ (count_outer l2 env fuel (s.withTrace t2)).state = s'.withTrace (t2 ++ blinks l2 n)
        ∧ (count_outer l1 env fuel (s.withTrace t1)).isReturned
            = (count_outer l2 env fuel (s.withTrace t2)).isReturned := by
  induction fuel generalizing s t1 t2 with
  | zero => exact ⟨0, s, by simp [count_outer, Run.state, blinks], by
      simp [count_outer, Run.state, blinks], rfl⟩
  | succ n ih =>
    by_cases h : s.count < 5
    · rw [count_outer_step l1 env n (s.withTrace t1) h,
        count_outer_step l2 env n (s.withTrace t2) h]
      obtain ⟨a1, a2⟩ := count_inner_withTrace env n s t1
      obtain ⟨b1, b2⟩ := count_inner_withTrace env n s t2
      cases hr : count_inner env n s with
      | unfinished s1 =>
        rw [hr] at a1 a2 b1 b2
        cases hr1 : count_inner env n (s.withTrace t1) with
        | returned u => rw [hr1] at a1; cases a1
        | unfinished u =>
          cases hr2 : count_inner env n (s.withTrace t2) with
          | returned v => rw [hr2] at b1; cases b1
          | unfinished v =>
            rw [hr1] at a2
            rw [hr2] at b2
            simp only [Run.state] at a2 b2
            exact ⟨0, s1, by simp [Run.andThen, Run.state, blinks, a2],
              by simp [Run.andThen, Run.state, blinks, b2], rfl⟩
      | returned s1 =>
        rw [hr] at a1 a2 b1 b2
        cases hr1 : count_inner env n (s.withTrace t1) with
        | unfinished u => rw [hr1] at a1; cases a1
        | returned u =>
          cases hr2 : count_inner env n (s.withTrace t2) with
          | unfinished v => rw [hr2] at b1; cases b1
          | returned v =>
            rw [hr1] at a2
            rw [hr2] at b2
            simp only [Run.state] at a2 b2
            subst a2 b2
            simp only [Run.andThen]
            rw [display_withTrace, display_withTrace]
            obtain ⟨m, s', k1, k2, k3⟩ := ih s1 (t1 ++ blinks l1 s1.count.toNat)
              (t2 ++ blinks l2 s1.count.toNat)
            exact ⟨s1.count.toNat + m, s', by rw [k1, blinks_add, List.append_assoc],
              by rw [k2, blinks_add, List.append_assoc], k3⟩
    · rw [count_outer_done l1 env n (s.withTrace t1) (not_lt.mp h),
        count_outer_done l2 env n (s.withTrace t2) (not_lt.mp h)]
      exact ⟨0, s, by simp [Run.state, blinks], by simp [Run.state, blinks], rfl⟩

theorem countGeneric_two (f1 f2 : Counter) (env : Env) (fuel : Nat) (s : State) (seed : Int) :
    ∃ (n : Nat) (s' : State),
      (countGeneric f1 env fuel s seed).state
          = s'.withTrace (s.trace ++ [.call f1 seed] ++ blinks f1.led n)
        ∧ (countGeneric f2 env fuel s seed).state
          = s'.withTrace (s.trace ++ [.call f2 seed] ++ blinks f2.led n)
        ∧ (countGeneric f1 env fuel s seed).isReturned
            = (countGeneric f2 env fuel s seed).isReturned :=
  count_outer_two_leds f1.led f2.led env fuel { s with count := seed }
    (s.trace ++ [Event.call f1 seed]) (s.trace ++ [Event.call f2 seed])

/-! ### The angles stored by repeated calls, and the overlap of two regions -/

theorem sampling_iterate_angles (env : Env) (g : Signal) (n : Nat) :
    ((sampling env)^[n + 1] g).angleX
        = 180 * env.acos (min (movingAverage ((sampling env)^[n + 1] g).ringbufX) 1) / PI
      ∧ ((sampling env)^[n + 1] g).angleY
        = 180 * env.acos (min (movingAverage ((sampling env)^[n + 1] g).ringbufY) 1) / PI
      ∧ ((sampling env)^[n + 1] g).angleZ
        = 180 * env.acos (min (movingAverage ((sampling env)^[n + 1] g).ringbufZ) 1) / PI
      ∧ ((sampling env)^[n + 1] g).tempBuffer 0 = ((sampling env)^[n + 1] g).angleX
      ∧ ((sampling env)^[n + 1] g).tempBuffer 1 = ((sampling env)^[n + 1] g).angleY
      ∧ ((sampling env)^[n + 1] g).tempBuffer 2 = ((sampling env)^[n + 1] g).angleZ := by
  rw [sampling_iterate_succ]
  exact sampling_angles env _

theorem overlap_selects_PushUps (s : State) (hpu : (isPU s).1 = true) :
    (isSU s).1 = false ∧ classify s.sig.presamplesBuffer = .PushUps := by
  have hsu : (isSU s).1 = false := by
    by_contra h
    rw [Bool.not_eq_false] at h
    rw [isSU_iff] at h
    rw [isPU_iff] at hpu
    obtain ⟨-, -, h1, -⟩ := h
    obtain ⟨-, -, -, h2⟩ := hpu
    simp only at h1 h2
    linarith
  refine ⟨hsu, ?_⟩
  rw [classify_eq_chain, hsu, hpu]
  rfl

/-! ### The signal conditioner with rounded operations -/

theorem samplingFloat_exact (env : Env) (g : Signal) :
    samplingFloat Rounding.exact env g = sampling env g := rfl

theorem sampleTwoSecondsFloat_exact (env : Env) (g : Signal) :
    sampleTwoSecondsFloat Rounding.exact env g = sampleTwoSeconds env g := rfl

theorem samplingFloat_iterate_succ (fl : Rounding) (env : Env) (n : Nat) (g : Signal) :
    (samplingFloat fl env)^[n + 1] g = samplingFloat fl env ((samplingFloat fl env)^[n] g) :=
  Function.iterate_succ_apply' (samplingFloat fl env) n g

theorem samplingFloat_iterate_reads (fl : Rounding) (env : Env) (n : Nat) (g : Signal) :
    ((samplingFloat fl env)^[n] g).reads = g.reads + n := by
  induction n with
  | zero => rfl
  | succ n ih =>
    rw [samplingFloat_iterate_succ]
    show ((samplingFloat fl env)^[n] g).reads + 1 = _
    rw [ih, Nat.add_assoc]

theorem samplingFloat_iterate_X (fl : Rounding) (env : Env) (n : Nat) (g : Signal) :
    (((samplingFloat fl env)^[n] g).ringbufX, ((samplingFloat fl env)^[n] g).ringbuf_index_x)
      = ringAfter g.ringbufX g.ringbuf_index_x
          (fun m => fl.single (fl.double (((env.ReadData (g.reads + m)).x : ℚ) / 17694))) n := by
  induction n with
  | zero => rfl
  | succ n ih =>
    rw [samplingFloat_iterate_succ, ringAfter, ← ih, ← samplingFloat_iterate_reads fl env n g]
    rfl

theorem samplingFloat_iterate_Y (fl : Rounding) (env : Env) (n : Nat) (g : Signal) :
    (((samplingFloat fl env)^[n] g).ringbufY, ((samplingFloat fl env)^[n] g).ringbuf_index_y)
      = ringAfter g.ringbufY g.ringbuf_index_y
          (fun m => fl.single (fl.double (((env.ReadData (g.reads + m)).y : ℚ) / 17694))) n := by
  induction n with
  | zero => rfl
  | succ n ih =>
    rw [samplingFloat_iterate_succ, ringAfter, ← ih, ← samplingFloat_iterate_reads fl env n g]
    rfl

theorem samplingFloat_iterate_Z (fl : Rounding) (env : Env) (n : Nat) (g : Signal) :
    (((samplingFloat fl env)^[n] g).ringbufZ, ((samplingFloat fl env)^[n] g).ringbuf_index_z)
      = ringAfter g.ringbufZ g.ringbuf_index_z
          (fun m => fl.single (fl.double (((env.ReadData (g.reads + m)).z : ℚ) / 17694))) n := by
  induction n with
  | zero => rfl
  | succ n ih =>
    rw [samplingFloat_iterate_succ, ringAfter, ← ih, ← samplingFloat_iterate_reads fl env n g]
    rfl

theorem samplingFloat_angles (fl : Rounding) (env : Env) (g : Signal) :
    (samplingFloat fl env g).tempBuffer 0
        = angleDegFloat fl env
            (restrictTo1g (movingAverageFloat fl (samplingFloat fl env g).ringbufX))
      ∧ (samplingFloat fl env g).tempBuffer 1
        = angleDegFloat fl env
            (restrictTo1g (movingAverageFloat fl (samplingFloat fl env g).ringbufY))
      ∧ (samplingFloat fl env g).tempBuffer 2
        = angleDegFloat fl env
            (restrictTo1g (movingAverageFloat fl (samplingFloat fl env g).ringbufZ)) := by
  refine ⟨?_, ?_, ?_⟩ <;> simp [samplingFloat]

theorem sampleAtFloat_setWindow (fl : Rounding) (env : Env) (g : Signal) (p : Nat → Nat → ℚ)
    (i : Nat) :
    sampleAtFloat fl env (g.setWindow p) i
      = (samplingFloat fl env g).setWindow (Function.update p i
          (Function.update (Function.update (Function.update (p i)
            0 ((samplingFloat fl env g).tempBuffer 0)) 1 ((samplingFloat fl env g).tempBuffer 1))
            2 ((samplingFloat fl env g).tempBuffer 2))) := rfl

theorem sampleAtFloat_foldl (fl : Rounding) (env : Env) (n : Nat) (g : Signal) :
    ∃ p : Nat → Nat → ℚ,
      (List.range n).foldl (sampleAtFloat fl env) g = ((samplingFloat fl env)^[n] g).setWindow p
        ∧ ∀ i, i < n → ∀ k, k < 3 →
            p i k = ((samplingFloat fl env)^[i + 1] g).tempBuffer k := by
  induction n with
  | zero => exact ⟨g.presamplesBuffer, rfl, fun i hi => absurd hi (Nat.not_lt_zero i)⟩
  | succ n ih =>
    obtain ⟨p, hp, hentries⟩ := ih
    refine ⟨Function.update p n
      (Function.update (Function.update (Function.update (p n)
        0 ((samplingFloat fl env ((samplingFloat fl env)^[n] g)).tempBuffer 0))
        1 ((samplingFloat fl env ((samplingFloat fl env)^[n] g)).tempBuffer 1))
        2 ((samplingFloat fl env ((samplingFloat fl env)^[n] g)).tempBuffer 2)), ?_, ?_⟩
    · rw [List.range_succ, List.foldl_append, List.foldl_cons, List.foldl_nil, hp,
        sampleAtFloat_setWindow, samplingFloat_iterate_succ]
    · intro i hi k hk
      by_cases hin : i = n
      · subst hin
        rw [Function.update_same, ← samplingFloat_iterate_succ]
        interval_cases k <;> simp
      · rw [Function.update_noteq hin]
        exact hentries i (by omega) k hk

theorem sampleTwoSecondsFloat_entries (fl : Rounding) (env : Env) (g : Signal) :
    ∃ p : Nat → Nat → ℚ,
      sampleTwoSecondsFloat fl env g = ((samplingFloat fl env)^[20] g).setWindow p
        ∧ ∀ i, i < 20 → ∀ k, k < 3 →
            p i k = ((samplingFloat fl env)^[i + 1] g).tempBuffer k :=
  sampleAtFloat_foldl fl env 20 g

theorem sampleTwoSecondsFloat_reads (fl : Rounding) (env : Env) (g : Signal) :
    (sampleTwoSecondsFloat fl env g).reads = g.reads + 20 := by
  obtain ⟨p, hp, -⟩ := sampleTwoSecondsFloat_entries fl env g
  rw [hp]
  exact samplingFloat_iterate_reads fl env 20 g

theorem windowFloat_entry (fl : Rounding) (env : Env) (g : Signal) (i : Nat) (hi : i < 20) :
    (sampleTwoSecondsFloat fl env g).presamplesBuffer i 0
        = angleDegFloat fl env (restrictTo1g (movingAverageFloat fl
            (ringAfter g.ringbufX g.ringbuf_index_x
              (fun m => fl.single (fl.double (((env.ReadData (g.reads + m)).x : ℚ) / 17694)))
              (i + 1)).1))
      ∧ (sampleTwoSecondsFloat fl env g).presamplesBuffer i 1
        = angleDegFloat fl env (restrictTo1g (movingAverageFloat fl
            (ringAfter g.ringbufY g.ringbuf_index_y
              (fun m => fl.single (fl.double (((env.ReadData (g.reads + m)).y : ℚ) / 17694)))
              (i + 1)).1))
      ∧ (sampleTwoSecondsFloat fl env g).presamplesBuffer i 2
        = angleDegFloat fl env (restrictTo1g (movingAverageFloat fl
            (ringAfter g.ringbufZ g.ringbuf_index_z
              (fun m => fl.single (fl.double (((env.ReadData (g.reads + m)).z : ℚ) / 17694)))
              (i + 1)).1)) := by
  obtain ⟨p, hp, hentries⟩ := sampleTwoSecondsFloat_entries fl env g
  have ha := samplingFloat_angles fl env ((samplingFloat fl env)^[i] g)
  rw [← samplingFloat_iterate_succ] at ha
  have h1 := congrArg Prod.fst (samplingFloat_iterate_X fl env (i + 1) g)
  have h2 := congrArg Prod.fst (samplingFloat_iterate_Y fl env (i + 1) g)
  have h3 := congrArg Prod.fst (samplingFloat_iterate_Z fl env (i + 1) g)
  simp only at h1 h2 h3
  rw [h1, h2, h3] at ha
  rw [hp]
  show p i 0 = _ ∧ p i 1 = _ ∧ p i 2 = _
  rw [hentries i hi 0 (by decide), hentries i hi 1 (by decide), hentries i hi 2 (by decide)]
  exact ha

theorem sampleTwoSecondsFloat_ring (fl : Rounding) (env : Env) (g : Signal) :
    (sampleTwoSecondsFloat fl env g).ringbufX = ((samplingFloat fl env)^[20] g).ringbufX
      ∧ (sampleTwoSecondsFloat fl env g).ringbufY = ((samplingFloat fl env)^[20] g).ringbufY
      ∧ (sampleTwoSecondsFloat fl env g).ringbufZ = ((samplingFloat fl env)^[20] g).ringbufZ
      ∧ (sampleTwoSecondsFloat fl env g).ringbuf_index_x
          = ((samplingFloat fl env)^[20] g).ringbuf_index_x
      ∧ (sampleTwoSecondsFloat fl env g).ringbuf_index_y
          = ((samplingFloat fl env)^[20] g).ringbuf_index_y
      ∧ (sampleTwoSecondsFloat fl env g).ringbuf_index_z
          = ((samplingFloat fl env)^[20] g).ringbuf_index_z := by
  obtain ⟨p, hp, -⟩ := sampleTwoSecondsFloat_entries fl env g
  rw [hp]
  exact setWindow_ring _ p

theorem sampleTwoSecondsFloat_indices (fl : Rounding) (env : Env) (g : Signal)
    (hx : g.ringbuf_index_x < 20) (hy : g.ringbuf_index_y < 20) (hz : g.ringbuf_index_z < 20) :
    (sampleTwoSecondsFloat fl env g).ringbuf_index_x = g.ringbuf_index_x
      ∧ (sampleTwoSecondsFloat fl env g).ringbuf_index_y = g.ringbuf_index_y
      ∧ (sampleTwoSecondsFloat fl env g).ringbuf_index_z = g.ringbuf_index_z := by
  obtain ⟨-, -, -, r4, r5, r6⟩ := sampleTwoSecondsFloat_ring fl env g
  have h1 := congrArg Prod.snd (samplingFloat_iterate_X fl env 20 g)
  have h2 := congrArg Prod.snd (samplingFloat_iterate_Y fl env 20 g)
  have h3 := congrArg Prod.snd (samplingFloat_iterate_Z fl env 20 g)
  simp only at h1 h2 h3
  rw [r4, r5, r6, h1, h2, h3, ringAfter_index _ _ _ hx, ringAfter_index _ _ _ hy,
    ringAfter_index _ _ _ hz]
  refine ⟨?_, ?_, ?_⟩ <;> omega

theorem sampleTwoSecondsFloat_slots (fl : Rounding) (env : Env) (g : Signal)
    (hx : g.ringbuf_index_x < 20) (hy : g.ringbuf_index_y < 20) (hz : g.ringbuf_index_z < 20)
    (m : Nat) (hm : m < 20) :
    (sampleTwoSecondsFloat fl env g).ringbufX ((g.ringbuf_index_x + m) % 20)
        = fl.single (fl.double (((env.ReadData (g.reads + m)).x : ℚ) / 17694))
      ∧ (sampleTwoSecondsFloat fl env g).ringbufY ((g.ringbuf_index_y + m) % 20)
        = fl.single (fl.double (((env.ReadData (g.reads + m)).y : ℚ) / 17694))
      ∧ (sampleTwoSecondsFloat fl env g).ringbufZ ((g.ringbuf_index_z + m) % 20)
        = fl.single (fl.double (((env.ReadData (g.reads + m)).z : ℚ) / 17694)) := by
  obtain ⟨r1, r2, r3, -⟩ := sampleTwoSecondsFloat_ring fl env g
  have h1 := congrArg Prod.fst (samplingFloat_iterate_X fl env 20 g)
  have h2 := congrArg Prod.fst (samplingFloat_iterate_Y fl env 20 g)
  have h3 := congrArg Prod.fst (samplingFloat_iterate_Z fl env 20 g)
  simp only at h1 h2 h3
  rw [r1, r2, r3, h1, h2, h3]
  exact ⟨ringAfter_get _ _ _ hx 20 m hm (by omega), ringAfter_get _ _ _ hy 20 m hm (by omega),
    ringAfter_get _ _ _ hz 20 m hm (by omega)⟩

theorem ringAfter_slot (buf : Nat → ℚ) (i0 : Nat) (v : Nat → ℚ) (h0 : i0 < 20) (i m : Nat)
    (hi : i < 20) (hm : m < 20) :
    (ringAfter buf i0 v (i + 1)).1 ((i0 + m) % 20)
      = if m ≤ i then v m else buf ((i0 + m) % 20) := by
  split_ifs with h
  · exact ringAfter_get buf i0 v h0 (i + 1) m (by omega) (by omega)
  · exact ringAfter_untouched buf i0 v h0 _ (i + 1) (fun m' hm' => by omega)

theorem addAllSamplesFloat_congr (fl : Rounding) (a b : Nat → ℚ)
    (h : ∀ j, j < 20 → a j = b j) : addAllSamplesFloat fl a = addAllSamplesFloat fl b := by
  unfold addAllSamplesFloat
  apply List.foldl_ext
  intro acc j hj
  rw [h j (by simpa [N] using hj)]

theorem ringAfter_full_congr (buf buf' : Nat → ℚ) (i0 : Nat) (v v' : Nat → ℚ) (h0 : i0 < 20)
    (hv : ∀ m, m < 20 → v' m = v m) (j : Nat) (hj : j < 20) :
    (ringAfter buf' i0 v' 20).1 j = (ringAfter buf i0 v 20).1 j := by
  obtain ⟨m, hm, rfl⟩ := slot_reached i0 j h0 hj
  rw [ringAfter_get buf' i0 v' h0 20 m hm (by omega),
    ringAfter_get buf i0 v h0 20 m hm (by omega), hv m hm]

theorem lastFloat_sum_eq (fl : Rounding) (buf buf' : Nat → ℚ) (i0 : Nat) (v v' : Nat → ℚ)
    (h0 : i0 < 20) (hv : ∀ m, m < 20 → v' m = v m) :
    movingAverageFloat fl (ringAfter buf' i0 v' (19 + 1)).1
      = movingAverageFloat fl (ringAfter buf i0 v (19 + 1)).1 := by
  unfold movingAverageFloat
  rw [addAllSamplesFloat_congr fl _ _ (ringAfter_full_congr buf buf' i0 v v' h0 hv)]

theorem lastFloat_entry_eq (fl : Rounding) (env : Env) (g g' : Signal)
    (hx : g.ringbuf_index_x < 20) (hy : g.ringbuf_index_y < 20) (hz : g.ringbuf_index_z < 20)
    (ex : g'.ringbuf_index_x = g.ringbuf_index_x) (ey : g'.ringbuf_index_y = g.ringbuf_index_y)
    (ez : g'.ringbuf_index_z = g.ringbuf_index_z)
    (hsame : ∀ m, m < 20 → env.ReadData (g'.reads + m) = env.ReadData (g.reads + m))
    (k : Nat) (hk : k < 3) :
    (sampleTwoSecondsFloat fl env g').presamplesBuffer 19 k
      = (sampleTwoSecondsFloat fl env g).presamplesBuffer 19 k := by
  obtain ⟨a1, a2, a3⟩ := windowFloat_entry fl env g 19 (by decide)
  obtain ⟨b1, b2, b3⟩ := windowFloat_entry fl env g' 19 (by decide)
  interval_cases k
  · rw [a1, b1, ex, lastFloat_sum_eq fl g.ringbufX g'.ringbufX g.ringbuf_index_x
      (fun m => fl.single (fl.double (((env.ReadData (g.reads + m)).x : ℚ) / 17694)))
      (fun m => fl.single (fl.double (((env.ReadData (g'.reads + m)).x : ℚ) / 17694)))
      hx (fun m hm => by simp only [hsame m hm])]
  · rw [a2, b2, ey, lastFloat_sum_eq fl g.ringbufY g'.ringbufY g.ringbuf_index_y
      (fun m => fl.single (fl.double (((env.ReadData (g.reads + m)).y : ℚ) / 17694)))
      (fun m => fl.single (fl.double (((env.ReadData (g'.reads + m)).y : ℚ) / 17694)))
      hy (fun m hm => by simp only [hsame m hm])]
  · rw [a3, b3, ez, lastFloat_sum_eq fl g.ringbufZ g'.ringbufZ g.ringbuf_index_z
      (fun m => fl.single (fl.double (((env.ReadData (g.reads + m)).z : ℚ) / 17694)))
      (fun m => fl.single (fl.double (((env.ReadData (g'.reads + m)).z : ℚ) / 17694)))
      hz (fun m hm => by simp only [hsame m hm])]

/-! ### Warm-up and constant input with rounded operations -/

theorem movingAverageFloat_congr (fl : Rounding) (a b : Nat → ℚ)
    (h : ∀ j, j < 20 → a j = b j) : movingAverageFloat fl a = movingAverageFloat fl b := by
  unfold movingAverageFloat
  rw [addAllSamplesFloat_congr fl a b h]

theorem samplingFloat_iterate_angles (fl : Rounding) (env : Env) (g : Signal) (n : Nat) :
    ((samplingFloat fl env)^[n + 1] g).tempBuffer 0
        = angleDegFloat fl env
            (restrictTo1g (movingAverageFloat fl ((samplingFloat fl env)^[n + 1] g).ringbufX))
      ∧ ((samplingFloat fl env)^[n + 1] g).tempBuffer 1
        = angleDegFloat fl env
            (restrictTo1g (movingAverageFloat fl ((samplingFloat fl env)^[n + 1] g).ringbufY))
      ∧ ((samplingFloat fl env)^[n + 1] g).tempBuffer 2
        = angleDegFloat fl env
            (restrictTo1g (movingAverageFloat fl ((samplingFloat fl env)^[n + 1] g).ringbufZ)) := by
  rw [samplingFloat_iterate_succ]
  exact samplingFloat_angles fl env _

theorem ringAfter_warmup_slot (v : Nat → ℚ) (k : Nat) (hk : k ≤ 20) (j : Nat) (hj : j < 20) :
    (ringAfter (fun _ => 0) 0 v k).1 j = if j < k then v j else 0 := by
  split_ifs with h
  · have e := ringAfter_get (fun _ => 0) 0 v (by decide) k j h (by omega)
    rwa [Nat.zero_add, Nat.mod_eq_of_lt hj] at e
  · exact ringAfter_untouched (fun _ => 0) 0 v (by decide) j k (fun m hm => by omega)

theorem ringAfter_const_slot (buf : Nat → ℚ) (i0 : Nat) (c : ℚ) (h0 : i0 < 20) (n : Nat)
    (hn : 20 ≤ n) (j : Nat) (hj : j < 20) :
    (ringAfter buf i0 (fun _ => c) n).1 j = c := by
  obtain ⟨m, hm1, hm2, rfl⟩ : ∃ m, n - 20 ≤ m ∧ m < n ∧ (i0 + m) % 20 = j := by
    refine ⟨n - 20 + (j + 40 - (i0 + (n - 20)) % 20) % 20, by omega, ?_, ?_⟩
    · have := Nat.mod_lt (j + 40 - (i0 + (n - 20)) % 20) (by decide : 0 < 20)
      omega
    · omega
  exact ringAfter_get buf i0 (fun _ => c) h0 n m hm2 (by omega)

theorem warmupFloat_mean (fl : Rounding) (env : Env) (k : Nat) (hk : k ≤ 20) :
    movingAverageFloat fl ((samplingFloat fl env)^[k] Signal.init).ringbufX
        = fl.single (addAllSamplesFloat fl (fun j =>
            if j < k then fl.single (fl.double (((env.ReadData j).x : ℚ) / 17694)) else 0) / 20)
      ∧ movingAverageFloat fl ((samplingFloat fl env)^[k] Signal.init).ringbufY
        = fl.single (addAllSamplesFloat fl (fun j =>
            if j < k then fl.single (fl.double (((env.ReadData j).y : ℚ) / 17694)) else 0) / 20)
      ∧ movingAverageFloat fl ((samplingFloat fl env)^[k] Signal.init).ringbufZ
        = fl.single (addAllSamplesFloat fl (fun j =>
            if j < k then fl.single (fl.double (((env.ReadData j).z : ℚ) / 17694)) else 0)
              / 20) := by
  have h1 := congrArg Prod.fst (samplingFloat_iterate_X fl env k Signal.init)
  have h2 := congrArg Prod.fst (samplingFloat_iterate_Y fl env k Signal.init)
  have h3 := congrArg Prod.fst (samplingFloat_iterate_Z fl env k Signal.init)
  simp only at h1 h2 h3
  have c : ((N : Nat) : ℚ) = 20 := by simp [N]
  rw [h1, h2, h3]
  refine ⟨?_, ?_, ?_⟩
  · refine (movingAverageFloat_congr fl _ (fun j =>
      if j < k then fl.single (fl.double (((env.ReadData j).x : ℚ) / 17694)) else 0)
      ?_).trans ?_
    · intro j hj
      refine (ringAfter_warmup_slot (fun m => fl.single (fl.double
        (((env.ReadData (Signal.init.reads + m)).x : ℚ) / 17694))) k hk j hj).trans ?_
      simp [Signal.init]
    · rw [movingAverageFloat, c]
  · refine (movingAverageFloat_congr fl _ (fun j =>
      if j < k then fl.single (fl.double (((env.ReadData j).y : ℚ) / 17694)) else 0)
      ?_).trans ?_
    · intro j hj
      refine (ringAfter_warmup_slot (fun m => fl.single (fl.double
        (((env.ReadData (Signal.init.reads + m)).y : ℚ) / 17694))) k hk j hj).trans ?_
      simp [Signal.init]
    · rw [movingAverageFloat, c]
  · refine (movingAverageFloat_congr fl _ (fun j =>
      if j < k then fl.single (fl.double (((env.ReadData j).z : ℚ) / 17694)) else 0)
      ?_).trans ?_
    · intro j hj
      refine (ringAfter_warmup_slot (fun m => fl.single (fl.double
        (((env.ReadData (Signal.init.reads + m)).z : ℚ) / 17694))) k hk j hj).trans ?_
      simp [Signal.init]
    · rw [movingAverageFloat, c]

theorem constFloat_mean (fl : Rounding) (env : Env) (g : Signal) (r : Raw) (n : Nat)
    (hconst : ∀ k, env.ReadData (g.reads + k) = r)
    (hx : g.ringbuf_index_x < 20) (hy : g.ringbuf_index_y < 20) (hz : g.ringbuf_index_z < 20)
    (hn : 20 ≤ n) :
    movingAverageFloat fl ((samplingFloat fl env)^[n] g).ringbufX
        = movingAverageFloat fl (fun _ => fl.single (fl.double ((r.x : ℚ) / 17694)))
      ∧ movingAverageFloat fl ((samplingFloat fl env)^[n] g).ringbufY
        = movingAverageFloat fl (fun _ => fl.single (fl.double ((r.y : ℚ) / 17694)))
      ∧ movingAverageFloat fl ((samplingFloat fl env)^[n] g).ringbufZ
        = movingAverageFloat fl (fun _ => fl.single (fl.double ((r.z : ℚ) / 17694))) := by
  have h1 := congrArg Prod.fst (samplingFloat_iterate_X fl env n g)
  have h2 := congrArg Prod.fst (samplingFloat_iterate_Y fl env n g)
  have h3 := congrArg Prod.fst (samplingFloat_iterate_Z fl env n g)
  simp only [hconst] at h1 h2 h3
  rw [h1, h2, h3]
  exact ⟨movingAverageFloat_congr fl _ _ (ringAfter_const_slot _ _ _ hx n hn),
    movingAverageFloat_congr fl _ _ (ringAfter_const_slot _ _ _ hy n hn),
    movingAverageFloat_congr fl _ _ (ringAfter_const_slot _ _ _ hz n hn)⟩

/-! ## Claims -/

/-- C1: for every window and every start value of the counter, the peak scan used by the
counting loops and by the free-mode seed computations adds exactly the number of indices
`1 ≤ i ≤ 18` whose Y entry is strictly greater than both neighbours; the window starting
1, 3, 1, 5, 1 has count 2, and maxima at the end indices 0 and 19 are not counted. -/
theorem C1_peakScan_counts_interior_strict_maxima :
    (∀ (w : Nat → Nat → ℚ) (c : Int), peakScan w c = c + (strictLocalMaxCount w : Int))
    ∧ peakScan windowTwoPeaks 0 = 2
    ∧ peakScan windowEndPeaks 0 = 0 := by
  refine ⟨peakScan_eq, ?_, ?_⟩ <;> decide

/-- C2: in an iteration of the free-exercise loop that acquires a window, the code does
what the specification prescribes for the label `classify` of that window, the first label
in the order SitUps, PushUps, JumpingJacks, Squats whose closed-interval predicate holds on
the per-axis means; this label is the one picked by the chain of tests `isSU`, `isPU`,
`isJJ`, `isS`, and when `isSU` and `isS` both hold it is SitUps. -/
theorem C2_first_matching_label_wins (env : Env) (fuel : Nat) (s : State)
    (hflag : s.isButtonPressed = false) (hbutton : env.MyButton s.polls = false) :
    freeToExercise_loop env (fuel + 1) s
        = startCounting env fuel (freeAcquire env s)
            (classify (freeAcquire env s).sig.presamplesBuffer)
      ∧ classify (freeAcquire env s).sig.presamplesBuffer
          = (if (isSU (freeAcquire env s)).1 then .SitUps
             else if (isPU (freeAcquire env s)).1 then .PushUps
             else if (isJJ (freeAcquire env s)).1 then .JumpingJacks
             else if (isS (freeAcquire env s)).1 then .Squats
             else .Unknown)
      ∧ ((isSU (freeAcquire env s)).1 = true → (isS (freeAcquire env s)).1 = true
          → classify (freeAcquire env s).sig.presamplesBuffer = .SitUps
            ∧ freeToExercise_loop env (fuel + 1) s
                = startCounting env fuel (freeAcquire env s) .SitUps) := by
  have hstep := freeToExercise_loop_step env fuel s hflag hbutton
  have hcl := classify_eq_chain (freeAcquire env s)
  refine ⟨?_, hcl, ?_⟩
  · rw [hstep, hcl]
    split_ifs <;> rfl
  · intro h1 _
    rw [hstep, hcl, if_pos h1, if_pos h1]
    exact ⟨rfl, rfl⟩

/-- C2, at a concrete input: from power-on in the example environment the first window
is labelled JumpingJacks, and the iteration starts `countJJ`. -/
theorem C2_first_matching_label_wins_witness :
    State.init.isButtonPressed = false ∧ demoEnv.MyButton State.init.polls = false
      ∧ classify (freeAcquire demoEnv State.init).sig.presamplesBuffer = .JumpingJacks
      ∧ freeToExercise_loop demoEnv (10 + 1) State.init
          = startCounting demoEnv 10 (freeAcquire demoEnv State.init) .JumpingJacks := by
  have h := C2_first_matching_label_wins demoEnv 10 State.init rfl rfl
  have hc : classify (freeAcquire demoEnv State.init).sig.presamplesBuffer
      = .JumpingJacks := by decide!
  exact ⟨rfl, rfl, hc, hc ▸ h.1⟩

/-- C3: when none of `isSU`, `isPU`, `isJJ`, `isS` holds on the acquired window, the label
is Unknown, nothing is written to the outputs (in particular no counting function is
called) and the loop goes on to its next iteration; this is the case whenever the three
per-axis means are 0. -/
theorem C3_no_match_is_unknown (env : Env) (fuel : Nat) (s : State)
    (hflag : s.isButtonPressed = false) (hbutton : env.MyButton s.polls = false)
    (hSU : (isSU (freeAcquire env s)).1 = false) (hPU : (isPU (freeAcquire env s)).1 = false)
    (hJJ : (isJJ (freeAcquire env s)).1 = false) (hS : (isS (freeAcquire env s)).1 = false) :
    classify (freeAcquire env s).sig.presamplesBuffer = .Unknown
      ∧ freeToExercise_loop env (fuel + 1) s = freeToExercise_loop env fuel (freeAcquire env s)
      ∧ (freeAcquire env s).trace = s.trace
      ∧ (freeAcquire env s).isButtonPressed = false := by
  refine ⟨?_, ?_, rfl, hbutton⟩
  · rw [classify_eq_chain, hSU, hPU, hJJ, hS]
    rfl
  · rw [freeToExercise_loop_step env fuel s hflag hbutton, hSU, hPU, hJJ, hS]
    rfl

/-- C3, at a concrete input: a window whose angles are all 0, hence with means
(X=0, Y=0, Z=0), matches none of the four predicates and is labelled Unknown. -/
theorem C3_no_match_is_unknown_witness :
    (State.init.isButtonPressed = false ∧ zeroEnv.MyButton State.init.polls = false
      ∧ (isSU (freeAcquire zeroEnv State.init)).1 = false
      ∧ (isPU (freeAcquire zeroEnv State.init)).1 = false
      ∧ (isJJ (freeAcquire zeroEnv State.init)).1 = false
      ∧ (isS (freeAcquire zeroEnv State.init)).1 = false)
    ∧ (axisMean (freeAcquire zeroEnv State.init).sig.presamplesBuffer 0 = 0
      ∧ axisMean (freeAcquire zeroEnv State.init).sig.presamplesBuffer 1 = 0
      ∧ axisMean (freeAcquire zeroEnv State.init).sig.presamplesBuffer 2 = 0)
    ∧ (classify (freeAcquire zeroEnv State.init).sig.presamplesBuffer = .Unknown
      ∧ freeToExercise_loop zeroEnv (10 + 1) State.init
          = freeToExercise_loop zeroEnv 10 (freeAcquire zeroEnv State.init)
      ∧ (freeAcquire zeroEnv State.init).trace = State.init.trace
      ∧ (freeAcquire zeroEnv State.init).isButtonPressed = false) := by
  have hall : ((isSU (freeAcquire zeroEnv State.init)).1 = false
        ∧ (isPU (freeAcquire zeroEnv State.init)).1 = false
        ∧ (isJJ (freeAcquire zeroEnv State.init)).1 = false
        ∧ (isS (freeAcquire zeroEnv State.init)).1 = false)
      ∧ (axisMean (freeAcquire zeroEnv State.init).sig.presamplesBuffer 0 = 0
        ∧ axisMean (freeAcquire zeroEnv State.init).sig.presamplesBuffer 1 = 0
        ∧ axisMean (freeAcquire zeroEnv State.init).sig.presamplesBuffer 2 = 0) := by
    decide!
  exact ⟨⟨rfl, rfl, hall.1⟩, hall.2,
    C3_no_match_is_unknown zeroEnv 10 State.init rfl rfl
      hall.1.1 hall.1.2.1 hall.1.2.2.1 hall.1.2.2.2⟩

/-- C4: in each counting function, a pass of the inner loop acquires one window and sets the
tally to the previous tally plus the peak count of that window, without any cap (if this
brings the tally to 5 or more the function returns with that very value); the tally never
decreases along a run of the inner loop, of the outer loop or of the whole function, where
it is the seed plus the peak counts of the windows acquired; from tally 4, a window with
3 peaks ends the function with tally 7. -/
theorem C4_tally_adds_window_peaks_uncapped (f : Counter) (env : Env) (fuel : Nat) (s : State) :
    (env.MyButton s.polls = false → s.count < 5 →
        f.inner env (fuel + 1) s = f.inner env fuel (acquire env s)
        ∧ (acquire env s).sig = sampleTwoSeconds env s.sig
        ∧ (acquire env s).count
            = s.count + (strictLocalMaxCount (sampleTwoSeconds env s.sig).presamplesBuffer : Int)
        ∧ (5 ≤ (acquire env s).count →
            f.outer env (fuel + 3) s = .returned (display f.led (leaveInner (acquire env s)))))
    ∧ s.count ≤ (f.inner env fuel s).state.count
    ∧ s.count ≤ (f.outer env fuel s).state.count
    ∧ (∀ initVal : Int, ∃ k,
        (f.run env fuel s initVal).state.sig = (sampleTwoSeconds env)^[k] s.sig
        ∧ (f.run env fuel s initVal).state.count = tallyAfter env s.sig initVal k
        ∧ initVal ≤ (f.run env fuel s initVal).state.count)
    ∧ ((f.run demoEnv 10 tallyFour 4).isReturned = true
        ∧ windowPeaks demoEnv tallyFour.sig 0 = 3
        ∧ (f.run demoEnv 10 tallyFour 4).state.count = 7) := by
  refine ⟨?_, ?_, ?_, ?_, ?_⟩
  · intro hb hc
    refine ⟨?_, rfl, ?_, ?_⟩
    · rw [Counter.inner_eq, Counter.inner_eq, count_inner_continue env fuel s hb hc]
    · rw [acquire_count, windowPeaks]
      rfl
    · intro h5
      rw [Counter.outer_eq, count_outer_reach5 f.led env fuel s hc hb h5]
  · rw [Counter.inner_eq]
    exact (count_inner_inv env fuel s).1.le
  · rw [Counter.outer_eq]
    exact (count_outer_inv f.led env fuel s).1.le
  · intro initVal
    rw [Counter.run_eq]
    obtain ⟨⟨k, hk1, hk2⟩, -⟩ := countGeneric_inv f env fuel s initVal
    exact ⟨k, hk1, hk2, hk2 ▸ le_tallyAfter env s.sig initVal k⟩
  · cases f <;> decide!

/-- C4, at a concrete input: with the tally at 4, the button not pressed and a window with
3 peaks, the pass of the inner loop of `countSU` leaves the tally at 7 and the function
returns with it. -/
theorem C4_tally_adds_window_peaks_uncapped_witness :
    demoEnv.MyButton tallyFour.polls = false ∧ tallyFour.count < 5
      ∧ (acquire demoEnv tallyFour).count = 7
      ∧ Counter.outer .countSU demoEnv (10 + 3) tallyFour
          = .returned (display Counter.countSU.led (leaveInner (acquire demoEnv tallyFour))) := by
  have h := (C4_tally_adds_window_peaks_uncapped .countSU demoEnv 10 tallyFour).1 rfl
    (by decide)
  have h7 : (acquire demoEnv tallyFour).count = 7 := by decide!
  exact ⟨rfl, by decide, h7, h.2.2.2 (by rw [h7]; decide)⟩

/-- C5, as stated, fails: in `countSU` entered with seed 0, the button is read as pressed at
the first poll, yet the function does not end there: it polls the button four more
times and acquires three windows (60 readings) before it returns with tally 5; and when the
button is read as pressed at every poll, no amount of fuel lets it return. -/
theorem C5_counterexample_pressed_button_does_not_end_loop :
    pressedOnceEnv.MyButton State.init.polls = true
      ∧ (countSU pressedOnceEnv 10 State.init 0).isReturned = true
      ∧ (countSU pressedOnceEnv 10 State.init 0).state.polls = 5
      ∧ (countSU pressedOnceEnv 10 State.init 0).state.sig.reads = 60
      ∧ (countSU pressedOnceEnv 10 State.init 0).state.count = 5
      ∧ ∀ fuel, (countSU pressedEnv fuel State.init 0).isReturned = false := by
  have h : (countSU pressedOnceEnv 10 State.init 0).isReturned = true
      ∧ (countSU pressedOnceEnv 10 State.init 0).state.polls = 5
      ∧ (countSU pressedOnceEnv 10 State.init 0).state.sig.reads = 60
      ∧ (countSU pressedOnceEnv 10 State.init 0).state.count = 5 := by decide!
  refine ⟨rfl, h.1, h.2.1, h.2.2.1, h.2.2.2, ?_⟩
  intro fuel
  rw [countSU, countSU_outer_eq]
  exact (count_pressed_forever .LED3 pressedEnv (fun _ => rfl) fuel _ (by decide)).1

/-- C5, amended: a counting function returns only with a tally of at least 5, and it ends as
soon as the tally has reached 5: at once if the tally is already 5 or more at the test of
the outer loop, and otherwise right after the poll and the display that follow the window
that brought the tally to 5 or more. A button read as pressed while the tally is below 5
ends only the inner loop: the display is played and the outer loop is run again with the
tally and the signal state unchanged. -/
theorem C5_loop_ends_exactly_when_tally_reaches_5 (f : Counter) (env : Env) (fuel : Nat)
    (s : State) :
    (∀ initVal : Int, (f.run env fuel s initVal).isReturned = true
        → 5 ≤ (f.run env fuel s initVal).state.count)
    ∧ ((f.outer env fuel s).isReturned = true → 5 ≤ (f.outer env fuel s).state.count)
    ∧ (5 ≤ s.count → f.outer env (fuel + 1) s = .returned s)
    ∧ (5 ≤ s.count → f.inner env (fuel + 1) s = .returned (leaveInner s))
    ∧ (s.count < 5 → env.MyButton s.polls = false → 5 ≤ (acquire env s).count
        → f.outer env (fuel + 3) s = .returned (display f.led (leaveInner (acquire env s))))
    ∧ (s.count < 5 → env.MyButton s.polls = true
        → f.outer env (fuel + 2) s = f.outer env (fuel + 1) (display f.led (leaveInner s))
          ∧ (display f.led (leaveInner s)).count = s.count
          ∧ (display f.led (leaveInner s)).sig = s.sig) := by
  refine ⟨?_, ?_, ?_, ?_, ?_, ?_⟩
  · intro initVal
    rw [Counter.run_eq]
    exact (countGeneric_inv f env fuel s initVal).2.2.2.2
  · rw [Counter.outer_eq]
    exact (count_outer_inv f.led env fuel s).2.2.2.2
  · intro h5
    rw [Counter.outer_eq, count_outer_done f.led env fuel s h5]
  · intro h5
    rw [Counter.inner_eq, count_inner_exit env fuel s (Or.inr h5)]
  · intro hc hb h5
    rw [Counter.outer_eq, count_outer_reach5 f.led env fuel s hc hb h5]
  · intro hc hb
    rw [Counter.outer_eq, Counter.outer_eq, count_outer_pressed f.led env fuel s hc hb]
    exact ⟨rfl, by simp, by simp⟩

/-- C5 amended, at a concrete input: `countSU` entered with seed 0 and the button pressed
at the first poll only returns with tally 5; the pressed reading only replays the
display and runs the outer loop again. -/
theorem C5_loop_ends_exactly_when_tally_reaches_5_witness :
    (countSU pressedOnceEnv 10 State.init 0).isReturned = true
      ∧ 5 ≤ (countSU pressedOnceEnv 10 State.init 0).state.count
      ∧ State.init.count < 5 ∧ pressedOnceEnv.MyButton State.init.polls = true
      ∧ countSU_outer pressedOnceEnv (10 + 2) State.init
          = countSU_outer pressedOnceEnv (10 + 1) (display .LED3 (leaveInner State.init)) := by
  have h := C5_loop_ends_exactly_when_tally_reaches_5 .countSU pressedOnceEnv 10 State.init
  have hr : (countSU pressedOnceEnv 10 State.init 0).isReturned = true := by decide!
  exact ⟨hr, h.1 0 hr, by decide, rfl, (h.2.2.2.2.2 (by decide) rfl).1⟩

/-- C6: whenever the inner loop of a counting function returns (the outer loop having
found the tally below 5), it does so because the button was read as pressed or because the
tally is 5 or more, and the outer loop goes on with the display: the LED of the exercise
is switched on then off `tally` times, `tally` being the current uncapped value, and
nothing else is written. If the tally is 5 or more, the function returns right after this
one display. -/
theorem C6_display_blinks_tally_times (f : Counter) (env : Env) (fuel : Nat) (s s1 : State)
    (hc : s.count < 5) (hexit : f.inner env fuel s = .returned s1) :
    (env.MyButton (s1.polls - 1) = true ∨ 5 ≤ s1.count)
    ∧ f.outer env (fuel + 1) s = f.outer env fuel (display f.led s1)
    ∧ (display f.led s1).trace
        = s1.trace ++ (List.replicate s1.count.toNat [Event.led f.led true, .led f.led false]).flatten
    ∧ (0 ≤ s.count → (s1.count.toNat : Int) = s1.count)
    ∧ (5 ≤ s1.count → f.outer env (fuel + 1) s = .returned (display f.led s1)) := by
  rw [Counter.inner_eq] at hexit
  have hstep : f.outer env (fuel + 1) s = f.outer env fuel (display f.led s1) := by
    rw [Counter.outer_eq, Counter.outer_eq, count_outer_step f.led env fuel s hc, hexit]
    rfl
  refine ⟨(count_inner_returned env fuel s s1 hexit).2, hstep, display_trace f.led s1, ?_, ?_⟩
  · intro h0
    have hle : s.count ≤ s1.count := by
      have := (count_inner_inv env fuel s).1.le
      rwa [hexit] at this
    exact Int.toNat_of_nonneg (le_trans h0 hle)
  · intro h5
    rw [hstep, Counter.outer_eq]
    cases fuel with
    | zero => simp [count_inner] at hexit
    | succ n => exact count_outer_done f.led env n _ (by simpa using h5)

/-- C6, at a concrete input: in `countSU` with the tally at 4, the inner loop returns after
one window with tally 7, and the display switches LED3 on and off 7 times before the
function returns. -/
theorem C6_display_blinks_tally_times_witness :
    tallyFour.count < 5
      ∧ Counter.inner .countSU demoEnv 10 tallyFour = .returned (leaveInner (acquire demoEnv tallyFour))
      ∧ (leaveInner (acquire demoEnv tallyFour)).count = 7
      ∧ (display .LED3 (leaveInner (acquire demoEnv tallyFour))).trace
          = (List.replicate 7 [Event.led .LED3 true, .led .LED3 false]).flatten
      ∧ Counter.outer .countSU demoEnv (10 + 1) tallyFour
          = .returned (display .LED3 (leaveInner (acquire demoEnv tallyFour))) := by
  have h7 : (leaveInner (acquire demoEnv tallyFour)).count = 7 := by decide!
  have hexit : Counter.inner .countSU demoEnv 10 tallyFour
      = .returned (leaveInner (acquire demoEnv tallyFour)) := by
    rw [Counter.inner_eq, count_inner_continue demoEnv 9 tallyFour rfl (by decide)]
    exact count_inner_exit demoEnv 8 _ (Or.inr (by rw [← leaveInner_count, h7]; decide))
  have h := C6_display_blinks_tally_times .countSU demoEnv 10 tallyFour _ (by decide) hexit
  have ht := h.2.2.1
  rw [h7] at ht
  exact ⟨by decide, hexit, h7, ht, h.2.2.2.2 (by rw [h7]; decide)⟩

/-- C7: in a free-exercise session in which the button is never read as pressed, whose first
window is labelled JumpingJacks and has exactly 3 peaks, and whose next two windows have
exactly 1 peak each, `freeToExercise` returns after exactly 2 further windows (3 in all,
60 readings), with tally 5; after the entry chase its outputs are LED6 on, the line
JumpJacks, the call of `countJJ` with seed 3, five blinks of LED6 and the three closing
all-LED blinks. In general, with the button never pressed, a counting function returns
after `n` windows, where `n` is the least number such that the seed plus the peak counts of
the first `n` windows is at least 5. -/
theorem C7_free_session_jumping_jacks (env : Env) (s : State) (fuel : Nat)
    (hflag : s.isButtonPressed = false) (hb : ∀ k, env.MyButton k = false)
    (hJJ : classify (sampleTwoSeconds env s.sig).presamplesBuffer = .JumpingJacks)
    (h3 : windowPeaks env s.sig 0 = 3)
    (h1 : ∀ j, 1 ≤ j → j ≤ 2 → windowPeaks env s.sig j = 1)
    (hfuel : 5 ≤ fuel) :
    (∃ s', freeToExercise env fuel s = .returned s'
      ∧ s'.sig = (sampleTwoSeconds env)^[1 + 2] s.sig
      ∧ s'.sig.reads = s.sig.reads + 20 * (1 + 2)
      ∧ s'.count = 5
      ∧ s'.polls = s.polls + 4
      ∧ s'.trace = s.trace ++ (List.replicate 3 (chase .LED3 .LED5 .LED6 .LED4)).flatten
          ++ [.led .LED6 true, .print .JumpJacks, .call .countJJ 3]
          ++ (List.replicate 5 [Event.led .LED6 true, .led .LED6 false]).flatten
          ++ (List.replicate 3 blinkAll).flatten)
    ∧ (∀ (f : Counter) (n : Nat) (s0 : State) (seed : Int) (fuel0 : Nat),
        (∀ m, m < n → tallyAfter env s0.sig seed m < 5) → 5 ≤ tallyAfter env s0.sig seed n
        → n + 1 < fuel0
        → ∃ s', f.run env fuel0 s0 seed = .returned s'
            ∧ s'.sig = (sampleTwoSeconds env)^[n] s0.sig
            ∧ s'.sig.reads = s0.sig.reads + 20 * n
            ∧ s'.count = tallyAfter env s0.sig seed n) := by
  constructor
  · obtain ⟨fuel, rfl⟩ : ∃ F, fuel = F + 1 := ⟨fuel - 1, by omega⟩
    rw [freeToExercise, foldl_emit,
      freeToExercise_loop_classify env fuel
        (s.emit (List.replicate 3 (chase .LED3 .LED5 .LED6 .LED4)).flatten) hflag (hb _)]
    have hsig : (freeAcquire env (s.emit (List.replicate 3
        (chase .LED3 .LED5 .LED6 .LED4)).flatten)).sig = sampleTwoSeconds env s.sig := rfl
    have hseed : peakScan (sampleTwoSeconds env s.sig).presamplesBuffer 0 = 3 := by
      rw [peakScan_eq]
      show 0 + ((windowPeaks env s.sig 0 : Nat) : Int) = 3
      rw [h3]
      rfl
    rw [hsig, hJJ]
    simp only [startCounting, hsig, hseed]
    obtain ⟨s', hrun, hs1, hs2, hs3, hs4, hs5⟩ :=
      countGeneric_free .countJJ env hb 2
        ((freeAcquire env (s.emit (List.replicate 3
          (chase .LED3 .LED5 .LED6 .LED4)).flatten)).emit [.led .LED6 true, .print .JumpJacks])
        3 fuel
        (by
          intro m hm
          rw [emit_sig, hsig, tallyAfter_single_peaks env s.sig 3 2 h1 m (Nat.le_of_lt hm)]
          have : (m : Int) < 2 := by exact_mod_cast hm
          omega)
        (by
          rw [emit_sig, hsig, tallyAfter_single_peaks env s.sig 3 2 h1 2 (le_refl 2)]
          decide)
        (by omega)
    rw [emit_sig, hsig] at hs1 hs2 hs3
    rw [tallyAfter_single_peaks env s.sig 3 2 h1 2 (le_refl 2)] at hs3
    have hrun' : countJJ env fuel
        ((freeAcquire env (s.emit (List.replicate 3
          (chase .LED3 .LED5 .LED6 .LED4)).flatten)).emit [.led .LED6 true, .print .JumpJacks]) 3
        = .returned s' := by
      rw [← hrun]
      exact Counter.run_eq .countJJ env fuel _ 3
    rw [hrun']
    refine ⟨blinkAllThrice s', rfl, ?_, ?_, ?_, ?_, ?_⟩
    · rw [blinkAllThrice_eq, emit_sig, hs1]
      rfl
    · rw [blinkAllThrice_eq, emit_sig, hs2, sampleTwoSeconds_reads]
    · rw [blinkAllThrice_eq, emit_count, hs3]
      rfl
    · rw [blinkAllThrice_eq, emit_polls, hs4]
      show s.polls + 1 + 3 = s.polls + 4
      omega
    · rw [blinkAllThrice_eq, emit_trace, hs5, hs3]
      simp [freeAcquire, pollButton, blinkOnce, Counter.led, List.append_assoc]
  · intro f n s0 seed fuel0 hlt h5 hfuel0
    obtain ⟨s', hrun, hs1, hs2, hs3, -⟩ := countGeneric_free f env hb n s0 seed fuel0 hlt h5 hfuel0
    exact ⟨s', by rw [Counter.run_eq, hrun], hs1, hs2, hs3⟩

/-- C7, at a concrete input: the example session from power-on. -/
theorem C7_free_session_jumping_jacks_witness :
    (State.init.isButtonPressed = false ∧ (∀ k, demoEnv.MyButton k = false)
      ∧ classify (sampleTwoSeconds demoEnv State.init.sig).presamplesBuffer = .JumpingJacks
      ∧ windowPeaks demoEnv State.init.sig 0 = 3
      ∧ windowPeaks demoEnv State.init.sig 1 = 1 ∧ windowPeaks demoEnv State.init.sig 2 = 1)
    ∧ ∃ s', freeToExercise demoEnv 5 State.init = .returned s'
        ∧ s'.sig = (sampleTwoSeconds demoEnv)^[1 + 2] State.init.sig
        ∧ s'.sig.reads = State.init.sig.reads + 20 * (1 + 2)
        ∧ s'.count = 5
        ∧ s'.polls = State.init.polls + 4
        ∧ s'.trace = State.init.trace
            ++ (List.replicate 3 (chase .LED3 .LED5 .LED6 .LED4)).flatten
            ++ [.led .LED6 true, .print .JumpJacks, .call .countJJ 3]
            ++ (List.replicate 5 [Event.led .LED6 true, .led .LED6 false]).flatten
            ++ (List.replicate 3 blinkAll).flatten := by
  have hall : classify (sampleTwoSeconds demoEnv State.init.sig).presamplesBuffer
        = .JumpingJacks
      ∧ windowPeaks demoEnv State.init.sig 0 = 3
      ∧ windowPeaks demoEnv State.init.sig 1 = 1
      ∧ windowPeaks demoEnv State.init.sig 2 = 1 := by decide!
  obtain ⟨hJJ, h3, h1, h2⟩ := hall
  refine ⟨⟨rfl, fun _ => rfl, hJJ, h3, h1, h2⟩, ?_⟩
  refine (C7_free_session_jumping_jacks demoEnv State.init 5 rfl (fun _ => rfl) hJJ h3 ?_
    (le_refl 5)).1
  intro j hj1 hj2
  interval_cases j
  · exact h1
  · exact h2

/-- C8: in `routinedExercise`, whatever the button readings and the sensor data and however
long it runs, the counting functions called so far are the first `k` of
`countSU(0), countPU(0), countJJ(0), countS(0)` in this order (so each at most once), the
flags mark exactly the first `j` stages as finished with `j = k` or `j + 1 = k`, and the
function has returned only if all four stages are finished. The body of the loop reads
the button before each of the four tests, and a stage is entered exactly when that reading
was `pressed` and exactly the preceding stages are marked finished; otherwise the test
changes nothing. -/
theorem C8_routine_stages_in_order (env : Env) (fuel : Nat) (s : State) :
    (∃ j k, k ≤ 4 ∧ (j = k ∨ j + 1 = k)
      ∧ (routinedExercise env fuel s).state.finished = firstFinished j
      ∧ calls (routinedExercise env fuel s).state.trace = calls s.trace ++ routineOrder.take k
      ∧ ((routinedExercise env fuel s).isReturned = true → j = 4 ∧ k = 4))
    ∧ routinedExercise_loop env (fuel + 1) s
        = ((stageSitUps env fuel (pollButton env s)).andThen fun s1 =>
          (stagePushUps env fuel (pollButton env s1)).andThen fun s2 =>
          (stageJumpJacks env fuel (pollButton env s2)).andThen fun s3 =>
          fourthTest env fuel (pollButton env s3))
    ∧ (pollButton env s).isButtonPressed = env.MyButton s.polls
    ∧ (stageSitUps env fuel s
          = (countSU env fuel (s.emit [.led .LED3 true]) 0).andThen
              (fun s1 => .returned { s1 with sitUpsFinished := true })
          ∧ Gate 0 s
        ∨ stageSitUps env fuel s = .returned s ∧ ¬ Gate 0 s)
    ∧ (stagePushUps env fuel s
          = (countPU env fuel (s.emit [.led .LED5 true]) 0).andThen
              (fun s1 => .returned { s1 with pushUpsFinished := true })
          ∧ Gate 1 s
        ∨ stagePushUps env fuel s = .returned s ∧ ¬ Gate 1 s)
    ∧ (stageJumpJacks env fuel s
          = (countJJ env fuel (s.emit [.led .LED6 true]) 0).andThen
              (fun s1 => .returned { s1 with jumpJacksFinished := true })
          ∧ Gate 2 s
        ∨ stageJumpJacks env fuel s = .returned s ∧ ¬ Gate 2 s)
    ∧ (fourthTest env fuel s
          = (countS env fuel (s.emit [.led .LED4 true]) 0).andThen
              (fun s1 => waitForRestart env fuel { s1 with squartsFinished := true })
          ∧ Gate 3 s
        ∨ fourthTest env fuel s = routinedExercise_loop env fuel s ∧ ¬ Gate 3 s) := by
  refine ⟨?_, routinedExercise_loop_succ env fuel s, rfl, stageSitUps_gate env fuel s,
    stagePushUps_gate env fuel s, stageJumpJacks_gate env fuel s, fourthTest_gate env fuel s⟩
  obtain ⟨j, k, hk, hjk, hp, hr⟩ := routinedExercise_progress env fuel s
  exact ⟨j, k, hk, hjk, hp.1, hp.2, hr⟩

/-- C8, at a concrete input: a complete routine, in which the four counting functions are
called in the fixed order and the function returns with all four flags set; and a run cut
off inside the first stage, where only `countSU(0)` has been called and no flag is set. -/
theorem C8_routine_stages_in_order_witness :
    ((routinedExercise routineEnv 5 State.init).isReturned = true
      ∧ calls (routinedExercise routineEnv 5 State.init).state.trace = routineOrder
      ∧ (routinedExercise routineEnv 5 State.init).state.finished = firstFinished 4)
    ∧ (calls (routinedExercise pressedEnv 5 State.init).state.trace = [(.countSU, 0)]
      ∧ (routinedExercise pressedEnv 5 State.init).state.finished = firstFinished 0)
    ∧ ∃ j k, k ≤ 4 ∧ (j = k ∨ j + 1 = k)
      ∧ (routinedExercise routineEnv 5 State.init).state.finished = firstFinished j
      ∧ calls (routinedExercise routineEnv 5 State.init).state.trace
          = calls State.init.trace ++ routineOrder.take k
      ∧ ((routinedExercise routineEnv 5 State.init).isReturned = true → j = 4 ∧ k = 4) :=
  ⟨by decide!, by decide!, (C8_routine_stages_in_order routineEnv 5 State.init).1⟩

/-- C9: after `n ≥ 20` calls of `sampling` from a state whose write indices are inside the
buffers, the filtered value of each axis (before the clamp) is the arithmetic mean of the
last 20 normalised readings raw/17694, the angle of the axis is
`180 * acos(min(mean, 1)) / PI`, where `min(mean, 1)` is the mean itself when it lies in
[-1, 1], and this angle is what `tempBuffer` holds for the axis. -/
theorem C9_filtered_mean_and_angle (env : Env) (g : Signal) (n : Nat) (hn : 20 ≤ n)
    (hx : g.ringbuf_index_x < 20) (hy : g.ringbuf_index_y < 20) (hz : g.ringbuf_index_z < 20) :
    (movingAverage ((sampling env)^[n] g).ringbufX
        = meanOfLast20 (fun m => (env.ReadData (g.reads + m)).x) n
      ∧ movingAverage ((sampling env)^[n] g).ringbufY
        = meanOfLast20 (fun m => (env.ReadData (g.reads + m)).y) n
      ∧ movingAverage ((sampling env)^[n] g).ringbufZ
        = meanOfLast20 (fun m => (env.ReadData (g.reads + m)).z) n)
    ∧ (((sampling env)^[n] g).angleX
        = 180 * env.acos (min (meanOfLast20 (fun m => (env.ReadData (g.reads + m)).x) n) 1) / PI
      ∧ ((sampling env)^[n] g).angleY
        = 180 * env.acos (min (meanOfLast20 (fun m => (env.ReadData (g.reads + m)).y) n) 1) / PI
      ∧ ((sampling env)^[n] g).angleZ
        = 180 * env.acos (min (meanOfLast20 (fun m => (env.ReadData (g.reads + m)).z) n) 1) / PI)
    ∧ (((sampling env)^[n] g).tempBuffer 0 = ((sampling env)^[n] g).angleX
      ∧ ((sampling env)^[n] g).tempBuffer 1 = ((sampling env)^[n] g).angleY
      ∧ ((sampling env)^[n] g).tempBuffer 2 = ((sampling env)^[n] g).angleZ)
    ∧ (∀ mean : ℚ, -1 ≤ mean → mean ≤ 1 → min mean 1 = mean) := by
  have eX := movingAverage_iterate_X env g n hn hx
  have eY := movingAverage_iterate_Y env g n hn hy
  have eZ := movingAverage_iterate_Z env g n hn hz
  obtain ⟨k, rfl⟩ : ∃ k, n = k + 1 := ⟨n - 1, by omega⟩
  have ha := sampling_angles env ((sampling env)^[k] g)
  rw [← sampling_iterate_succ, eX, eY, eZ] at ha
  exact ⟨⟨eX, eY, eZ⟩, ⟨ha.1, ha.2.1, ha.2.2.1⟩, ⟨ha.2.2.2.1, ha.2.2.2.2.1, ha.2.2.2.2.2⟩,
    fun mean _ h1 => min_eq_left h1⟩

/-- C9, at a concrete input: 20 readings of the example environment from power-on; the
Z readings are all 5898, so the mean is 1/3, and with the linear stand-in for the inverse
cosine the Z angle is 60 degrees. -/
theorem C9_filtered_mean_and_angle_witness :
    ((20 : Nat) ≤ 20 ∧ Signal.init.ringbuf_index_x < 20 ∧ Signal.init.ringbuf_index_y < 20
      ∧ Signal.init.ringbuf_index_z < 20)
    ∧ meanOfLast20 (fun m => (demoEnv.ReadData (Signal.init.reads + m)).z) 20 = 1 / 3
    ∧ movingAverage ((sampling demoEnv)^[20] Signal.init).ringbufZ = 1 / 3
    ∧ ((sampling demoEnv)^[20] Signal.init).angleZ = 180 * demoEnv.acos (min (1 / 3) 1) / PI
    ∧ ((sampling demoEnv)^[20] Signal.init).angleZ = 60 := by
  have h := C9_filtered_mean_and_angle demoEnv Signal.init 20 (le_refl 20) (by decide)
    (by decide) (by decide)
  have hm : meanOfLast20 (fun m => (demoEnv.ReadData (Signal.init.reads + m)).z) 20 = 1 / 3 := by
    decide!
  have h1 := h.1.2.2
  have h2 := h.2.1.2.2
  rw [hm] at h1 h2
  exact ⟨⟨le_refl 20, by decide, by decide, by decide⟩, hm, h1, h2, by decide!⟩

/-- C10: if the accelerometer delivers the same reading `r` at every call, then after
`n ≥ 20` calls of `sampling`, from any buffer contents and any write indices inside the
buffers, the moving average of each axis is the normalised reading `r/17694`, and one more
call leaves it unchanged. This is the value that `sampling` filters: the angle it computes
and stores in `tempBuffer` for the axis is `180 * acos(min(r/17694, 1)) / PI`, whatever the
inverse cosine, and one more call computes the same angle again. With rounded operations,
whatever the rounding, the stored angle is that of the filtered value of a ring buffer
filled with the rounded normalised reading, and one more call stores the same angle. -/
theorem C10_constant_input_converges (env : Env) (g : Signal) (r : Raw) (n : Nat)
    (hconst : ∀ k, env.ReadData (g.reads + k) = r)
    (hx : g.ringbuf_index_x < 20) (hy : g.ringbuf_index_y < 20) (hz : g.ringbuf_index_z < 20)
    (hn : 20 ≤ n) :
    (movingAverage ((sampling env)^[n] g).ringbufX = (r.x : ℚ) / 17694
      ∧ movingAverage ((sampling env)^[n] g).ringbufY = (r.y : ℚ) / 17694
      ∧ movingAverage ((sampling env)^[n] g).ringbufZ = (r.z : ℚ) / 17694)
    ∧ (movingAverage (sampling env ((sampling env)^[n] g)).ringbufX
        = movingAverage ((sampling env)^[n] g).ringbufX
      ∧ movingAverage (sampling env ((sampling env)^[n] g)).ringbufY
        = movingAverage ((sampling env)^[n] g).ringbufY
      ∧ movingAverage (sampling env ((sampling env)^[n] g)).ringbufZ
        = movingAverage ((sampling env)^[n] g).ringbufZ)
    ∧ (((sampling env)^[n] g).angleX = 180 * env.acos (min ((r.x : ℚ) / 17694) 1) / PI
      ∧ ((sampling env)^[n] g).angleY = 180 * env.acos (min ((r.y : ℚ) / 17694) 1) / PI
      ∧ ((sampling env)^[n] g).angleZ = 180 * env.acos (min ((r.z : ℚ) / 17694) 1) / PI)
    ∧ (((sampling env)^[n] g).tempBuffer 0
          = 180 * env.acos (min ((r.x : ℚ) / 17694) 1) / PI
      ∧ ((sampling env)^[n] g).tempBuffer 1
          = 180 * env.acos (min ((r.y : ℚ) / 17694) 1) / PI
      ∧ ((sampling env)^[n] g).tempBuffer 2
          = 180 * env.acos (min ((r.z : ℚ) / 17694) 1) / PI)
    ∧ ((sampling env ((sampling env)^[n] g)).angleX = ((sampling env)^[n] g).angleX
      ∧ (sampling env ((sampling env)^[n] g)).angleY = ((sampling env)^[n] g).angleY
      ∧ (sampling env ((sampling env)^[n] g)).angleZ = ((sampling env)^[n] g).angleZ
      ∧ ∀ k, k < 3 → (sampling env ((sampling env)^[n] g)).tempBuffer k
          = ((sampling env)^[n] g).tempBuffer k)
    ∧ (∀ fl : Rounding,
        (((samplingFloat fl env)^[n] g).tempBuffer 0
            = angleDegFloat fl env (restrictTo1g (movingAverageFloat fl
                (fun _ => fl.single (fl.double ((r.x : ℚ) / 17694)))))
          ∧ ((samplingFloat fl env)^[n] g).tempBuffer 1
            = angleDegFloat fl env (restrictTo1g (movingAverageFloat fl
                (fun _ => fl.single (fl.double ((r.y : ℚ) / 17694)))))
          ∧ ((samplingFloat fl env)^[n] g).tempBuffer 2
            = angleDegFloat fl env (restrictTo1g (movingAverageFloat fl
                (fun _ => fl.single (fl.double ((r.z : ℚ) / 17694))))))
        ∧ ∀ k, k < 3 → (samplingFloat fl env ((samplingFloat fl env)^[n] g)).tempBuffer k
            = ((samplingFloat fl env)^[n] g).tempBuffer k) := by
  have key : ∀ k, 20 ≤ k →
      movingAverage ((sampling env)^[k] g).ringbufX = (r.x : ℚ) / 17694
      ∧ movingAverage ((sampling env)^[k] g).ringbufY = (r.y : ℚ) / 17694
      ∧ movingAverage ((sampling env)^[k] g).ringbufZ = (r.z : ℚ) / 17694 := by
    intro k hk
    rw [movingAverage_iterate_X env g k hk hx, movingAverage_iterate_Y env g k hk hy,
      movingAverage_iterate_Z env g k hk hz]
    exact ⟨meanOfLast20_const r.x _ k hk (fun m => by rw [hconst]),
      meanOfLast20_const r.y _ k hk (fun m => by rw [hconst]),
      meanOfLast20_const r.z _ k hk (fun m => by rw [hconst])⟩
  have h1 := key n hn
  have h2 := key (n + 1) (Nat.le_succ_of_le hn)
  obtain ⟨j, rfl⟩ : ∃ j, n = j + 1 := ⟨n - 1, by omega⟩
  have a1 := sampling_iterate_angles env g j
  have a2 := sampling_iterate_angles env g (j + 1)
  rw [h1.1, h1.2.1, h1.2.2] at a1
  rw [h2.1, h2.2.1, h2.2.2] at a2
  rw [sampling_iterate_succ env (j + 1)] at h2 a2
  obtain ⟨x1, y1, z1, tx1, ty1, tz1⟩ := a1
  obtain ⟨x2, y2, z2, tx2, ty2, tz2⟩ := a2
  refine ⟨h1, ⟨by rw [h2.1, h1.1], by rw [h2.2.1, h1.2.1], by rw [h2.2.2, h1.2.2]⟩,
    ⟨x1, y1, z1⟩, ⟨by rw [tx1, x1], by rw [ty1, y1], by rw [tz1, z1]⟩,
    ⟨by rw [x2, x1], by rw [y2, y1], by rw [z2, z1], ?_⟩, ?_⟩
  · intro k hk
    interval_cases k
    · rw [tx2, x2, tx1, x1]
    · rw [ty2, y2, ty1, y1]
    · rw [tz2, z2, tz1, z1]
  · intro fl
    have m1 := constFloat_mean fl env g r (j + 1) hconst hx hy hz hn
    have m2 := constFloat_mean fl env g r (j + 1 + 1) hconst hx hy hz (Nat.le_succ_of_le hn)
    have b1 := samplingFloat_iterate_angles fl env g j
    have b2 := samplingFloat_iterate_angles fl env g (j + 1)
    rw [m1.1, m1.2.1, m1.2.2] at b1
    rw [m2.1, m2.2.1, m2.2.2] at b2
    rw [samplingFloat_iterate_succ fl env (j + 1)] at b2
    refine ⟨b1, ?_⟩
    intro k hk
    interval_cases k
    · rw [b2.1, b1.1]
    · rw [b2.2.1, b1.2.1]
    · rw [b2.2.2, b1.2.2]

/-- C10, at a concrete input: the constant reading (17694, 8847, -17694) from power-on
gives the moving averages (1, 1/2, -1) after 20 calls, and after a 21st; with the linear
stand-in for the inverse cosine, `sampling` stores the angles 0, 45 and 180 degrees. With
IEEE rounding the Y angle stored by the 20th and by the 21st call is the rounded angle
of 1/2. -/
theorem C10_constant_input_converges_witness :
    ((∀ k, constEnv.ReadData (Signal.init.reads + k) = ⟨17694, 8847, -17694⟩)
      ∧ Signal.init.ringbuf_index_x < 20 ∧ Signal.init.ringbuf_index_y < 20
      ∧ Signal.init.ringbuf_index_z < 20 ∧ (20 : Nat) ≤ 20)
    ∧ (movingAverage ((sampling constEnv)^[20] Signal.init).ringbufX = 1
      ∧ movingAverage ((sampling constEnv)^[20] Signal.init).ringbufY = 1 / 2
      ∧ movingAverage ((sampling constEnv)^[20] Signal.init).ringbufZ = -1)
    ∧ (movingAverage (sampling constEnv ((sampling constEnv)^[20] Signal.init)).ringbufX
        = movingAverage ((sampling constEnv)^[20] Signal.init).ringbufX
      ∧ movingAverage (sampling constEnv ((sampling constEnv)^[20] Signal.init)).ringbufY
        = movingAverage ((sampling constEnv)^[20] Signal.init).ringbufY
      ∧ movingAverage (sampling constEnv ((sampling constEnv)^[20] Signal.init)).ringbufZ
        = movingAverage ((sampling constEnv)^[20] Signal.init).ringbufZ)
    ∧ (((sampling constEnv)^[20] Signal.init).tempBuffer 0 = 0
      ∧ ((sampling constEnv)^[20] Signal.init).tempBuffer 1 = 45
      ∧ ((sampling constEnv)^[20] Signal.init).tempBuffer 2 = 180
      ∧ ((sampling constEnv)^[19] Signal.init).tempBuffer 1 = 90 * (1 - 19 / 40))
    ∧ ((sampling constEnv ((sampling constEnv)^[20] Signal.init)).tempBuffer 0 = 0
      ∧ (sampling constEnv ((sampling constEnv)^[20] Signal.init)).tempBuffer 1 = 45
      ∧ (sampling constEnv ((sampling constEnv)^[20] Signal.init)).tempBuffer 2 = 180)
    ∧ (((samplingFloat Rounding.ieee constEnv)^[20] Signal.init).tempBuffer 1
        = angleDegFloat Rounding.ieee constEnv (1 / 2)
      ∧ (samplingFloat Rounding.ieee constEnv
          ((samplingFloat Rounding.ieee constEnv)^[20] Signal.init)).tempBuffer 1
        = angleDegFloat Rounding.ieee constEnv (1 / 2)) := by
  have h := C10_constant_input_converges constEnv Signal.init ⟨17694, 8847, -17694⟩ 20
    (fun _ => rfl) (by decide) (by decide) (by decide) (le_refl 20)
  have e : ((sampling constEnv)^[20] Signal.init).tempBuffer 0 = 0
      ∧ ((sampling constEnv)^[20] Signal.init).tempBuffer 1 = 45
      ∧ ((sampling constEnv)^[20] Signal.init).tempBuffer 2 = 180
      ∧ ((sampling constEnv)^[19] Signal.init).tempBuffer 1 = 90 * (1 - 19 / 40) := by
    decide!
  have ef : ((samplingFloat Rounding.ieee constEnv)^[20] Signal.init).tempBuffer 1
      = angleDegFloat Rounding.ieee constEnv (1 / 2) := by decide!
  have t := h.2.2.2.2.1.2.2.2
  have tf := (h.2.2.2.2.2 Rounding.ieee).2
  refine ⟨⟨fun _ => rfl, by decide, by decide, by decide, le_refl 20⟩, ?_, h.2.1, e,
    ⟨(t 0 (by decide)).trans e.1, (t 1 (by decide)).trans e.2.1,
      (t 2 (by decide)).trans e.2.2.1⟩, ef, (tf 1 (by decide)).trans ef⟩
  obtain ⟨h1, h2, h3⟩ := h.1
  refine ⟨?_, ?_, ?_⟩
  · rw [h1]
    norm_num
  · rw [h2]
    norm_num
  · rw [h3]
    norm_num

/-- C11, as stated, fails: the window with means (X=90, Y=85, Z=35) satisfies both `isPU`
and `isJJ`, and the window with means (X=80, Y=100, Z=150) satisfies both `isSU` and
`isS`. -/
theorem C11_counterexample_regions_overlap :
    ((isPU (stateWithWindow (constWindow 90 85 35))).1 = true
      ∧ (isJJ (stateWithWindow (constWindow 90 85 35))).1 = true)
    ∧ ((isSU (stateWithWindow (constWindow 80 100 150))).1 = true
      ∧ (isS (stateWithWindow (constWindow 80 100 150))).1 = true) := by
  decide!

/-- C11, amended: no window satisfies `isSU` together with `isPU` or `isJJ`, nor `isS`
together with `isPU` or `isJJ`; `isPU` and `isJJ` hold together exactly when the means lie
in the box 80 ≤ X ≤ 100, 80 ≤ Y ≤ 90, 30 ≤ Z ≤ 40. Every triple is the triple of means of
some window (the constant one). On a window in the overlap the fixed order of the tests
selects PushUps: `isSU` fails, the label is `PushUps`, and an iteration of the loop of
`freeToExercise` that acquires such a window calls `countPU` (seeded with the peak count of
the window) and no other counting function. -/
theorem C11_regions_disjoint_except_overlap (s : State) :
    ¬ ((isSU s).1 = true ∧ (isPU s).1 = true)
    ∧ ¬ ((isSU s).1 = true ∧ (isJJ s).1 = true)
    ∧ ¬ ((isS s).1 = true ∧ (isPU s).1 = true)
    ∧ ¬ ((isS s).1 = true ∧ (isJJ s).1 = true)
    ∧ (((isPU s).1 = true ∧ (isJJ s).1 = true)
        ↔ ((80 ≤ axisMean s.sig.presamplesBuffer 0 ∧ axisMean s.sig.presamplesBuffer 0 ≤ 100)
          ∧ (80 ≤ axisMean s.sig.presamplesBuffer 1 ∧ axisMean s.sig.presamplesBuffer 1 ≤ 90)
          ∧ (30 ≤ axisMean s.sig.presamplesBuffer 2 ∧ axisMean s.sig.presamplesBuffer 2 ≤ 40)))
    ∧ (∀ x y z : ℚ, axisMean (constWindow x y z) 0 = x ∧ axisMean (constWindow x y z) 1 = y
        ∧ axisMean (constWindow x y z) 2 = z)
    ∧ (((isPU s).1 = true ∧ (isJJ s).1 = true)
        → (isSU s).1 = false ∧ classify s.sig.presamplesBuffer = .PushUps)
    ∧ (∀ (env : Env) (fuel : Nat), s.isButtonPressed = false → env.MyButton s.polls = false
        → ((isPU (freeAcquire env s)).1 = true ∧ (isJJ (freeAcquire env s)).1 = true)
        → calls (freeToExercise_loop env (fuel + 1) s).state.trace
            = calls s.trace
                ++ [(.countPU, peakScan (freeAcquire env s).sig.presamplesBuffer 0)]) := by
  refine ⟨?_, ?_, ?_, ?_, ?_, axisMean_constWindow, fun h => overlap_selects_PushUps s h.1, ?_⟩
  · simp only [isSU_iff, isPU_iff, Region.holds]
    rintro ⟨⟨-, -, h1, -⟩, ⟨-, -, -, h2⟩⟩
    linarith
  · simp only [isSU_iff, isJJ_iff, Region.holds]
    rintro ⟨⟨-, -, h1, -⟩, ⟨-, -, -, h2⟩⟩
    linarith
  · simp only [isS_iff, isPU_iff, Region.holds]
    rintro ⟨⟨-, -, h1, -⟩, ⟨-, -, -, h2⟩⟩
    linarith
  · simp only [isS_iff, isJJ_iff, Region.holds]
    rintro ⟨⟨-, -, h1, -⟩, ⟨-, -, -, h2⟩⟩
    linarith
  · simp only [isPU_iff, isJJ_iff, Region.holds]
    constructor
    · rintro ⟨⟨⟨a1, a2⟩, ⟨a3, a4⟩, a5, a6⟩, ⟨⟨b1, b2⟩, ⟨b3, b4⟩, b5, b6⟩⟩
      exact ⟨⟨a1, a2⟩, ⟨b3, a4⟩, b5, a6⟩
    · rintro ⟨⟨a1, a2⟩, ⟨a3, a4⟩, a5, a6⟩
      refine ⟨⟨⟨a1, a2⟩, ⟨?_, a4⟩, ?_, a6⟩, ⟨⟨?_, ?_⟩, ⟨a3, ?_⟩, a5, ?_⟩⟩ <;> linarith
  · intro env fuel hflag hbutton hboth
    have hc := (overlap_selects_PushUps (freeAcquire env s) hboth.1).2
    rw [freeToExercise_loop_classify env fuel s hflag hbutton, hc,
      calls_startCounting env fuel (freeAcquire env s) .PushUps .countPU rfl]
    rfl

/-- C11 amended, at concrete inputs: the window with means (90, 85, 35) lies in the box and
satisfies `isPU` and `isJJ`, but not `isSU` together with `isPU`, and its label is
`PushUps`. The readings (0, 1872, 22000) put the first window from power-on in the overlap,
and the first iteration of the loop of `freeToExercise` then calls `countPU` with seed 0. -/
theorem C11_regions_disjoint_except_overlap_witness :
    ((isPU (stateWithWindow (constWindow 90 85 35))).1 = true
      ∧ (isJJ (stateWithWindow (constWindow 90 85 35))).1 = true)
    ∧ ((80 ≤ axisMean (constWindow 90 85 35) 0 ∧ axisMean (constWindow 90 85 35) 0 ≤ 100)
      ∧ (80 ≤ axisMean (constWindow 90 85 35) 1 ∧ axisMean (constWindow 90 85 35) 1 ≤ 90)
      ∧ (30 ≤ axisMean (constWindow 90 85 35) 2 ∧ axisMean (constWindow 90 85 35) 2 ≤ 40))
    ∧ ¬ ((isSU (stateWithWindow (constWindow 90 85 35))).1 = true
        ∧ (isPU (stateWithWindow (constWindow 90 85 35))).1 = true)
    ∧ classify (constWindow 90 85 35) = .PushUps
    ∧ (State.init.isButtonPressed = false ∧ overlapEnv.MyButton State.init.polls = false
      ∧ (isPU (freeAcquire overlapEnv State.init)).1 = true
      ∧ (isJJ (freeAcquire overlapEnv State.init)).1 = true
      ∧ peakScan (freeAcquire overlapEnv State.init).sig.presamplesBuffer 0 = 0)
    ∧ calls (freeToExercise_loop overlapEnv (1 + 1) State.init).state.trace
        = [(.countPU, 0)] := by
  have h := C11_regions_disjoint_except_overlap (stateWithWindow (constWindow 90 85 35))
  have h0 := C11_regions_disjoint_except_overlap State.init
  have hb : (isPU (stateWithWindow (constWindow 90 85 35))).1 = true
      ∧ (isJJ (stateWithWindow (constWindow 90 85 35))).1 = true := by decide!
  have ho : (isPU (freeAcquire overlapEnv State.init)).1 = true
      ∧ (isJJ (freeAcquire overlapEnv State.init)).1 = true
      ∧ peakScan (freeAcquire overlapEnv State.init).sig.presamplesBuffer 0 = 0 := by decide!
  have hcall := h0.2.2.2.2.2.2.2 overlapEnv 1 rfl rfl ⟨ho.1, ho.2.1⟩
  rw [ho.2.2] at hcall
  exact ⟨hb, h.2.2.2.2.1.mp hb, h.1, (h.2.2.2.2.2.2.1 hb).2, ⟨rfl, rfl, ho⟩, hcall⟩

/-- C12: when the button is read as pressed at the top of an iteration of the loop of
`freeToExercise`, the function returns from that iteration in the state in which only the
reading was consumed: the signal globals (ring buffers, write indices, `presamplesBuffer`,
number of sensor readings) and the outputs (hence the calls of counting functions) are
unchanged. The same holds for the first iteration of `freeToExercise` itself, after its
entry chase. -/
theorem C12_pressed_at_top_returns_at_once (env : Env) (fuel : Nat) (s : State)
    (hflag : s.isButtonPressed = false) (hbutton : env.MyButton s.polls = true) :
    freeToExercise_loop env (fuel + 1) s = .returned (pollButton env s)
    ∧ (pollButton env s).sig = s.sig
    ∧ (pollButton env s).trace = s.trace
    ∧ (pollButton env s).count = s.count
    ∧ (pollButton env s).polls = s.polls + 1
    ∧ freeToExercise env (fuel + 1) s
        = .returned (pollButton env
            (s.emit (List.replicate 3 (chase .LED3 .LED5 .LED6 .LED4)).flatten)) :=
  ⟨freeToExercise_loop_pressed env fuel s hflag hbutton, rfl, rfl, rfl, rfl, by
    rw [freeToExercise, foldl_emit]
    exact freeToExercise_loop_pressed env fuel
      (s.emit (List.replicate 3 (chase .LED3 .LED5 .LED6 .LED4)).flatten) hflag hbutton⟩

/-- C12, at a concrete input: from power-on with the button pressed, the loop returns with
no sensor reading consumed and nothing written. -/
theorem C12_pressed_at_top_returns_at_once_witness :
    (State.init.isButtonPressed = false ∧ pressedEnv.MyButton State.init.polls = true)
    ∧ freeToExercise_loop pressedEnv (10 + 1) State.init = .returned (pollButton pressedEnv State.init)
    ∧ (pollButton pressedEnv State.init).sig = State.init.sig
    ∧ (freeToExercise_loop pressedEnv (10 + 1) State.init).state.sig.reads = 0
    ∧ (freeToExercise_loop pressedEnv (10 + 1) State.init).state.trace = [] := by
  have h := C12_pressed_at_top_returns_at_once pressedEnv 10 State.init rfl rfl
  refine ⟨⟨rfl, rfl⟩, h.1, h.2.1, ?_, ?_⟩ <;> rw [h.1] <;> rfl

/-- C13: in an iteration of the free-exercise loop whose window (the one just acquired by
`sampleTwoSeconds`) gets a label other than Unknown, the counting function of that label is
called with a seed equal to the number of strict interior maxima of the Y column of that
very window, and it is the only new call recorded. In `routinedExercise` the calls recorded
are the first `k` of the fixed order, every one of them with seed 0. -/
theorem C13_seed_is_peak_count_of_classified_window (env : Env) (fuel : Nat) (s : State)
    (hflag : s.isButtonPressed = false) (hbutton : env.MyButton s.polls = false) :
    (freeAcquire env s).sig = sampleTwoSeconds env s.sig
    ∧ (∀ f, (classify (freeAcquire env s).sig.presamplesBuffer).counter = some f →
        freeToExercise_loop env (fuel + 1) s
            = startCounting env fuel (freeAcquire env s)
                (classify (freeAcquire env s).sig.presamplesBuffer)
          ∧ calls (freeToExercise_loop env (fuel + 1) s).state.trace
            = calls s.trace
              ++ [(f, (strictLocalMaxCount (sampleTwoSeconds env s.sig).presamplesBuffer : Int))])
    ∧ (∃ k, k ≤ 4
        ∧ calls (routinedExercise env fuel s).state.trace = calls s.trace ++ routineOrder.take k)
    ∧ (∀ c ∈ routineOrder, c.2 = 0) := by
  refine ⟨rfl, ?_, ?_, routineOrder_seed⟩
  · intro f hf
    have hstep := freeToExercise_loop_classify env fuel s hflag hbutton
    refine ⟨hstep, ?_⟩
    rw [hstep, calls_startCounting env fuel _ _ f hf, peakScan_eq]
    simp [freeAcquire, pollButton]
  · obtain ⟨j, k, hk, -, hp, -⟩ := routinedExercise_progress env fuel s
    exact ⟨k, hk, hp.2⟩

/-- C13, at a concrete input: in the example session the first window is labelled
JumpingJacks and has 3 peaks, and `countJJ` is called with seed 3; the complete routine
calls the four counting functions with seed 0. -/
theorem C13_seed_is_peak_count_of_classified_window_witness :
    (State.init.isButtonPressed = false ∧ demoEnv.MyButton State.init.polls = false)
    ∧ (classify (freeAcquire demoEnv State.init).sig.presamplesBuffer).counter = some .countJJ
    ∧ strictLocalMaxCount (sampleTwoSeconds demoEnv State.init.sig).presamplesBuffer = 3
    ∧ calls (freeToExercise_loop demoEnv (10 + 1) State.init).state.trace
        = calls State.init.trace ++ [(.countJJ, ((3 : Nat) : Int))]
    ∧ calls (routinedExercise routineEnv 5 State.init).state.trace
        = [(.countSU, 0), (.countPU, 0), (.countJJ, 0), (.countS, 0)] := by
  have h := C13_seed_is_peak_count_of_classified_window demoEnv 10 State.init rfl rfl
  have hall : (classify (freeAcquire demoEnv State.init).sig.presamplesBuffer).counter
        = some .countJJ
      ∧ strictLocalMaxCount (sampleTwoSeconds demoEnv State.init.sig).presamplesBuffer
        = 3 := by decide!
  obtain ⟨hc, h3⟩ := hall
  have hcalls := (h.2.1 .countJJ hc).2
  rw [h3] at hcalls
  exact ⟨⟨rfl, rfl⟩, hc, h3, hcalls, by decide!⟩

/-- C14: the clamp of `sampling` maps every filtered mean `m` to `min(m, 1)`, which is at
most 1 and is `m` itself when `m < -1`; this clamped value is the argument of the inverse
cosine in each of the three angles. With 20 valid `int16_t` readings all equal to -32768
from power-on, the mean and the argument of the inverse cosine are -32768/17694, which is
below -1. -/
theorem C14_clamp_is_upper_only (env : Env) (g : Signal) (m : ℚ) :
    (restrictTo1g m = min m 1 ∧ restrictTo1g m ≤ 1)
    ∧ (m < -1 → restrictTo1g m = m)
    ∧ ((sampling env g).angleX
          = 180 * env.acos (restrictTo1g (movingAverage (sampling env g).ringbufX)) / PI
        ∧ (sampling env g).angleY
          = 180 * env.acos (restrictTo1g (movingAverage (sampling env g).ringbufY)) / PI
        ∧ (sampling env g).angleZ
          = 180 * env.acos (restrictTo1g (movingAverage (sampling env g).ringbufZ)) / PI)
    ∧ ((∀ k, (minEnv.ReadData k).valid)
        ∧ movingAverage ((sampling minEnv)^[20] Signal.init).ringbufX = -32768 / 17694
        ∧ restrictTo1g (movingAverage ((sampling minEnv)^[20] Signal.init).ringbufX)
            = -32768 / 17694
        ∧ (-32768 / 17694 : ℚ) < -1
        ∧ ((sampling minEnv)^[20] Signal.init).angleX
            = 180 * minEnv.acos (-32768 / 17694) / PI) := by
  have hmin : movingAverage ((sampling minEnv)^[20] Signal.init).ringbufX = -32768 / 17694 := by
    rw [movingAverage_iterate_X minEnv Signal.init 20 (le_refl 20) (by decide)]
    refine (meanOfLast20_const (-32768) _ 20 (le_refl 20) (fun _ => rfl)).trans ?_
    norm_num
  have hlt : (-32768 / 17694 : ℚ) < -1 := by norm_num
  have hclamp : ∀ q : ℚ, q < -1 → restrictTo1g q = q := by
    intro q hq
    rw [restrictTo1g_eq_min]
    exact min_eq_left (by linarith)
  refine ⟨⟨restrictTo1g_eq_min m, ?_⟩, hclamp m, ⟨rfl, rfl, rfl⟩, ?_, hmin, ?_, hlt, ?_⟩
  · rw [restrictTo1g_eq_min]
    exact min_le_right m 1
  · intro k
    show ((-32768 : Int) ≤ -32768 ∧ (-32768 : Int) ≤ 32767)
      ∧ ((-32768 : Int) ≤ -32768 ∧ (-32768 : Int) ≤ 32767)
      ∧ ((-32768 : Int) ≤ -32768 ∧ (-32768 : Int) ≤ 32767)
    decide
  · rw [hmin]
    exact hclamp _ hlt
  · have h := (sampling_angles minEnv ((sampling minEnv)^[19] Signal.init)).1
    rw [← sampling_iterate_succ, hmin, min_eq_left (by linarith)] at h
    exact h

/-- C14, at a concrete input: the mean -2 passes the clamp unchanged, the mean 3 is cut
to 1. -/
theorem C14_clamp_is_upper_only_witness :
    ((-2 : ℚ) < -1) ∧ restrictTo1g (-2) = -2 ∧ restrictTo1g 3 = min 3 1 ∧ restrictTo1g 3 ≤ 1 := by
  have h := C14_clamp_is_upper_only minEnv Signal.init (-2)
  have h3 := C14_clamp_is_upper_only minEnv Signal.init 3
  exact ⟨by norm_num, h.2.1 (by norm_num), h3.1.1, h3.1.2⟩

/-- C15: from the zero-initialised ring buffers of power-on, after `k ≤ 20` calls of
`sampling` the filtered mean of each axis (before the clamp) is the sum of the `k`
normalised readings divided by 20; for a constant reading `r` it is `k * (r/17694) / 20`.
This is the mean that `sampling` uses: for `1 ≤ k ≤ 20` the angle computed by the `k`-th
call and stored in `tempBuffer` is `180 * acos(min(sum / 20, 1)) / PI`, whatever the
inverse cosine, and `180 * acos(min(k * (r/17694) / 20, 1)) / PI` for a constant
reading. With rounded operations, whatever the rounding, the `k`-th call stores the angle
of the clamped, rounded quotient by 20 of the rounded sum of the `k` rounded normalised
readings and `20 - k` zeros. -/
theorem C15_warmup_mean_divides_by_20 (env : Env) (k : Nat) (hk : k ≤ 20) :
    (movingAverage ((sampling env)^[k] Signal.init).ringbufX
        = (∑ m ∈ Finset.range k, ((env.ReadData m).x : ℚ) / 17694) / 20
      ∧ movingAverage ((sampling env)^[k] Signal.init).ringbufY
        = (∑ m ∈ Finset.range k, ((env.ReadData m).y : ℚ) / 17694) / 20
      ∧ movingAverage ((sampling env)^[k] Signal.init).ringbufZ
        = (∑ m ∈ Finset.range k, ((env.ReadData m).z : ℚ) / 17694) / 20)
    ∧ (∀ r : Raw, (∀ m, env.ReadData m = r) →
        movingAverage ((sampling env)^[k] Signal.init).ringbufX = k * ((r.x : ℚ) / 17694) / 20
        ∧ movingAverage ((sampling env)^[k] Signal.init).ringbufY = k * ((r.y : ℚ) / 17694) / 20
        ∧ movingAverage ((sampling env)^[k] Signal.init).ringbufZ
            = k * ((r.z : ℚ) / 17694) / 20)
    ∧ (1 ≤ k →
        (((sampling env)^[k] Signal.init).angleX
            = 180 * env.acos
                (min ((∑ m ∈ Finset.range k, ((env.ReadData m).x : ℚ) / 17694) / 20) 1) / PI
          ∧ ((sampling env)^[k] Signal.init).angleY
            = 180 * env.acos
                (min ((∑ m ∈ Finset.range k, ((env.ReadData m).y : ℚ) / 17694) / 20) 1) / PI
          ∧ ((sampling env)^[k] Signal.init).angleZ
            = 180 * env.acos
                (min ((∑ m ∈ Finset.range k, ((env.ReadData m).z : ℚ) / 17694) / 20) 1) / PI)
        ∧ (((sampling env)^[k] Signal.init).tempBuffer 0
              = ((sampling env)^[k] Signal.init).angleX
          ∧ ((sampling env)^[k] Signal.init).tempBuffer 1
              = ((sampling env)^[k] Signal.init).angleY
          ∧ ((sampling env)^[k] Signal.init).tempBuffer 2
              = ((sampling env)^[k] Signal.init).angleZ)
        ∧ (∀ r : Raw, (∀ m, env.ReadData m = r) →
            ((sampling env)^[k] Signal.init).tempBuffer 0
                = 180 * env.acos (min (k * ((r.x : ℚ) / 17694) / 20) 1) / PI
            ∧ ((sampling env)^[k] Signal.init).tempBuffer 1
                = 180 * env.acos (min (k * ((r.y : ℚ) / 17694) / 20) 1) / PI
            ∧ ((sampling env)^[k] Signal.init).tempBuffer 2
                = 180 * env.acos (min (k * ((r.z : ℚ) / 17694) / 20) 1) / PI))
    ∧ (∀ fl : Rounding, 1 ≤ k →
        ((samplingFloat fl env)^[k] Signal.init).tempBuffer 0
            = angleDegFloat fl env (restrictTo1g (fl.single (addAllSamplesFloat fl (fun j =>
                if j < k then fl.single (fl.double (((env.ReadData j).x : ℚ) / 17694)) else 0)
                / 20)))
        ∧ ((samplingFloat fl env)^[k] Signal.init).tempBuffer 1
            = angleDegFloat fl env (restrictTo1g (fl.single (addAllSamplesFloat fl (fun j =>
                if j < k then fl.single (fl.double (((env.ReadData j).y : ℚ) / 17694)) else 0)
                / 20)))
        ∧ ((samplingFloat fl env)^[k] Signal.init).tempBuffer 2
            = angleDegFloat fl env (restrictTo1g (fl.single (addAllSamplesFloat fl (fun j =>
                if j < k then fl.single (fl.double (((env.ReadData j).z : ℚ) / 17694)) else 0)
                / 20)))) := by
  have hX := movingAverage_warmup_X env k hk
  have hY := movingAverage_warmup_Y env k hk
  have hZ := movingAverage_warmup_Z env k hk
  have hconst : ∀ r : Raw, (∀ m, env.ReadData m = r) →
      (∑ m ∈ Finset.range k, ((env.ReadData m).x : ℚ) / 17694) / 20
          = k * ((r.x : ℚ) / 17694) / 20
      ∧ (∑ m ∈ Finset.range k, ((env.ReadData m).y : ℚ) / 17694) / 20
          = k * ((r.y : ℚ) / 17694) / 20
      ∧ (∑ m ∈ Finset.range k, ((env.ReadData m).z : ℚ) / 17694) / 20
          = k * ((r.z : ℚ) / 17694) / 20 := by
    intro r hr
    simp [hr, Finset.sum_const]
  refine ⟨⟨hX, hY, hZ⟩, ?_, ?_, ?_⟩
  · intro r hr
    rw [hX, hY, hZ]
    exact hconst r hr
  · intro h1
    obtain ⟨j, rfl⟩ : ∃ j, k = j + 1 := ⟨k - 1, by omega⟩
    have a := sampling_iterate_angles env Signal.init j
    rw [hX, hY, hZ] at a
    obtain ⟨ax, ay, az, tx, ty, tz⟩ := a
    refine ⟨⟨ax, ay, az⟩, ⟨tx, ty, tz⟩, ?_⟩
    intro r hr
    obtain ⟨cx, cy, cz⟩ := hconst r hr
    rw [tx, ty, tz, ax, ay, az, cx, cy, cz]
    exact ⟨rfl, rfl, rfl⟩
  · intro fl h1
    obtain ⟨j, rfl⟩ : ∃ j, k = j + 1 := ⟨k - 1, by omega⟩
    have a := samplingFloat_iterate_angles fl env Signal.init j
    obtain ⟨mx, my, mz⟩ := warmupFloat_mean fl env (j + 1) hk
    rw [mx, my, mz] at a
    exact a

/-- C15, at a concrete input: after 10 calls with the X reading constantly 17694
(normalised 1) the filtered mean is 10 * 1 / 20 = 1/2, not 1. With the linear stand-in for
the inverse cosine (an angle is `90 * (1 - g)` degrees) the tenth call stores the X angle
45 degrees, the angle of 1/2, and not 0 degrees, the angle of 1. With IEEE rounding the
tenth call stores the rounded angle of 1/2, which is not the rounded angle of 1. -/
theorem C15_warmup_mean_divides_by_20_witness :
    ((10 : Nat) ≤ 20)
    ∧ movingAverage ((sampling constEnv)^[10] Signal.init).ringbufX
        = 10 * (((17694 : Int) : ℚ) / 17694) / 20
    ∧ movingAverage ((sampling constEnv)^[10] Signal.init).ringbufX = 1 / 2
    ∧ movingAverage ((sampling constEnv)^[10] Signal.init).ringbufX ≠ ((17694 : Int) : ℚ) / 17694
    ∧ ((sampling constEnv)^[10] Signal.init).tempBuffer 0
        = 180 * constEnv.acos (min (10 * (((17694 : Int) : ℚ) / 17694) / 20) 1) / PI
    ∧ ((sampling constEnv)^[10] Signal.init).tempBuffer 0 = 45
    ∧ 180 * constEnv.acos (min (((17694 : Int) : ℚ) / 17694) 1) / PI = 0
    ∧ ((samplingFloat Rounding.ieee constEnv)^[10] Signal.init).tempBuffer 0
        = angleDegFloat Rounding.ieee constEnv (1 / 2)
    ∧ angleDegFloat Rounding.ieee constEnv (1 / 2) ≠ angleDegFloat Rounding.ieee constEnv 1 := by
  have h0 := C15_warmup_mean_divides_by_20 constEnv 10 (by decide)
  have h := h0.2.1 ⟨17694, 8847, -17694⟩ (fun _ => rfl)
  have ht := (h0.2.2.1 (by decide)).2.2 ⟨17694, 8847, -17694⟩ (fun _ => rfl)
  have hx := h.1
  have htx := ht.1
  simp only [Nat.cast_ofNat] at hx htx
  have hf := (h0.2.2.2 Rounding.ieee (by decide)).1
  have ef : angleDegFloat Rounding.ieee constEnv (restrictTo1g (Rounding.ieee.single
        (addAllSamplesFloat Rounding.ieee (fun j => if j < 10
          then Rounding.ieee.single (Rounding.ieee.double
            (((constEnv.ReadData j).x : ℚ) / 17694)) else 0) / 20)))
        = angleDegFloat Rounding.ieee constEnv (1 / 2)
      ∧ angleDegFloat Rounding.ieee constEnv (1 / 2)
        ≠ angleDegFloat Rounding.ieee constEnv 1 := by decide!
  refine ⟨by decide, hx, ?_, ?_, htx, by decide!, by decide!, hf.trans ef.1, ef.2⟩
  · rw [hx]
    norm_num
  · rw [hx]
    norm_num

/-- C16: from power-on, after `n` calls of `sampling` the three write indices are all
`n mod 20`, which is below the buffer length `N`, and `n` readings were consumed; the next
call writes its normalised reading into slot `n mod 20` of each ring buffer; the buffers
hold the last readings (reading `m` in slot `m mod 20` for the up to 20 most recent `m`),
and for `n ≥ 20` the slot about to be overwritten holds reading `n - 20`, the oldest
one kept. -/
theorem C16_ring_index_invariant (env : Env) (n : Nat) :
    (((sampling env)^[n] Signal.init).ringbuf_index_x = n % 20
      ∧ ((sampling env)^[n] Signal.init).ringbuf_index_y = n % 20
      ∧ ((sampling env)^[n] Signal.init).ringbuf_index_z = n % 20)
    ∧ ((sampling env)^[n] Signal.init).reads = n
    ∧ n % 20 < N
    ∧ ((sampling env)^[n + 1] Signal.init).ringbufX
          = Function.update ((sampling env)^[n] Signal.init).ringbufX (n % 20)
              (((env.ReadData n).x : ℚ) / 17694)
      ∧ ((sampling env)^[n + 1] Signal.init).ringbufY
          = Function.update ((sampling env)^[n] Signal.init).ringbufY (n % 20)
              (((env.ReadData n).y : ℚ) / 17694)
      ∧ ((sampling env)^[n + 1] Signal.init).ringbufZ
          = Function.update ((sampling env)^[n] Signal.init).ringbufZ (n % 20)
              (((env.ReadData n).z : ℚ) / 17694)
    ∧ (∀ m, m < n → n ≤ m + 20 →
        ((sampling env)^[n] Signal.init).ringbufX (m % 20) = ((env.ReadData m).x : ℚ) / 17694
        ∧ ((sampling env)^[n] Signal.init).ringbufY (m % 20) = ((env.ReadData m).y : ℚ) / 17694
        ∧ ((sampling env)^[n] Signal.init).ringbufZ (m % 20) = ((env.ReadData m).z : ℚ) / 17694)
    ∧ (20 ≤ n →
        ((sampling env)^[n] Signal.init).ringbufX (n % 20)
          = ((env.ReadData (n - 20)).x : ℚ) / 17694
        ∧ ((sampling env)^[n] Signal.init).ringbufY (n % 20)
          = ((env.ReadData (n - 20)).y : ℚ) / 17694
        ∧ ((sampling env)^[n] Signal.init).ringbufZ (n % 20)
          = ((env.ReadData (n - 20)).z : ℚ) / 17694) := by
  have hr : ((sampling env)^[n] Signal.init).reads = n := by
    rw [sampling_iterate_reads]
    exact Nat.zero_add n
  have hx := sampling_index_x env n
  have hy := sampling_index_y env n
  have hz := sampling_index_z env n
  refine ⟨⟨hx, hy, hz⟩, hr, Nat.mod_lt n (by decide), ?_, ?_, ?_, ?_, ?_⟩
  · rw [sampling_iterate_succ, (sampling_writes env _).1, hx, hr]
  · rw [sampling_iterate_succ, (sampling_writes env _).2.1, hy, hr]
  · rw [sampling_iterate_succ, (sampling_writes env _).2.2, hz, hr]
  · intro m hm hn
    exact ⟨sampling_stored_X env n m hm hn, sampling_stored_Y env n m hm hn,
      sampling_stored_Z env n m hm hn⟩
  · intro hn
    have e : n % 20 = (n - 20) % 20 := by omega
    rw [e]
    exact ⟨sampling_stored_X env n (n - 20) (by omega) (by omega),
      sampling_stored_Y env n (n - 20) (by omega) (by omega),
      sampling_stored_Z env n (n - 20) (by omega) (by omega)⟩

/-- C16, at a concrete input: after 47 calls the write indices are 7 and slot 7 of the Y
buffer holds reading 27. -/
theorem C16_ring_index_invariant_witness :
    ((20 : Nat) ≤ 47)
    ∧ ((sampling demoEnv)^[47] Signal.init).ringbuf_index_x = 7
    ∧ ((sampling demoEnv)^[47] Signal.init).ringbuf_index_y = 7
    ∧ ((sampling demoEnv)^[47] Signal.init).ringbuf_index_z = 7
    ∧ ((sampling demoEnv)^[47] Signal.init).ringbufY (47 % 20)
        = ((demoEnv.ReadData (47 - 20)).y : ℚ) / 17694 := by
  have h := C16_ring_index_invariant demoEnv 47
  exact ⟨by decide, h.1.1, h.1.2.1, h.1.2.2, (h.2.2.2.2.2.2.2 (by decide)).2.1⟩

/-- C17: `isS` returns what `isSU` returns on every window, so no window is labelled
Squats; when `isS` holds, the chain of tests of `freeToExercise` takes the SitUps branch;
and whatever the inputs and however long it runs, `freeToExercise` records at most one call
of a counting function, which is never `countS`. -/
theorem C17_squats_branch_unreachable (env : Env) (fuel : Nat) (s : State) :
    (isS s).1 = (isSU s).1
    ∧ (∀ w : Nat → Nat → ℚ, classify w ≠ .Squats)
    ∧ ((isS s).1 = true → freeDispatch env fuel s = startCounting env fuel s .SitUps)
    ∧ (∃ l : List (Counter × Int),
        calls (freeToExercise env fuel s).state.trace = calls s.trace ++ l
          ∧ l.length ≤ 1 ∧ ∀ c ∈ l, c.1 ≠ .countS) := by
  refine ⟨isS_eq_isSU s, classify_ne_Squats, ?_, calls_freeToExercise env fuel s⟩
  intro h
  rw [isS_eq_isSU] at h
  rw [freeDispatch_eq, if_pos h]

/-- C17, at a concrete input: in a session whose first window satisfies `isS` (and
`isSU`), the window is labelled SitUps and the only call recorded is `countSU(3)`. -/
theorem C17_squats_branch_unreachable_witness :
    (isS (freeAcquire sitUpEnv State.init)).1 = true
    ∧ (isSU (freeAcquire sitUpEnv State.init)).1 = true
    ∧ classify (freeAcquire sitUpEnv State.init).sig.presamplesBuffer = .SitUps
    ∧ freeDispatch sitUpEnv 10 (freeAcquire sitUpEnv State.init)
        = startCounting sitUpEnv 10 (freeAcquire sitUpEnv State.init) .SitUps
    ∧ calls (freeToExercise sitUpEnv 5 State.init).state.trace = [(.countSU, 3)] := by
  have h := C17_squats_branch_unreachable sitUpEnv 10 (freeAcquire sitUpEnv State.init)
  have hall : (isS (freeAcquire sitUpEnv State.init)).1 = true
      ∧ classify (freeAcquire sitUpEnv State.init).sig.presamplesBuffer = .SitUps
      ∧ calls (freeToExercise sitUpEnv 5 State.init).state.trace = [(.countSU, 3)] := by
    decide!
  exact ⟨hall.1, h.1 ▸ hall.1, hall.2.1, h.2.2.1 hall.1, hall.2.2⟩

/-- C18: a counting function called with a seed of at least 5 returns at once: the button
is not read, no window is acquired, and nothing is written but the record of the call; so
if a run writes anything more (such as a blink of the display) its seed was below 5. A seed
of at least 5 does occur in free-exercise mode: with the button never pressed and a first
window labelled JumpingJacks with 6 peaks, `freeToExercise` reads the button once, takes 20
readings, calls `countJJ(6)` and writes no blink of the display between the call and the
three closing all-LED blinks. -/
theorem C18_seed_at_least_5_returns_at_once (f : Counter) (env : Env) (fuel : Nat)
    (s : State) (seed : Int) :
    (5 ≤ seed →
      f.run env (fuel + 1) s seed = .returned { s.emit [.call f seed] with count := seed }
      ∧ (f.run env (fuel + 1) s seed).state.polls = s.polls
      ∧ (f.run env (fuel + 1) s seed).state.sig = s.sig
      ∧ (f.run env (fuel + 1) s seed).state.trace = s.trace ++ [.call f seed])
    ∧ ((f.run env fuel s seed).state.trace ≠ s.trace ++ [.call f seed] → seed < 5)
    ∧ (classify (freeAcquire sixPeaksEnv State.init).sig.presamplesBuffer = .JumpingJacks
        ∧ strictLocalMaxCount (freeAcquire sixPeaksEnv State.init).sig.presamplesBuffer = 6
        ∧ (freeToExercise sixPeaksEnv 5 State.init).isReturned = true
        ∧ (freeToExercise sixPeaksEnv 5 State.init).state.polls = 1
        ∧ (freeToExercise sixPeaksEnv 5 State.init).state.sig.reads = 20
        ∧ (freeToExercise sixPeaksEnv 5 State.init).state.trace
            = (List.replicate 3 (chase .LED3 .LED5 .LED6 .LED4)).flatten
              ++ [.led .LED6 true, .print .JumpJacks, .call .countJJ 6]
              ++ (List.replicate 3 blinkAll).flatten) := by
  refine ⟨?_, ?_, by decide!⟩
  · intro h5
    rw [run_seed_ge5 f env fuel s seed h5]
    exact ⟨rfl, rfl, rfl, rfl⟩
  · intro hne
    by_contra h5
    exact hne (run_seed_ge5_trace f env fuel s seed (not_lt.mp h5))

/-- C18, at a concrete input: `countJJ` with seed 6. -/
theorem C18_seed_at_least_5_returns_at_once_witness :
    ((5 : Int) ≤ 6)
    ∧ countJJ routineEnv (10 + 1) State.init 6
        = .returned { State.init.emit [.call .countJJ 6] with count := 6 }
    ∧ (countJJ routineEnv (10 + 1) State.init 6).state.polls = 0
    ∧ (countJJ routineEnv (10 + 1) State.init 6).state.trace = [.call .countJJ 6] := by
  have h := (C18_seed_at_least_5_returns_at_once .countJJ routineEnv 10 State.init 6).1
    (by decide)
  exact ⟨by decide, h.1, h.2.1, h.2.2.2⟩

/-- C19: in a counting function with the tally below 5, a pass of the outer loop in which
the button is read as pressed consumes that one reading, acquires no window, leaves the
tally unchanged and writes only the `tally` blinks of the display (nothing at all when the
tally is 0); `K` pressed readings in a row give `K` such passes; and if the button is read
as pressed at every poll, the function never returns, whatever the fuel, and its tally and
signal state never change (nor its outputs, when the tally is 0). -/
theorem C19_pressed_button_stalls_counting (f : Counter) (env : Env) (fuel : Nat) (s : State)
    (hc : s.count < 5) :
    (env.MyButton s.polls = true →
      f.outer env (fuel + 2) s = f.outer env (fuel + 1) (pressedPass f.led s)
      ∧ (pressedPass f.led s).sig = s.sig
      ∧ (pressedPass f.led s).count = s.count
      ∧ (pressedPass f.led s).polls = s.polls + 1
      ∧ (pressedPass f.led s).trace
          = s.trace
            ++ (List.replicate s.count.toNat [Event.led f.led true, .led f.led false]).flatten
      ∧ (s.count = 0 → (pressedPass f.led s).trace = s.trace))
    ∧ (∀ K, (∀ k, k < K → env.MyButton (s.polls + k) = true) →
        f.outer env (fuel + K + 1) s = f.outer env (fuel + 1) ((pressedPass f.led)^[K] s)
        ∧ ((pressedPass f.led)^[K] s).sig = s.sig
        ∧ ((pressedPass f.led)^[K] s).count = s.count
        ∧ ((pressedPass f.led)^[K] s).polls = s.polls + K
        ∧ (s.count = 0 → ((pressedPass f.led)^[K] s).trace = s.trace))
    ∧ ((∀ k, env.MyButton k = true) →
        (f.outer env fuel s).isReturned = false
        ∧ (f.outer env fuel s).state.count = s.count
        ∧ (f.outer env fuel s).state.sig = s.sig
        ∧ (s.count = 0 → (f.outer env fuel s).state.trace = s.trace)) := by
  refine ⟨?_, ?_, ?_⟩
  · intro hb
    obtain ⟨p1, p2, p3, p4, p5⟩ := pressedPass_fields f.led s
    refine ⟨?_, p1, p2, p3, p4, p5⟩
    rw [Counter.outer_eq, Counter.outer_eq, count_outer_pressed f.led env fuel s hc hb]
    rfl
  · intro K hb
    obtain ⟨p1, p2, p3, p4⟩ := iterate_pressedPass f.led K s
    refine ⟨?_, p1, p2, p3, p4⟩
    rw [Counter.outer_eq, Counter.outer_eq, count_outer_pressed_passes f.led env K fuel s hc hb]
  · intro hb
    rw [Counter.outer_eq]
    obtain ⟨h1, h2, h3⟩ := count_pressed_forever f.led env hb fuel s hc
    exact ⟨h1, h2, h3, count_pressed_forever_trace f.led env hb fuel s⟩

/-- C19, at a concrete input: `countSU` with tally 0 and the button always pressed is still
running after 50 units of fuel with nothing changed but the number of polls; with tally 4 a
pressed pass replays 4 blinks of LED3. -/
theorem C19_pressed_button_stalls_counting_witness :
    (State.init.count < 5 ∧ ∀ k, pressedEnv.MyButton k = true)
    ∧ (countSU_outer pressedEnv 50 State.init).isReturned = false
    ∧ (countSU_outer pressedEnv 50 State.init).state.count = State.init.count
    ∧ (countSU_outer pressedEnv 50 State.init).state.sig = State.init.sig
    ∧ (countSU_outer pressedEnv 50 State.init).state.trace = State.init.trace
    ∧ countSU_outer pressedEnv (10 + 2) tallyFour
        = countSU_outer pressedEnv (10 + 1) (pressedPass .LED3 tallyFour)
    ∧ (pressedPass .LED3 tallyFour).trace
        = (List.replicate 4 [Event.led .LED3 true, .led .LED3 false]).flatten := by
  have h := (C19_pressed_button_stalls_counting .countSU pressedEnv 50 State.init
    (by decide)).2.2 (fun _ => rfl)
  have h4 := (C19_pressed_button_stalls_counting .countSU pressedEnv 10 tallyFour
    (by decide)).1 rfl
  exact ⟨⟨by decide, fun _ => rfl⟩, h.1, h.2.1, h.2.2.1, h.2.2.2 rfl, h4.1, h4.2.2.2.2.1⟩

/-- C20: the peak count of every window is at most 9 (so a scan adds at most 9 to the
counter), because no two adjacent indices are both strict local maxima of the Y column;
the strictly alternating column 0, 1, 0, 1, ... has exactly 9. -/
theorem C20_peak_count_at_most_9 (w : Nat → Nat → ℚ) :
    strictLocalMaxCount w ≤ 9
    ∧ (∀ c : Int, peakScan w c ≤ c + 9)
    ∧ (∀ i, ¬ ((w i 1 > w (i - 1) 1 ∧ w i 1 > w (i + 1) 1)
        ∧ (w (i + 1) 1 > w (i + 1 - 1) 1 ∧ w (i + 1) 1 > w (i + 1 + 1) 1)))
    ∧ strictLocalMaxCount alternatingWindow = 9
    ∧ peakScan alternatingWindow 0 = 9 := by
  refine ⟨strictLocalMaxCount_le w, ?_, not_adjacent_peaks w, by decide, by decide⟩
  intro c
  rw [peakScan_eq]
  have h : (strictLocalMaxCount w : Int) ≤ 9 := by exact_mod_cast strictLocalMaxCount_le w
  omega

/-- C20, at a concrete input: the window 1, 3, 1, 5, 1, ... -/
theorem C20_peak_count_at_most_9_witness :
    strictLocalMaxCount windowTwoPeaks ≤ 9
    ∧ peakScan windowTwoPeaks 4 ≤ 4 + 9
    ∧ ¬ ((windowTwoPeaks 1 1 > windowTwoPeaks (1 - 1) 1
          ∧ windowTwoPeaks 1 1 > windowTwoPeaks (1 + 1) 1)
        ∧ (windowTwoPeaks (1 + 1) 1 > windowTwoPeaks (1 + 1 - 1) 1
          ∧ windowTwoPeaks (1 + 1) 1 > windowTwoPeaks (1 + 1 + 1) 1)) := by
  have h := C20_peak_count_at_most_9 windowTwoPeaks
  exact ⟨h.1, h.2.1 4, h.2.2.1 1⟩

/-- Claim C21, as stated, fails on the floating-point code. In the environment `rampEnv`
take the power-on state (write indices 0) and the state reached from power-on by 13 calls
of `sampling` (write indices 13, so both are in 0..19); the readings repeat every 13 calls,
so the 20 raw readings of the window are the same in both runs. With IEEE rounding the 20
`float` slots are added in slot order, which starts at the oldest reading in the first run
and at the eighth one in the second: the filtered Y mean of the last call is
16019614 / 2^24 in the first run and 16019613 / 2^24 in the second, and entry 19 of the
window differs (with the linear stand-in for the inverse cosine, 8523023 / 2^21 against
4261517 / 2^20 degrees, whether the angle is computed in `double` or in `float`). -/
theorem C21_counterexample_start_index_changes_last_entry :
    (Signal.init.ringbuf_index_x < 20 ∧ Signal.init.ringbuf_index_y < 20
      ∧ Signal.init.ringbuf_index_z < 20)
    ∧ (rampPrior.ringbuf_index_x = 13 ∧ rampPrior.ringbuf_index_y = 13
      ∧ rampPrior.ringbuf_index_z = 13)
    ∧ (∀ m, m < 20 → rampEnv.ReadData (rampPrior.reads + m)
        = rampEnv.ReadData (Signal.init.reads + m))
    ∧ (sampleTwoSecondsFloat Rounding.ieee rampEnv Signal.init).presamplesBuffer 19 1
        ≠ (sampleTwoSecondsFloat Rounding.ieee rampEnv rampPrior).presamplesBuffer 19 1
    ∧ (movingAverageFloat Rounding.ieee
          (sampleTwoSecondsFloat Rounding.ieee rampEnv Signal.init).ringbufY
        = 16019614 / 16777216
      ∧ movingAverageFloat Rounding.ieee
          (sampleTwoSecondsFloat Rounding.ieee rampEnv rampPrior).ringbufY
        = 16019613 / 16777216)
    ∧ ((sampleTwoSecondsFloat Rounding.ieee rampEnv Signal.init).presamplesBuffer 19 1
        = 8523023 / 2097152
      ∧ (sampleTwoSecondsFloat Rounding.ieee rampEnv rampPrior).presamplesBuffer 19 1
        = 4261517 / 1048576)
    ∧ ((sampleTwoSecondsFloat Rounding.ieeeSingleAngle rampEnv Signal.init).presamplesBuffer
          19 1 = 8523023 / 2097152
      ∧ (sampleTwoSecondsFloat Rounding.ieeeSingleAngle rampEnv rampPrior).presamplesBuffer
          19 1 = 4261517 / 1048576) := by
  decide!

/-- Claim C21, amended: the two prior states have the same write indices. For every
rounding of the floating-point operations, `sampleTwoSeconds` consumes exactly 20 readings,
and 20 is both the window length and the filter length. If the three write indices are
below 20 when a window starts, then after the window they are back where they started and
every ring-buffer slot holds a normalised reading of this window (slot `(i0 + m) % 20`
holds reading `m`, and every slot is of that form). Entry `i` of the window is the angle of
the clamped filtered mean of the ring buffer after `i + 1` insertions, which holds the
first `i + 1` readings of the window and, in the `19 - i` slots `(i0 + m) % 20`,
`i < m < 20`, what the ring buffer held before the window. Hence for any other prior state
with the same write indices and the same 20 readings, entry 19 is the same on all three
axes. Without rounding the model is the exact one, where entry `i` is the angle of the mean
`entryMean` and entry 19 is the same for all write indices below 20. Entries `i < 19` do
depend on the prior state: at rest, a Y ring buffer primed with -1 changes every one of
them, with IEEE rounding and without rounding. -/
theorem C21_last_entry_same_start_index (fl : Rounding) (env : Env) (g : Signal)
    (hx : g.ringbuf_index_x < 20) (hy : g.ringbuf_index_y < 20) (hz : g.ringbuf_index_z < 20) :
    ((sampleTwoSecondsFloat fl env g).reads = g.reads + 20 ∧ PRESAMPLE_LENGTH = N)
    ∧ ((sampleTwoSecondsFloat fl env g).ringbuf_index_x = g.ringbuf_index_x
      ∧ (sampleTwoSecondsFloat fl env g).ringbuf_index_y = g.ringbuf_index_y
      ∧ (sampleTwoSecondsFloat fl env g).ringbuf_index_z = g.ringbuf_index_z)
    ∧ (∀ m, m < 20 →
        (sampleTwoSecondsFloat fl env g).ringbufX ((g.ringbuf_index_x + m) % 20)
          = fl.single (fl.double (((env.ReadData (g.reads + m)).x : ℚ) / 17694))
        ∧ (sampleTwoSecondsFloat fl env g).ringbufY ((g.ringbuf_index_y + m) % 20)
          = fl.single (fl.double (((env.ReadData (g.reads + m)).y : ℚ) / 17694))
        ∧ (sampleTwoSecondsFloat fl env g).ringbufZ ((g.ringbuf_index_z + m) % 20)
          = fl.single (fl.double (((env.ReadData (g.reads + m)).z : ℚ) / 17694)))
    ∧ (∀ i0 j, i0 < 20 → j < 20 → ∃ m, m < 20 ∧ (i0 + m) % 20 = j)
    ∧ (∀ i, i < 20 →
        (sampleTwoSecondsFloat fl env g).presamplesBuffer i 0
          = angleDegFloat fl env (restrictTo1g (movingAverageFloat fl
              (ringAfter g.ringbufX g.ringbuf_index_x
                (fun m => fl.single (fl.double (((env.ReadData (g.reads + m)).x : ℚ) / 17694)))
                (i + 1)).1))
        ∧ (sampleTwoSecondsFloat fl env g).presamplesBuffer i 1
          = angleDegFloat fl env (restrictTo1g (movingAverageFloat fl
              (ringAfter g.ringbufY g.ringbuf_index_y
                (fun m => fl.single (fl.double (((env.ReadData (g.reads + m)).y : ℚ) / 17694)))
                (i + 1)).1))
        ∧ (sampleTwoSecondsFloat fl env g).presamplesBuffer i 2
          = angleDegFloat fl env (restrictTo1g (movingAverageFloat fl
              (ringAfter g.ringbufZ g.ringbuf_index_z
                (fun m => fl.single (fl.double (((env.ReadData (g.reads + m)).z : ℚ) / 17694)))
                (i + 1)).1)))
    ∧ (∀ (buf v : Nat → ℚ) (i0 i m : Nat), i0 < 20 → i < 20 → m < 20 →
        (ringAfter buf i0 v (i + 1)).1 ((i0 + m) % 20)
          = if m ≤ i then v m else buf ((i0 + m) % 20))
    ∧ (∀ g' : Signal, g'.ringbuf_index_x = g.ringbuf_index_x
        → g'.ringbuf_index_y = g.ringbuf_index_y → g'.ringbuf_index_z = g.ringbuf_index_z
        → (∀ m, m < 20 → env.ReadData (g'.reads + m) = env.ReadData (g.reads + m))
        → ∀ k, k < 3 → (sampleTwoSecondsFloat fl env g').presamplesBuffer 19 k
            = (sampleTwoSecondsFloat fl env g).presamplesBuffer 19 k)
    ∧ (sampleTwoSecondsFloat Rounding.exact env g = sampleTwoSeconds env g
      ∧ (∀ i, i < 20 →
          (sampleTwoSeconds env g).presamplesBuffer i 0
            = 180 * env.acos (min (entryMean
                (fun m => ((env.ReadData (g.reads + m)).x : ℚ) / 17694) g.ringbufX
                g.ringbuf_index_x i) 1) / PI
          ∧ (sampleTwoSeconds env g).presamplesBuffer i 1
            = 180 * env.acos (min (entryMean
                (fun m => ((env.ReadData (g.reads + m)).y : ℚ) / 17694) g.ringbufY
                g.ringbuf_index_y i) 1) / PI
          ∧ (sampleTwoSeconds env g).presamplesBuffer i 2
            = 180 * env.acos (min (entryMean
                (fun m => ((env.ReadData (g.reads + m)).z : ℚ) / 17694) g.ringbufZ
                g.ringbuf_index_z i) 1) / PI
          ∧ (Finset.Ico (i + 1) 20).card = 19 - i)
      ∧ (∀ g' : Signal, g'.ringbuf_index_x < 20 → g'.ringbuf_index_y < 20
          → g'.ringbuf_index_z < 20
          → (∀ m, m < 20 → env.ReadData (g'.reads + m) = env.ReadData (g.reads + m))
          → ∀ k, k < 3 → (sampleTwoSeconds env g').presamplesBuffer 19 k
              = (sampleTwoSeconds env g).presamplesBuffer 19 k))
    ∧ ((∀ i, i < 19 →
          (sampleTwoSecondsFloat Rounding.ieee stillEnv primedSignal).presamplesBuffer i 1
            ≠ (sampleTwoSecondsFloat Rounding.ieee stillEnv Signal.init).presamplesBuffer i 1)
      ∧ (∀ i, i < 19 →
          (sampleTwoSeconds stillEnv primedSignal).presamplesBuffer i 1
            ≠ (sampleTwoSeconds stillEnv Signal.init).presamplesBuffer i 1)) := by
  refine ⟨⟨sampleTwoSecondsFloat_reads fl env g, rfl⟩,
    sampleTwoSecondsFloat_indices fl env g hx hy hz,
    sampleTwoSecondsFloat_slots fl env g hx hy hz, slot_reached,
    windowFloat_entry fl env g,
    fun buf v i0 i m h0 hi hm => ringAfter_slot buf i0 v h0 i m hi hm,
    fun g' ex ey ez hsame k hk => lastFloat_entry_eq fl env g g' hx hy hz ex ey ez hsame k hk,
    ⟨sampleTwoSecondsFloat_exact env g, ?_, ?_⟩, by decide!⟩
  · intro i hi
    obtain ⟨a1, a2, a3⟩ := window_entry env g hx hy hz i hi
    refine ⟨a1, a2, a3, ?_⟩
    rw [Nat.card_Ico]
    omega
  · intro g' hx' hy' hz' hsame k hk
    exact last_entry_eq env g g' hx hy hz hx' hy' hz' hsame k hk

/-- Witness for the amended C21: in `rampEnv` with IEEE rounding, the window started in the
state reached by 13 calls from power-on and the window started in the state reached by 13
calls from the primed state. The write indices are 13 in both and the readings are the
same; entry 19 of the Y axis is 4261517 / 2^20 degrees in both runs, while entry 0
differs. -/
theorem C21_last_entry_same_start_index_witness :
    (rampPrior.ringbuf_index_x < 20 ∧ rampPrior.ringbuf_index_y < 20
      ∧ rampPrior.ringbuf_index_z < 20)
    ∧ (rampPriorPrimed.ringbuf_index_x = rampPrior.ringbuf_index_x
      ∧ rampPriorPrimed.ringbuf_index_y = rampPrior.ringbuf_index_y
      ∧ rampPriorPrimed.ringbuf_index_z = rampPrior.ringbuf_index_z)
    ∧ (∀ m, m < 20 → rampEnv.ReadData (rampPriorPrimed.reads + m)
        = rampEnv.ReadData (rampPrior.reads + m))
    ∧ (sampleTwoSecondsFloat Rounding.ieee rampEnv rampPriorPrimed).presamplesBuffer 19 1
        = (sampleTwoSecondsFloat Rounding.ieee rampEnv rampPrior).presamplesBuffer 19 1
    ∧ (sampleTwoSecondsFloat Rounding.ieee rampEnv rampPrior).presamplesBuffer 19 1
        = 4261517 / 1048576
    ∧ (sampleTwoSecondsFloat Rounding.ieee rampEnv rampPriorPrimed).presamplesBuffer 0 1
        ≠ (sampleTwoSecondsFloat Rounding.ieee rampEnv rampPrior).presamplesBuffer 0 1 := by
  have e : (rampPrior.ringbuf_index_x < 20 ∧ rampPrior.ringbuf_index_y < 20
        ∧ rampPrior.ringbuf_index_z < 20)
      ∧ (rampPriorPrimed.ringbuf_index_x = rampPrior.ringbuf_index_x
        ∧ rampPriorPrimed.ringbuf_index_y = rampPrior.ringbuf_index_y
        ∧ rampPriorPrimed.ringbuf_index_z = rampPrior.ringbuf_index_z)
      ∧ (∀ m, m < 20 → rampEnv.ReadData (rampPriorPrimed.reads + m)
          = rampEnv.ReadData (rampPrior.reads + m))
      ∧ (sampleTwoSecondsFloat Rounding.ieee rampEnv rampPrior).presamplesBuffer 19 1
          = 4261517 / 1048576
      ∧ (sampleTwoSecondsFloat Rounding.ieee rampEnv rampPriorPrimed).presamplesBuffer 0 1
          ≠ (sampleTwoSecondsFloat Rounding.ieee rampEnv rampPrior).presamplesBuffer 0 1 := by
    decide!
  have h := C21_last_entry_same_start_index Rounding.ieee rampEnv rampPrior e.1.1 e.1.2.1
    e.1.2.2
  exact ⟨e.1, e.2.1, e.2.2.1,
    h.2.2.2.2.2.2.1 rampPriorPrimed e.2.1.1 e.2.1.2.1 e.2.1.2.2 e.2.2.1 1 (by decide),
    e.2.2.2.1, e.2.2.2.2⟩

/-- Claim C22. The four counting functions are one function up to the LED they drive. Each
of `countSU`, `countPU`, `countJJ`, `countS`, transcribed separately from the source, equals
the generic counter `countGeneric` instantiated with its own LED, and so do its inner and
outer loops. For any two of them started in the same state with the same seed, on the same
accelerometer and button streams and cut off after the same number of loop iterations
(any `fuel`, so at every step): both have returned or both are still running; the signal
state (hence the windows acquired and the readings consumed), the number of button polls,
the tally and the flags are equal; and the traces are the common earlier trace, the call
event, and the same number `n` of short blinks, each on the function's own LED. -/
theorem C22_counting_loops_equal_up_to_led (f1 f2 : Counter) (env : Env) (fuel : Nat)
    (s : State) (seed : Int) :
    (f1.run env fuel s seed = countGeneric f1 env fuel s seed
      ∧ (∀ s0, f1.inner env fuel s0 = count_inner env fuel s0)
      ∧ (∀ s0, f1.outer env fuel s0 = count_outer f1.led env fuel s0))
    ∧ (f1.run env fuel s seed).isReturned = (f2.run env fuel s seed).isReturned
    ∧ (f1.run env fuel s seed).state.sig = (f2.run env fuel s seed).state.sig
    ∧ (f1.run env fuel s seed).state.polls = (f2.run env fuel s seed).state.polls
    ∧ (f1.run env fuel s seed).state.count = (f2.run env fuel s seed).state.count
    ∧ (f1.run env fuel s seed).state.isButtonPressed
        = (f2.run env fuel s seed).state.isButtonPressed
    ∧ (f1.run env fuel s seed).state.finished = (f2.run env fuel s seed).state.finished
    ∧ ∃ n, (f1.run env fuel s seed).state.trace
            = s.trace ++ [.call f1 seed] ++ blinks f1.led n
        ∧ (f2.run env fuel s seed).state.trace
            = s.trace ++ [.call f2 seed] ++ blinks f2.led n
        ∧ onCount f1.led (blinks f1.led n) = n
        ∧ onCount f2.led (blinks f2.led n) = n := by
  obtain ⟨n, s', h1, h2, h3⟩ := countGeneric_two f1 f2 env fuel s seed
  rw [Counter.run_eq f1, Counter.run_eq f2, h1, h2, h3]
  exact ⟨⟨rfl, fun s0 => Counter.inner_eq f1 env fuel s0,
      fun s0 => Counter.outer_eq f1 env fuel s0⟩, rfl, rfl, rfl, rfl, rfl, rfl,
    n, rfl, rfl, onCount_blinks _ n, onCount_blinks _ n⟩

/-- Witness for C22: `countSU` and `countJJ` with seed 2 on the routine environment, where
the button is pressed at the first poll and every window holds six peaks. Both return with
tally 8 after 20 readings and 3 polls, `countSU` with 10 blinks of LED3 and `countJJ` with
10 blinks of LED6. -/
theorem C22_counting_loops_equal_up_to_led_witness :
    (Counter.countSU.run routineEnv 4 State.init 2).isReturned = true
    ∧ (Counter.countJJ.run routineEnv 4 State.init 2).isReturned = true
    ∧ (Counter.countSU.run routineEnv 4 State.init 2).state.sig
        = (Counter.countJJ.run routineEnv 4 State.init 2).state.sig
    ∧ (Counter.countSU.run routineEnv 4 State.init 2).state.sig.reads = 20
    ∧ (Counter.countJJ.run routineEnv 4 State.init 2).state.polls = 3
    ∧ (Counter.countJJ.run routineEnv 4 State.init 2).state.count = 8
    ∧ (Counter.countSU.run routineEnv 4 State.init 2).state.trace
        = .call .countSU 2 :: blinks .LED3 10
    ∧ (Counter.countJJ.run routineEnv 4 State.init 2).state.trace
        = .call .countJJ 2 :: blinks .LED6 10 := by
  have h := C22_counting_loops_equal_up_to_led .countSU .countJJ routineEnv 4 State.init 2
  have e : (Counter.countSU.run routineEnv 4 State.init 2).isReturned = true
      ∧ (Counter.countSU.run routineEnv 4 State.init 2).state.sig.reads = 20
      ∧ (Counter.countSU.run routineEnv 4 State.init 2).state.polls = 3
      ∧ (Counter.countSU.run routineEnv 4 State.init 2).state.count = 8
      ∧ (Counter.countSU.run routineEnv 4 State.init 2).state.trace
          = .call .countSU 2 :: blinks .LED3 10
      ∧ (Counter.countJJ.run routineEnv 4 State.init 2).state.trace
          = .call .countJJ 2 :: blinks .LED6 10 := by decide!
  exact ⟨e.1, h.2.1 ▸ e.1, h.2.2.1, e.2.1, h.2.2.2.1 ▸ e.2.2.1, h.2.2.2.2.1 ▸ e.2.2.2.1,
    e.2.2.2.2.1, e.2.2.2.2.2⟩

end MotionDetection
